import Mathlib

/-!
The checks and metrics of sensu-check-disk.

A shallow embedding of the three SMART probes (`cmd/check-smart`,
`cmd/check-smart-status`, `cmd/check-smart-tests`) and the properties of
their device resolution, per-device classification, report parsers, severity
aggregation and printed message; of the loop of `cmd/check-fstab-mounts` with
the helper `shouldSkipEntry` of its tests; and of `sanitizePath` of the two
metrics commands.

Conventions of the embedding.

* A Go `string` is a list of code points (`Str`); the diagnostic tool's
  reports are text, so byte sequences that are not UTF-8 are out of scope.
* The external process `exec.Command(...).CombinedOutput()` is an input:
  every evaluated device comes with the output and the error it produced.
* The file system is an input of `checkArgs` (`Host`): the results of
  `os.Stat`, `os.ReadFile` and `json.Unmarshal`.
* `fmt.Printf` is modelled by returning the printed line.
* Go `int` is `Int`; all values stay far from the 64-bit limits except
  where wrap-around is written out (`time.wrap64`, `strconv.Atoi`).
* `time.Now()` is an input: the readings of the monotonic clock one call of
  `parseTestLog` takes (`time.Clock`). The rounding of a real number to a
  `float64` is a parameter `f64 : ℚ → ℚ`; the properties that depend on it
  assume it monotone and exact on integers (`time.IsRounding`).
* The standard library (`strings`, `unicode`, `strconv`, `regexp`, `time`,
  `fmt`) and the plugin SDK constants are modelled in namespaces of the
  same names, as far as the probes use them.
-/

/-- Go `string`, as its sequence of code points. -/
abbrev Str := List Char

/-! ## Part I. Definitions -/

/-! ### unicode -/

namespace unicode

/-- Code point U+0130, LATIN CAPITAL LETTER I WITH DOT ABOVE. -/
def capitalDottedI : Char := Char.ofNat 0x130

/-- Code point U+212A, KELVIN SIGN. -/
def kelvinSign : Char := Char.ofNat 0x212A

/-- Code point U+017F, LATIN SMALL LETTER LONG S. -/
def longS : Char := Char.ofNat 0x17F

/-- `unicode.ToLower`, on every code point whose lower-case form is an ASCII
letter: the letters `A`-`Z`, U+0130 (lower case `i`) and U+212A (lower case
`k`). Other code points are returned unchanged; their lower-case forms lie
outside ASCII, and the probes only search the lowered text for ASCII words. -/
def ToLower (c : Char) : Char :=
  if 'A' ≤ c ∧ c ≤ 'Z' then Char.ofNat (c.toNat + 32)
  else if c = capitalDottedI then 'i'
  else if c = kelvinSign then 'k'
  else c

/-- `unicode.IsSpace`: the code points with the White_Space property. -/
def IsSpace (c : Char) : Bool :=
  let n := c.toNat
  (9 ≤ n && n ≤ 13) || n == 0x20 || n == 0x85 || n == 0xA0 || n == 0x1680
    || (0x2000 ≤ n && n ≤ 0x200A) || n == 0x2028 || n == 0x2029 || n == 0x202F
    || n == 0x205F || n == 0x3000

end unicode

/-! ### strings -/

namespace strings

/-- `strings.HasPrefix(s, p)`. -/
def HasPrefix : Str → Str → Bool
  | _, [] => true
  | [], _ :: _ => false
  | c :: s, p :: ps => c == p && HasPrefix s ps

/-- `strings.Contains(s, substr)`: `substr` occurs in `s` at some offset. -/
def Contains : Str → Str → Bool
  | [], substr => HasPrefix [] substr
  | c :: s, substr => HasPrefix (c :: s) substr || Contains s substr

/-- `strings.ToLower(s)`. -/
def ToLower (s : Str) : Str := s.map unicode.ToLower

/-- `strings.TrimSpace(s)`: leading and trailing white space removed. -/
def TrimSpace (s : Str) : Str :=
  ((s.dropWhile unicode.IsSpace).reverse.dropWhile unicode.IsSpace).reverse

/-- `strings.Split(s, sep)` for a separator of one code point (the probes
split on the line feed only): the pieces between the separators, at least one. -/
def Split : Str → Char → List Str
  | [], _ => [[]]
  | c :: s, sep =>
    if c = sep then [] :: Split s sep
    else
      match Split s sep with
      | [] => [[c]]
      | piece :: pieces => (c :: piece) :: pieces

/-- `strings.Join(elems, sep)`. -/
def Join : List Str → Str → Str
  | [], _ => []
  | [e], _ => e
  | e :: f :: rest, sep => e ++ sep ++ Join (f :: rest) sep

end strings

/-! ### strconv and fmt -/

namespace strconv

/-- Largest value of a 64-bit `int`. -/
def maxInt : Int := 2 ^ 63 - 1

/-- Value of a string of decimal digits read left to right, or `none` when a
character is not a digit. -/
def digitsValue : Str → Nat → Option Nat
  | [], acc => some acc
  | c :: s, acc =>
    if '0' ≤ c ∧ c ≤ '9' then digitsValue s (acc * 10 + (c.toNat - 48)) else none

/-- `strconv.Atoi(s)`, the value only (the probes discard the error): an
optional sign and decimal digits; `0` on a syntax error; the nearest 64-bit
value when out of range. -/
def Atoi (s : Str) : Int :=
  match s with
  | [] => 0
  | '-' :: t =>
    match t, digitsValue t 0 with
    | _ :: _, some n => max (-(n : Int)) (-(2 ^ 63))
    | _, _ => 0
  | '+' :: t =>
    match t, digitsValue t 0 with
    | _ :: _, some n => min (n : Int) maxInt
    | _, _ => 0
  | _ =>
    match digitsValue s 0 with
    | some n => min (n : Int) maxInt
    | none => 0

end strconv

namespace fmt

/-- The verb `%d` on an `int`. -/
def decimal (n : Int) : Str :=
  if n < 0 then '-' :: Nat.toDigits 10 n.natAbs else Nat.toDigits 10 n.natAbs

/-- The verb `%v` on a `[]string`: the elements separated by one space, in
square brackets. -/
def sliceV (elems : List Str) : Str :=
  '[' :: (strings.Join elems " ".toList ++ "]".toList)

end fmt

/-! ### regexp: a backtracking matcher

Go documents that `regexp` returns the leftmost match and, among the matches
starting there, "the one that a backtracking search would have found first".
The matcher below is that backtracking search, in continuation-passing style.
-/

namespace regexp

/-- Syntax of the patterns the probes compile. -/
inductive Re where
  | eps
  | cls (p : Char → Bool)
  | cat (a b : Re)
  | alt (a b : Re)
  | star (a : Re)
  | lazyStar (a : Re)
  | cap (i : Nat) (a : Re)

/-- Text of the capture groups, by group number; a group that did not take
part in the match is the empty string. -/
abbrev Caps := Nat → Str

/-- The rest of a match: given the unread input and the groups so far, the
final unread input and groups of a whole match, if there is one. -/
abbrev Kont := Str → Caps → Option (Str × Caps)

/-- Records the text of group `i`. -/
def Caps.set (c : Caps) (i : Nat) (v : Str) : Caps := fun j => if j = i then v else c j

/-- Greedy repetition `a*`: tries one more round of `step` first, then the
continuation. A round that consumes nothing is cut, so `n` rounds suffice on
an input of `n` characters. -/
def starLoop (step : Str → Caps → Kont → Option (Str × Caps)) :
    Nat → Str → Caps → Kont → Option (Str × Caps)
  | 0, s, c, k => k s c
  | n + 1, s, c, k =>
    match step s c (fun s1 c1 => if s1.length < s.length then starLoop step n s1 c1 k else none) with
    | some r => some r
    | none => k s c

/-- Lazy repetition `a*?`: tries the continuation first, then one more round. -/
def lazyLoop (step : Str → Caps → Kont → Option (Str × Caps)) :
    Nat → Str → Caps → Kont → Option (Str × Caps)
  | 0, s, c, k => k s c
  | n + 1, s, c, k =>
    match k s c with
    | some r => some r
    | none => step s c (fun s1 c1 => if s1.length < s.length then lazyLoop step n s1 c1 k else none)

/-- Backtracking search for a match of the pattern at the start of `s`,
alternatives in priority order. -/
def Re.run : Re → Str → Caps → Kont → Option (Str × Caps)
  | .eps, s, c, k => k s c
  | .cls p, s, c, k =>
    match s with
    | [] => none
    | a :: t => if p a then k t c else none
  | .cat a b, s, c, k => a.run s c (fun s1 c1 => b.run s1 c1 k)
  | .alt a b, s, c, k =>
    match a.run s c k with
    | some r => some r
    | none => b.run s c k
  | .star a, s, c, k => starLoop a.run s.length s c k
  | .lazyStar a, s, c, k => lazyLoop a.run s.length s c k
  | .cap i a, s, c, k =>
    a.run s c (fun s1 c1 => k s1 (c1.set i (s.take (s.length - s1.length))))

/-- The pattern `a+`. -/
def Re.plus (a : Re) : Re := .cat a (.star a)

/-- A literal word. -/
def Re.lit : Str → Re
  | [] => .eps
  | c :: s => .cat (.cls (fun x => x == c)) (Re.lit s)

/-- One literal character under the flag `(?i)`: the characters of its
simple case-folding orbit. For ASCII that is the letter in both cases, plus
U+212A for `k` and U+017F for `s`. -/
def foldClass (c : Char) (x : Char) : Bool :=
  x.toLower == c.toLower || (c.toLower == 'k' && x == unicode.kelvinSign)
    || (c.toLower == 's' && x == unicode.longS)

/-- A literal word under the flag `(?i)`. -/
def Re.litFold : Str → Re
  | [] => .eps
  | c :: s => .cat (.cls (foldClass c)) (Re.litFold s)

/-- The class `\s`: tab, line feed, form feed, carriage return, space. -/
def isSpaceClass (c : Char) : Bool :=
  c == '\t' || c == '\n' || c == Char.ofNat 12 || c == '\r' || c == ' '

/-- The class `\d`. -/
def isDigitClass (c : Char) : Bool := '0' ≤ c && c ≤ '9'

/-- The class `\w`. -/
def isWordClass (c : Char) : Bool :=
  isDigitClass c || ('a' ≤ c && c ≤ 'z') || ('A' ≤ c && c ≤ 'Z') || c == '_'

/-- The class `.` without the flag `s`: any character but the line feed. -/
def isDotClass (c : Char) : Bool := c != '\n'

/-- A compiled pattern and the number of its capture groups. -/
structure Regexp where
  prog : Re
  numSubexp : Nat

/-- The slice `FindStringSubmatch` returns for a match that leaves `rest`
unread of `s`: the matched text, then the text of each group. -/
def submatches (re : Regexp) (s rest : Str) (c : Caps) : List Str :=
  s.take (s.length - rest.length) :: (List.range re.numSubexp).map (fun i => c (i + 1))

/-- The search for a match that starts at the first character of `s`, with
no group set and a continuation that accepts: the unread rest and the groups. -/
def Regexp.matchHere (re : Regexp) (s : Str) : Option (Str × Caps) :=
  re.prog.run s (fun _ => []) (fun rest c => some (rest, c))

/-- `(*Regexp).FindStringSubmatch(s)`: the submatches of the leftmost match,
or the nil slice (the empty list) when the pattern matches nowhere. -/
def FindStringSubmatch (re : Regexp) : Str → List Str
  | [] =>
    match re.matchHere [] with
    | some (rest, c) => submatches re [] rest c
    | none => []
  | a :: t =>
    match re.matchHere (a :: t) with
    | some (rest, c) => submatches re (a :: t) rest c
    | none => FindStringSubmatch re t

end regexp

/-! ### The plugin SDK and the diagnostic command -/

namespace sensu

/-- `sensu.CheckStateOK`. -/
def CheckStateOK : Int := 0

/-- `sensu.CheckStateWarning`. -/
def CheckStateWarning : Int := 1

/-- `sensu.CheckStateCritical`. -/
def CheckStateCritical : Int := 2

end sensu

/-- What `cmd.CombinedOutput()` returned for one device: the combined output
as text and the error (`none` for `nil`, else the error's text). -/
structure CmdResult where
  output : Str
  err : Option Str
deriving DecidableEq

/-- The two slices `failures` and `warnings` a probe's loop appends to. -/
structure Tally where
  failures : List Str
  warnings : List Str
deriving DecidableEq

/-- What `executeCheck` hands back: the returned state and error, and the
line it printed. -/
structure Outcome where
  state : Int
  err : Option Str
  stdout : Str
deriving DecidableEq

/-! ### cmd/check-smart -/

namespace CheckSmart

/-- Body of the loop over `plugin.Devices` in `executeCheck`
(check-smart/main.go, lines 97-121), for one device and its command result. -/
def executeCheck.loop (t : Tally) (device : Str) (r : CmdResult) : Tally :=
  match r.err with
  | some e =>
    if strings.Contains r.output "Unsupported".toList
        || strings.Contains r.output "Unknown".toList then
      { t with warnings := t.warnings ++ [device ++ ": SMART not supported".toList] }
    else
      { t with failures := t.failures ++ [device ++ ": ".toList ++ e] }
  | none =>
    if strings.Contains r.output "PASSED".toList then t
    else if strings.Contains r.output "FAILING_NOW".toList
        || strings.Contains r.output "FAILED".toList then
      { t with failures := t.failures ++ [device ++ ": SMART health check FAILED".toList] }
    else
      { t with warnings := t.warnings ++ [device ++ ": Unknown SMART status".toList] }

/-- The slices after the loop of `executeCheck`. -/
def executeCheck.tally (runs : List (Str × CmdResult)) : Tally :=
  runs.foldl (fun t dr => executeCheck.loop t dr.1 dr.2) ⟨[], []⟩

/-- `executeCheck` of check-smart, on the devices of `plugin.Devices` paired
with the result of their diagnostic command. -/
def executeCheck (runs : List (Str × CmdResult)) : Outcome :=
  let t := executeCheck.tally runs
  if t.failures.length > 0 then
    ⟨sensu.CheckStateCritical, none,
      "CRITICAL - SMART health failures: ".toList ++ fmt.sliceV t.failures ++ "\n".toList⟩
  else if t.warnings.length > 0 then
    ⟨sensu.CheckStateWarning, none,
      "WARNING - SMART warnings: ".toList ++ fmt.sliceV t.warnings ++ "\n".toList⟩
  else
    ⟨sensu.CheckStateOK, none, "OK - All SMART health checks passed\n".toList⟩

end CheckSmart

/-! ### cmd/check-smart-status -/

namespace CheckSmartStatus

/-- The part both status patterns share after the label:
`\s*\(([^)]+)\)`. -/
def statusTail : regexp.Re :=
  .cat (.star (.cls regexp.isSpaceClass))
    (.cat (.cls (fun x => x == '('))
      (.cat (.cap 1 (regexp.Re.plus (.cls (fun x => x != ')'))))
        (.cls (fun x => x == ')'))))

/-- The label of the first pattern. -/
def offlineLabel : Str := "offline data collection status:".toList

/-- The label of the alternative pattern. -/
def selfTestLabel : Str := "Self-test execution status:".toList

/-- The pattern `(?i)offline data collection status:\s*\(([^)]+)\)`. -/
def offlineRe : regexp.Regexp :=
  ⟨.cat (regexp.Re.litFold offlineLabel) statusTail, 1⟩

/-- The pattern `(?i)Self-test execution status:\s*\(([^)]+)\)`. -/
def selfTestRe : regexp.Regexp :=
  ⟨.cat (regexp.Re.litFold selfTestLabel) statusTail, 1⟩

/-- `parseOfflineTestStatus` (check-smart-status/main.go, lines 146-162). -/
def parseOfflineTestStatus (output : Str) : Str :=
  let m := regexp.FindStringSubmatch offlineRe output
  if m.length > 1 then strings.TrimSpace (m.getD 1 [])
  else
    let m := regexp.FindStringSubmatch selfTestRe output
    if m.length > 1 then strings.TrimSpace (m.getD 1 [])
    else []

/-- Body of the loop over `plugin.Devices` in `executeCheck`
(check-smart-status/main.go, lines 98-130). -/
def executeCheck.loop (t : Tally) (device : Str) (r : CmdResult) : Tally :=
  if r.err.isSome ∧ (strings.Contains r.output "Unsupported".toList
      || strings.Contains r.output "Unknown".toList) then
    { t with warnings := t.warnings ++ [device ++ ": SMART not supported".toList] }
  else
    let status := parseOfflineTestStatus r.output
    if status = "completed without error".toList then t
    else if status = "was completed without error".toList then t
    else if status = [] then
      { t with warnings := t.warnings ++ [device ++ ": No offline test status found".toList] }
    else if strings.Contains (strings.ToLower status) "fail".toList
        || strings.Contains (strings.ToLower status) "error".toList then
      { t with failures := t.failures ++ [device ++ ": ".toList ++ status] }
    else
      { t with warnings := t.warnings ++ [device ++ ": ".toList ++ status] }

/-- The slices after the loop of `executeCheck`. -/
def executeCheck.tally (runs : List (Str × CmdResult)) : Tally :=
  runs.foldl (fun t dr => executeCheck.loop t dr.1 dr.2) ⟨[], []⟩

/-- `executeCheck` of check-smart-status. -/
def executeCheck (runs : List (Str × CmdResult)) : Outcome :=
  let t := executeCheck.tally runs
  if t.failures.length > 0 then
    ⟨sensu.CheckStateCritical, none,
      "CRITICAL - SMART offline test failures: ".toList ++ fmt.sliceV t.failures ++ "\n".toList⟩
  else if t.warnings.length > 0 then
    ⟨sensu.CheckStateWarning, none,
      "WARNING - SMART offline test warnings: ".toList ++ fmt.sliceV t.warnings ++ "\n".toList⟩
  else
    ⟨sensu.CheckStateOK, none, "OK - All SMART offline tests completed successfully\n".toList⟩

end CheckSmartStatus

/-! ### time -/

namespace time

/-- `time.Hour`, in nanoseconds. -/
def Hour : Int := 3600000000000

/-- Two's-complement wrap-around of 64-bit arithmetic. -/
def wrap64 (x : Int) : Int := (x + 2 ^ 63) % 2 ^ 64 - 2 ^ 63

/-- `Time.Add(d)` on a reading of the monotonic clock, in nanoseconds. -/
def Add (t d : Int) : Int := t + d

/-- `Time.Sub(u)` on readings of the monotonic clock: the difference,
saturated to the range of a `Duration`. -/
def Sub (t u : Int) : Int := max (-(2 ^ 63)) (min (2 ^ 63 - 1) (t - u))

/-- `Duration.Hours()`: `float64(hour) + float64(nsec)/(60*60*1e9)` with
`hour := d / Hour` and `nsec := d % Hour` (both truncating). The rounding of
a real number to a `float64` is the parameter `f64`; the conversions of
`hour` and `nsec` are exact. -/
def Hours (f64 : ℚ → ℚ) (d : Int) : ℚ :=
  f64 ((Int.tdiv d Hour : ℚ) + f64 ((Int.tmod d Hour : ℚ) / 3600000000000))

/-- The conversion `int(x)` of a floating-point number: truncation toward
zero. -/
def toInt (x : ℚ) : Int := if 0 ≤ x then ⌊x⌋ else ⌈x⌉

/-- The three readings of `time.Now()` one call of `parseTestLog` can take, in
nanoseconds of the monotonic clock: `now`, and the fresh reading inside each
of the two conversions. -/
structure Clock where
  now : Int
  nowShort : Int
  nowLong : Int

end time

/-! ### cmd/check-smart-tests -/

namespace CheckSmartTests

/-- The two thresholds of the plugin configuration (`options`, lines 64-79):
hours, `0` to disable. -/
structure Config where
  ShortTestInterval : Int
  LongTestInterval : Int

/-- The named results of `parseTestLog`. -/
structure TestLog where
  shortTestAge : Int
  longTestAge : Int
  failures : List Str
deriving DecidableEq

/-- The variables the line loop of `parseTestLog` updates. -/
structure ScanState where
  inTestLog : Bool
  shortTestAge : Int
  longTestAge : Int
  failures : List Str
deriving DecidableEq

/-- The row pattern
`#\s+\d+\s+(Short|Extended|Long)\s+\w+\s+(.*?)\s+\d+%\s+(\d+)`. -/
def rowRe : regexp.Regexp :=
  ⟨.cat (.cls (fun x => x == '#'))
    (.cat (regexp.Re.plus (.cls regexp.isSpaceClass))
    (.cat (regexp.Re.plus (.cls regexp.isDigitClass))
    (.cat (regexp.Re.plus (.cls regexp.isSpaceClass))
    (.cat (.cap 1 (.alt (regexp.Re.lit "Short".toList)
        (.alt (regexp.Re.lit "Extended".toList) (regexp.Re.lit "Long".toList))))
    (.cat (regexp.Re.plus (.cls regexp.isSpaceClass))
    (.cat (regexp.Re.plus (.cls regexp.isWordClass))
    (.cat (regexp.Re.plus (.cls regexp.isSpaceClass))
    (.cat (.cap 2 (.lazyStar (.cls regexp.isDotClass)))
    (.cat (regexp.Re.plus (.cls regexp.isSpaceClass))
    (.cat (regexp.Re.plus (.cls regexp.isDigitClass))
    (.cat (.cls (fun x => x == '%'))
    (.cat (regexp.Re.plus (.cls regexp.isSpaceClass))
      (.cap 3 (regexp.Re.plus (.cls regexp.isDigitClass))))))))))))))), 3⟩

/-- Body of the loop over the lines in `parseTestLog`
(check-smart-tests/main.go, lines 175-215). -/
def parseTestLog.loop (st : ScanState) (line : Str) : ScanState :=
  if strings.Contains line "Self-test Log".toList then { st with inTestLog := true }
  else if st.inTestLog = false then st
  else
    let m := regexp.FindStringSubmatch rowRe line
    if m.length > 3 then
      let testType := m.getD 1 []
      let status := strings.TrimSpace (m.getD 2 [])
      let lifeHours := strconv.Atoi (m.getD 3 [])
      let age := lifeHours
      if strings.Contains (strings.ToLower status) "fail".toList
          || strings.Contains (strings.ToLower status) "error".toList then
        { st with failures := st.failures ++
            [testType ++ " test at ".toList ++ fmt.decimal lifeHours ++ " hours".toList] }
      else
        let st1 : ScanState :=
          if strings.HasPrefix testType "Short".toList ∧ age < st.shortTestAge then
            { st with shortTestAge := age }
          else st
        if strings.HasPrefix testType "Extended".toList
            || strings.HasPrefix testType "Long".toList then
          if age < st1.longTestAge then { st1 with longTestAge := age } else st1
        else st1
    else st

/-- The variables of `parseTestLog` after its line loop (lines 168-215). -/
def parseTestLog.scan (output : Str) : ScanState :=
  (strings.Split output '\n').foldl parseTestLog.loop ⟨false, 999999, 999999, []⟩

/-- The conversion "to hours since test" of `parseTestLog` (lines 220, 223):
`int(now.Sub(time.Now().Add(-time.Duration(age) * time.Hour)).Hours())`, where
`fresh` is the reading `time.Now()` returns inside the expression. -/
def parseTestLog.hoursSince (f64 : ℚ → ℚ) (now fresh : Int) (age : Int) : Int :=
  time.toInt (time.Hours f64
    (time.Sub now (time.Add fresh (time.wrap64 (time.wrap64 (-age) * time.Hour)))))

/-- `parseTestLog` (check-smart-tests/main.go, lines 167-227). -/
def parseTestLog (f64 : ℚ → ℚ) (clk : time.Clock) (output : Str) : TestLog :=
  let st := parseTestLog.scan output
  let shortTestAge :=
    if st.shortTestAge ≠ 999999 then
      parseTestLog.hoursSince f64 clk.now clk.nowShort st.shortTestAge
    else st.shortTestAge
  let longTestAge :=
    if st.longTestAge ≠ 999999 then
      parseTestLog.hoursSince f64 clk.now clk.nowLong st.longTestAge
    else st.longTestAge
  ⟨shortTestAge, longTestAge, st.failures⟩

/-- Body of the loop over `plugin.Devices` in `executeCheck`
(check-smart-tests/main.go, lines 118-151). -/
def executeCheck.loop (f64 : ℚ → ℚ) (plugin : Config) (t : Tally) (device : Str)
    (r : CmdResult) (clk : time.Clock) : Tally :=
  if r.err.isSome ∧ (strings.Contains r.output "Unsupported".toList
      || strings.Contains r.output "Unknown".toList) then t
  else
    let log := parseTestLog f64 clk r.output
    if log.failures.length > 0 then
      { t with failures := t.failures ++
          [device ++ ": Tests failed: ".toList ++ strings.Join log.failures ", ".toList] }
    else
      let t1 : Tally :=
        if plugin.ShortTestInterval > 0 ∧ log.shortTestAge > plugin.ShortTestInterval then
          { t with warnings := t.warnings ++
              [device ++ ": Short test not run in ".toList ++ fmt.decimal log.shortTestAge
                ++ " hours (threshold: ".toList ++ fmt.decimal plugin.ShortTestInterval
                ++ ")".toList] }
        else t
      if plugin.LongTestInterval > 0 ∧ log.longTestAge > plugin.LongTestInterval then
        { t1 with warnings := t1.warnings ++
            [device ++ ": Extended test not run in ".toList ++ fmt.decimal log.longTestAge
              ++ " hours (threshold: ".toList ++ fmt.decimal plugin.LongTestInterval
              ++ ")".toList] }
      else t1

/-- The slices after the loop of `executeCheck`. -/
def executeCheck.tally (f64 : ℚ → ℚ) (plugin : Config)
    (runs : List (Str × CmdResult × time.Clock)) : Tally :=
  runs.foldl (fun t dr => executeCheck.loop f64 plugin t dr.1 dr.2.1 dr.2.2) ⟨[], []⟩

/-- `executeCheck` of check-smart-tests. -/
def executeCheck (f64 : ℚ → ℚ) (plugin : Config)
    (runs : List (Str × CmdResult × time.Clock)) : Outcome :=
  let t := executeCheck.tally f64 plugin runs
  if t.failures.length > 0 then
    ⟨sensu.CheckStateCritical, none,
      "CRITICAL - SMART test failures: ".toList ++ fmt.sliceV t.failures ++ "\n".toList⟩
  else if t.warnings.length > 0 then
    ⟨sensu.CheckStateWarning, none,
      "WARNING - SMART test interval warnings: ".toList ++ fmt.sliceV t.warnings
        ++ "\n".toList⟩
  else
    ⟨sensu.CheckStateOK, none,
      "OK - All SMART tests passed and within time intervals\n".toList⟩

end CheckSmartTests

/-! ### Vocabulary of the properties

The definitions below are not code of the repository: they name what the
properties speak about (a device's verdict, the rows of a self-test table, a
status line), so that the functions above can be compared with them. -/

/-- Severity of a pair of slices: CRITICAL when a failure entry is present,
else WARNING when a warning entry is present, else OK. -/
def Tally.severity (t : Tally) : Int :=
  if t.failures ≠ [] then sensu.CheckStateCritical
  else if t.warnings ≠ [] then sensu.CheckStateWarning
  else sensu.CheckStateOK

/-- The slices of `a` followed by the slices of `b`. -/
def Tally.append (a b : Tally) : Tally :=
  ⟨a.failures ++ b.failures, a.warnings ++ b.warnings⟩

/-- The empty pair of slices, as at the start of `executeCheck`. -/
def Tally.empty : Tally := ⟨[], []⟩

/-- The state a run returns is the maximum of the devices' severities under
CRITICAL > WARNING > OK: CRITICAL exactly when some device added a failure
entry, WARNING exactly when none did and some device added a warning entry,
OK exactly when no device added anything. -/
def IsMaxSeverity (state : Int) (verdicts : List Tally) : Prop :=
  state = (verdicts.map Tally.severity).foldr max sensu.CheckStateOK
    ∧ (state = sensu.CheckStateCritical ↔ ∃ v ∈ verdicts, v.failures ≠ [])
    ∧ (state = sensu.CheckStateWarning ↔
        (∀ v ∈ verdicts, v.failures = []) ∧ ∃ v ∈ verdicts, v.warnings ≠ [])
    ∧ (state = sensu.CheckStateOK ↔ ∀ v ∈ verdicts, v.failures = [] ∧ v.warnings = [])

/-- The output carries one of the two markers of an unsupported device. -/
def hasUnsupportedMarker (output : Str) : Bool :=
  strings.Contains output "Unsupported".toList || strings.Contains output "Unknown".toList

/-- The keyword heuristic: the lower-cased text contains "fail" or "error". -/
def hasFailureKeyword (status : Str) : Bool :=
  strings.Contains (strings.ToLower status) "fail".toList
    || strings.Contains (strings.ToLower status) "error".toList

namespace CheckSmart

/-- The entries one device adds in check-smart. -/
def verdict (dr : Str × CmdResult) : Tally := executeCheck.loop Tally.empty dr.1 dr.2

end CheckSmart

namespace CheckSmartStatus

/-- The entries one device adds in check-smart-status. -/
def verdict (dr : Str × CmdResult) : Tally := executeCheck.loop Tally.empty dr.1 dr.2

end CheckSmartStatus

namespace CheckSmartTests

/-- The entries one device adds in check-smart-tests. -/
def verdict (f64 : ℚ → ℚ) (plugin : Config) (dr : Str × CmdResult × time.Clock) : Tally :=
  executeCheck.loop f64 plugin Tally.empty dr.1 dr.2.1 dr.2.2

/-- One matched row of the self-test table: the captured test kind, the
trimmed status text and the power-on hours. -/
structure Row where
  testType : Str
  status : Str
  lifeHours : Int
deriving DecidableEq

/-- The row a line of the table is read as, if it matches the row pattern. -/
def parseRow (line : Str) : Option Row :=
  let m := regexp.FindStringSubmatch rowRe line
  if m.length > 3 then
    some ⟨m.getD 1 [], strings.TrimSpace (m.getD 2 []), strconv.Atoi (m.getD 3 [])⟩
  else none

/-- The line contains the marker "Self-test Log". -/
def isMarker (line : Str) : Bool := strings.Contains line "Self-test Log".toList

/-- The lines after the first marker line that are not marker lines
themselves. -/
def tableLines (lines : List Str) : List Str :=
  ((lines.dropWhile (fun l => !isMarker l)).drop 1).filter (fun l => !isMarker l)

/-- The matched rows of the self-test table of an output, in order. -/
def logRows (output : Str) : List Row :=
  (tableLines (strings.Split output '\n')).filterMap parseRow

/-- The row's status text matches the failure heuristic. -/
def Row.failed (r : Row) : Bool := hasFailureKeyword r.status

/-- The failure-list entry of a row: "<kind> test at <hours> hours". -/
def Row.entry (r : Row) : Str :=
  r.testType ++ " test at ".toList ++ fmt.decimal r.lifeHours ++ " hours".toList

/-- The smallest power-on-hours value among rows, capped by the sentinel. -/
def minHours (rows : List Row) : Int :=
  (rows.map (fun r => r.lifeHours)).foldr min 999999

end CheckSmartTests

namespace time

/-- What the properties assume of the rounding to `float64`: it is monotone
and exact on the integers up to `2 ^ 53`. -/
def IsRounding (f64 : ℚ → ℚ) : Prop :=
  Monotone f64 ∧ ∀ n : Int, |n| ≤ 2 ^ 53 → f64 (n : ℚ) = (n : ℚ)

end time

namespace regexp

/-- What the patterns mean: `Matches re s c s1 c1` says that `re` matches
the part of `s` in front of `s1`, taking the groups from `c` to `c1`. A round
of a repetition consumes at least one character. -/
inductive Matches : Re → Str → Caps → Str → Caps → Prop
  | eps (s : Str) (c : Caps) : Matches .eps s c s c
  | cls (p : Char → Bool) (a : Char) (s : Str) (c : Caps) :
      p a = true → Matches (.cls p) (a :: s) c s c
  | cat {a b : Re} {s s1 s2 : Str} {c c1 c2 : Caps} :
      Matches a s c s1 c1 → Matches b s1 c1 s2 c2 → Matches (.cat a b) s c s2 c2
  | altLeft {a : Re} (b : Re) {s s1 : Str} {c c1 : Caps} :
      Matches a s c s1 c1 → Matches (.alt a b) s c s1 c1
  | altRight (a : Re) {b : Re} {s s1 : Str} {c c1 : Caps} :
      Matches b s c s1 c1 → Matches (.alt a b) s c s1 c1
  | starDone (a : Re) (s : Str) (c : Caps) : Matches (.star a) s c s c
  | starMore {a : Re} {s s1 s2 : Str} {c c1 c2 : Caps} :
      Matches a s c s1 c1 → s1.length < s.length → Matches (.star a) s1 c1 s2 c2 →
      Matches (.star a) s c s2 c2
  | lazyDone (a : Re) (s : Str) (c : Caps) : Matches (.lazyStar a) s c s c
  | lazyMore {a : Re} {s s1 s2 : Str} {c c1 c2 : Caps} :
      Matches a s c s1 c1 → s1.length < s.length → Matches (.lazyStar a) s1 c1 s2 c2 →
      Matches (.lazyStar a) s c s2 c2
  | cap (i : Nat) {a : Re} {s s1 : Str} {c c1 : Caps} :
      Matches a s c s1 c1 →
      Matches (.cap i a) s c s1 (c1.set i (s.take (s.length - s1.length)))

end regexp

namespace CheckSmartStatus

/-- The text `lab` is the label up to letter case, as the flag `(?i)` reads
it: character by character within the case-folding orbit. -/
def foldEq : Str → Str → Bool
  | [], [] => true
  | x :: lab, l :: label => regexp.foldClass l x && foldEq lab label
  | _, _ => false

/-- The output has a status line for `label` right after `pre`: the label
(which ends in the colon) in any letter case, optional white space, and the
non-empty text `body` without a closing parenthesis, in parentheses. -/
def StatusAt (label output pre body : Str) : Prop :=
  ∃ lab ws rest, output = pre ++ (lab ++ (ws ++ ('(' :: (body ++ (')' :: rest)))))
    ∧ foldEq lab label = true ∧ ws.all regexp.isSpaceClass = true
    ∧ body ≠ [] ∧ body.all (fun x => x != ')') = true

/-- The text `body` is the parenthesised text of the first status line for
`label` in the output. -/
def FirstStatus (label output body : Str) : Prop :=
  ∃ pre, StatusAt label output pre body
    ∧ ∀ pre1 body1, StatusAt label output pre1 body1 → pre.length ≤ pre1.length

end CheckSmartStatus

namespace CheckSmartTests

/-- The row is of kind Short. -/
def Row.isShort (r : Row) : Bool := decide (r.testType = "Short".toList)

/-- The row is of kind Extended, for which "Long" is a second name. -/
def Row.isExtended (r : Row) : Bool :=
  decide (r.testType = "Extended".toList ∨ r.testType = "Long".toList)

/-- What the line loop of `parseTestLog` does with a matched row of the
table (lines 190-214), written on the row. -/
def applyRow (st : ScanState) (r : Row) : ScanState :=
  if r.failed = true then { st with failures := st.failures ++ [r.entry] }
  else
    let st1 : ScanState :=
      if strings.HasPrefix r.testType "Short".toList ∧ r.lifeHours < st.shortTestAge then
        { st with shortTestAge := r.lifeHours }
      else st
    if strings.HasPrefix r.testType "Extended".toList
        || strings.HasPrefix r.testType "Long".toList then
      if r.lifeHours < st1.longTestAge then { st1 with longTestAge := r.lifeHours } else st1
    else st1

end CheckSmartTests

namespace time

/-- The readings of a clock are taken in order and less than an hour apart:
each fresh reading is at or after `now`, by less than `Hour`. -/
def Clock.Steady (clk : Clock) : Prop :=
  clk.now ≤ clk.nowShort ∧ clk.nowShort - clk.now < Hour
    ∧ clk.now ≤ clk.nowLong ∧ clk.nowLong - clk.now < Hour

end time

namespace CheckSmartTests

/-- The smallest hours among the rows of kind Short that are not failures,
capped by the sentinel. -/
def shortMinimum (output : Str) : Int :=
  minHours ((logRows output).filter (fun r => !r.failed && r.isShort))

/-- The smallest hours among the rows of kind Extended or Long that are not
failures, capped by the sentinel. -/
def extendedMinimum (output : Str) : Int :=
  minHours ((logRows output).filter (fun r => !r.failed && r.isExtended))

/-- The device is passed over as unsupported: its command failed and its
output carries a marker (lines 124-129). -/
def skipped (r : CmdResult) : Bool := r.err.isSome && hasUnsupportedMarker r.output

/-- The warning for a stale Short test. -/
def shortStaleWarning (device : Str) (age interval : Int) : Str :=
  device ++ ": Short test not run in ".toList ++ fmt.decimal age
    ++ " hours (threshold: ".toList ++ fmt.decimal interval ++ ")".toList

/-- The warning for a stale Extended test. -/
def longStaleWarning (device : Str) (age interval : Int) : Str :=
  device ++ ": Extended test not run in ".toList ++ fmt.decimal age
    ++ " hours (threshold: ".toList ++ fmt.decimal interval ++ ")".toList

end CheckSmartTests

/-! ### Device resolution: `checkArgs` and `detectDevices` of the SMART probes -/

/-- What `checkArgs` consults outside the process: whether `os.Stat` of a
path succeeds, what `os.ReadFile` of a path returns (`none` for an error), and
what `json.Unmarshal` of a file's content into a `SmartConfig` leaves in its
field `Devices` (`none` for an error). -/
structure Host where
  stat : Str → Bool
  readFile : Str → Option Str
  unmarshalDevices : Str → Option (List Str)

/-- What `checkArgs` hands back: `plugin.Devices` as it leaves it, and the
returned state and error. -/
structure Resolution where
  devices : List Str
  state : Int
  err : Option Str
deriving DecidableEq

/-- The fixed list `commonDevices` of `detectDevices`. -/
def commonDevices : List Str :=
  ["/dev/sda".toList, "/dev/sdb".toList, "/dev/sdc".toList, "/dev/sdd".toList,
    "/dev/nvme0n1".toList, "/dev/nvme1n1".toList]

namespace CheckSmart

/-- `detectDevices` (check-smart/main.go, lines 137-153). -/
def detectDevices (host : Host) : List Str :=
  commonDevices.foldl (fun devices device =>
    if host.stat device = true then devices ++ [device] else devices) []

/-- `checkArgs` (check-smart/main.go, lines 67-91), on the values of
`plugin.ConfigFile` and `plugin.Devices` the argument parser left. -/
def checkArgs (host : Host) (configFile : Str) (devices : List Str) : Resolution :=
  let devices1 : List Str :=
    if devices.length = 0 then
      if host.stat configFile = true then
        match host.readFile configFile with
        | some data =>
          match host.unmarshalDevices data with
          | some configDevices => configDevices
          | none => devices
        | none => devices
      else devices
    else devices
  let devices2 : List Str := if devices1.length = 0 then detectDevices host else devices1
  if devices2.length = 0 then
    ⟨devices2, sensu.CheckStateWarning, some "no devices specified or detected".toList⟩
  else ⟨devices2, sensu.CheckStateOK, none⟩

end CheckSmart

namespace CheckSmartStatus

/-- `detectDevices` (check-smart-status/main.go, lines 164-180). -/
def detectDevices (host : Host) : List Str :=
  commonDevices.foldl (fun devices device =>
    if host.stat device = true then devices ++ [device] else devices) []

/-- `checkArgs` (check-smart-status/main.go, lines 68-92). -/
def checkArgs (host : Host) (configFile : Str) (devices : List Str) : Resolution :=
  let devices1 : List Str :=
    if devices.length = 0 then
      if host.stat configFile = true then
        match host.readFile configFile with
        | some data =>
          match host.unmarshalDevices data with
          | some configDevices => configDevices
          | none => devices
        | none => devices
      else devices
    else devices
  let devices2 : List Str := if devices1.length = 0 then detectDevices host else devices1
  if devices2.length = 0 then
    ⟨devices2, sensu.CheckStateWarning, some "no devices specified or detected".toList⟩
  else ⟨devices2, sensu.CheckStateOK, none⟩

end CheckSmartStatus

namespace CheckSmartTests

/-- `detectDevices` (check-smart-tests/main.go, lines 229-245). -/
def detectDevices (host : Host) : List Str :=
  commonDevices.foldl (fun devices device =>
    if host.stat device = true then devices ++ [device] else devices) []

/-- `checkArgs` (check-smart-tests/main.go, lines 88-112). -/
def checkArgs (host : Host) (configFile : Str) (devices : List Str) : Resolution :=
  let devices1 : List Str :=
    if devices.length = 0 then
      if host.stat configFile = true then
        match host.readFile configFile with
        | some data =>
          match host.unmarshalDevices data with
          | some configDevices => configDevices
          | none => devices
        | none => devices
      else devices
    else devices
  let devices2 : List Str := if devices1.length = 0 then detectDevices host else devices1
  if devices2.length = 0 then
    ⟨devices2, sensu.CheckStateWarning, some "no devices specified or detected".toList⟩
  else ⟨devices2, sensu.CheckStateOK, none⟩

end CheckSmartTests

/-! ### cmd/check-fstab-mounts -/

namespace CheckFstabMounts

/-- The type `FstabEntry` (check-fstab-mounts/main.go, lines 41-46). -/
structure FstabEntry where
  Device : Str
  MountPoint : Str
  FSType : Str
  Options : Str
deriving DecidableEq

/-- `shouldSkipEntry` of the test suite (main_test.go, lines 8-20). The byte
test `entry.MountPoint[0] == '#'` is a test of the first code point. -/
def shouldSkipEntry (entry : FstabEntry) : Bool :=
  if entry.FSType = "swap".toList then true
  else if entry.MountPoint = "null".toList ∨ entry.MountPoint = []
      ∨ (entry.MountPoint.length > 0 ∧ entry.MountPoint.head? = some '#') then true
  else false

/-- Body of the loop over the entries in `executeCheck` (main.go, lines
78-93); `mounted` is the map of the mounted paths. -/
def executeCheck.loop (mounted : Str → Bool) (unmounted : List Str) (entry : FstabEntry) :
    List Str :=
  if entry.FSType = "swap".toList ∨ strings.Contains entry.Options "bind".toList = true then
    unmounted
  else if strings.HasPrefix entry.MountPoint "#".toList = true ∨ entry.MountPoint = [] then
    unmounted
  else if mounted entry.MountPoint = false then
    unmounted ++ [entry.MountPoint ++ " (".toList ++ entry.Device ++ ")".toList]
  else unmounted

/-- `executeCheck` (main.go, lines 57-102), on what `parseFstab` and
`disk.Partitions(true)` returned: the entries, or the mount points of the
partitions, or the text of an error. -/
def executeCheck (entries : Except Str (List FstabEntry))
    (partitions : Except Str (List Str)) : Outcome :=
  match entries with
  | .error e =>
    ⟨sensu.CheckStateCritical, some ("failed to parse fstab: ".toList ++ e), []⟩
  | .ok entries =>
    match partitions with
    | .error e =>
      ⟨sensu.CheckStateCritical, some ("failed to get mounted partitions: ".toList ++ e), []⟩
    | .ok partitions =>
      let mounted : Str → Bool := fun path => decide (path ∈ partitions)
      let unmounted := entries.foldl (executeCheck.loop mounted) []
      if unmounted.length > 0 then
        ⟨sensu.CheckStateCritical, none,
          "CRITICAL - Filesystems not mounted: ".toList ++ fmt.sliceV unmounted ++ "\n".toList⟩
      else ⟨sensu.CheckStateOK, none, "OK - All fstab filesystems are mounted\n".toList⟩

end CheckFstabMounts

/-! ### cmd/metrics-disk-usage and cmd/metrics-disk-capacity -/

namespace MetricsDiskUsage

/-- The loop `for i, c := range path` of `sanitizePath`, from the code point
at index `i` on. Go's `i` is a byte offset; the loop only tests `i == 0`, which
holds for the first code point and no other. -/
def sanitizePath.loop : Nat → Str → Str → Str
  | _, [], sanitized => sanitized
  | i, c :: rest, sanitized =>
    if i = 0 ∧ c = '/' then sanitizePath.loop (i + 1) rest sanitized
    else if c = '/' then sanitizePath.loop (i + 1) rest (sanitized ++ "_".toList)
    else sanitizePath.loop (i + 1) rest (sanitized ++ [c])

/-- `sanitizePath` (metrics-disk-usage/main.go, lines 148-165). -/
def sanitizePath (path : Str) : Str :=
  if path = "/".toList then "root".toList else sanitizePath.loop 0 path []

end MetricsDiskUsage

namespace MetricsDiskCapacity

/-- The loop `for i, c := range path` of `sanitizePath`. -/
def sanitizePath.loop : Nat → Str → Str → Str
  | _, [], sanitized => sanitized
  | i, c :: rest, sanitized =>
    if i = 0 ∧ c = '/' then sanitizePath.loop (i + 1) rest sanitized
    else if c = '/' then sanitizePath.loop (i + 1) rest (sanitized ++ "_".toList)
    else sanitizePath.loop (i + 1) rest (sanitized ++ [c])

/-- `sanitizePath` (metrics-disk-capacity/main.go, lines 146-163). -/
def sanitizePath (path : Str) : Str :=
  if path = "/".toList then "root".toList else sanitizePath.loop 0 path []

end MetricsDiskCapacity

/-! ### Vocabulary of the further properties -/

namespace CheckSmart

/-- The failure entry of a device in check-smart: the device, then the text
of the command's error or "SMART health check FAILED". -/
def failureEntry (dr : Str × CmdResult) : Str :=
  match dr.2.err with
  | some e => dr.1 ++ ": ".toList ++ e
  | none => dr.1 ++ ": SMART health check FAILED".toList

/-- The warning entry of a device in check-smart: the device, then "SMART not
supported" after a command error or "Unknown SMART status". -/
def warningEntry (dr : Str × CmdResult) : Str :=
  match dr.2.err with
  | some _ => dr.1 ++ ": SMART not supported".toList
  | none => dr.1 ++ ": Unknown SMART status".toList

end CheckSmart

namespace CheckFstabMounts

/-- The mount check skips the entry: whatever is mounted, the loop reports
nothing for it. -/
def Skips (entry : FstabEntry) : Prop :=
  ∀ (mounted : Str → Bool) (unmounted : List Str),
    executeCheck.loop mounted unmounted entry = unmounted

end CheckFstabMounts

namespace MetricsDiskUsage

/-- The path without its leading slash, every other slash turned into an
underscore. -/
def withoutSlashes (path : Str) : Str :=
  (if path.head? = some '/' then path.drop 1 else path).map (fun c => if c = '/' then '_' else c)

end MetricsDiskUsage

namespace CheckSmart

/-- The devices the configuration file yields: the field `devices` of its
content when the file exists, can be read and can be parsed, and no device
otherwise. -/
def configDevices (host : Host) (configFile : Str) : List Str :=
  if host.stat configFile = true then
    match host.readFile configFile with
    | some data =>
      match host.unmarshalDevices data with
      | some configDevices => configDevices
      | none => []
    | none => []
  else []

/-- The resolved device list: the explicit list when it is not empty, else the
devices of the configuration file when there are any, else the conventional
device paths that exist, in the order of the fixed list. -/
def resolved (host : Host) (configFile : Str) (devices : List Str) : List Str :=
  if devices ≠ [] then devices
  else if configDevices host configFile ≠ [] then configDevices host configFile
  else commonDevices.filter host.stat

end CheckSmart

namespace CheckSmartTests

/-- No age of the output sits at the edge of its interval: the smallest Short
hours value is not one more than the Short interval, and the smallest Extended
hours value is not one more than the Extended interval. -/
def OffEdge (plugin : Config) (output : Str) : Prop :=
  shortMinimum output ≠ plugin.ShortTestInterval + 1
    ∧ extendedMinimum output ≠ plugin.LongTestInterval + 1

/-- The device has a staleness reason by its parsed hours: it reaches the
parser, no row of its log failed, and the smallest Short hours value exceeds a
positive Short interval or the smallest Extended one a positive Extended
interval. -/
def staleByHours (plugin : Config) (r : CmdResult) : Prop :=
  skipped r = false ∧ (parseTestLog.scan r.output).failures = []
    ∧ ((plugin.ShortTestInterval > 0 ∧ shortMinimum r.output > plugin.ShortTestInterval)
      ∨ (plugin.LongTestInterval > 0 ∧ extendedMinimum r.output > plugin.LongTestInterval))

end CheckSmartTests

/-! ## Part II. Theorems -/

/-! ### Aggregation of the slices -/

theorem Tally.severity_append (a b : Tally) :
    (a.append b).severity = max a.severity b.severity := by
  obtain ⟨af, aw⟩ := a
  obtain ⟨bf, bw⟩ := b
  cases af <;> cases aw <;> cases bf <;> cases bw <;>
    simp [Tally.append, Tally.severity, sensu.CheckStateCritical, sensu.CheckStateWarning,
      sensu.CheckStateOK]

theorem Tally.empty_append (a : Tally) : Tally.empty.append a = a := by
  simp [Tally.append, Tally.empty]

theorem Tally.append_empty (a : Tally) : a.append Tally.empty = a := by
  simp [Tally.append, Tally.empty]

theorem Tally.severity_empty : Tally.empty.severity = sensu.CheckStateOK := by
  simp [Tally.severity, Tally.empty]

/-- A loop whose body only appends to the slices ends with the maximum of
the severities of what each round added. -/
theorem Tally.foldl_severity {α : Type} (step : Tally → α → Tally)
    (happ : ∀ t x, step t x = t.append (step Tally.empty x)) (xs : List α) (t : Tally) :
    (xs.foldl step t).severity =
      max t.severity ((xs.map (fun x => (step Tally.empty x).severity)).foldr max
        sensu.CheckStateOK) := by
  induction xs generalizing t with
  | nil =>
    have h0 : sensu.CheckStateOK ≤ t.severity := by
      unfold Tally.severity sensu.CheckStateOK sensu.CheckStateCritical sensu.CheckStateWarning
      split_ifs <;> decide
    simp [h0]
  | cons x xs ih =>
    simp only [List.foldl_cons, List.map_cons, List.foldr_cons]
    rw [ih, happ t x, Tally.severity_append, max_assoc]

theorem Tally.foldl_failures {α : Type} (step : Tally → α → Tally)
    (happ : ∀ t x, step t x = t.append (step Tally.empty x)) (xs : List α) (t : Tally) :
    (xs.foldl step t).failures ≠ [] ↔
      t.failures ≠ [] ∨ ∃ x ∈ xs, (step Tally.empty x).failures ≠ [] := by
  induction xs generalizing t with
  | nil => simp
  | cons x xs ih =>
    simp only [List.foldl_cons]
    rw [ih, happ t x]
    simp only [Tally.append, List.mem_cons, exists_eq_or_imp, ne_eq, List.append_eq_nil, not_and]
    tauto

theorem Tally.foldl_warnings {α : Type} (step : Tally → α → Tally)
    (happ : ∀ t x, step t x = t.append (step Tally.empty x)) (xs : List α) (t : Tally) :
    (xs.foldl step t).warnings ≠ [] ↔
      t.warnings ≠ [] ∨ ∃ x ∈ xs, (step Tally.empty x).warnings ≠ [] := by
  induction xs generalizing t with
  | nil => simp
  | cons x xs ih =>
    simp only [List.foldl_cons]
    rw [ih, happ t x]
    simp only [Tally.append, List.mem_cons, exists_eq_or_imp, ne_eq, List.append_eq_nil, not_and]
    tauto

theorem Tally.severity_critical (t : Tally) :
    t.severity = sensu.CheckStateCritical ↔ t.failures ≠ [] := by
  unfold Tally.severity sensu.CheckStateOK sensu.CheckStateCritical sensu.CheckStateWarning
  split_ifs <;> simp_all

theorem Tally.severity_warning (t : Tally) :
    t.severity = sensu.CheckStateWarning ↔ t.failures = [] ∧ t.warnings ≠ [] := by
  unfold Tally.severity sensu.CheckStateOK sensu.CheckStateCritical sensu.CheckStateWarning
  split_ifs <;> simp_all

theorem Tally.severity_ok (t : Tally) :
    t.severity = sensu.CheckStateOK ↔ t.failures = [] ∧ t.warnings = [] := by
  unfold Tally.severity sensu.CheckStateOK sensu.CheckStateCritical sensu.CheckStateWarning
  split_ifs <;> simp_all

theorem checkSmart_loop_append (t : Tally) (device : Str) (r : CmdResult) :
    CheckSmart.executeCheck.loop t device r =
      t.append (CheckSmart.executeCheck.loop Tally.empty device r) := by
  unfold CheckSmart.executeCheck.loop
  cases r.err <;> simp only [] <;> split_ifs <;> simp [Tally.append, Tally.empty]

theorem checkSmartStatus_loop_append (t : Tally) (device : Str) (r : CmdResult) :
    CheckSmartStatus.executeCheck.loop t device r =
      t.append (CheckSmartStatus.executeCheck.loop Tally.empty device r) := by
  unfold CheckSmartStatus.executeCheck.loop
  simp only []
  split_ifs <;> simp [Tally.append, Tally.empty]

theorem checkSmartTests_loop_append (f64 : ℚ → ℚ) (plugin : CheckSmartTests.Config) (t : Tally)
    (device : Str) (r : CmdResult) (clk : time.Clock) :
    CheckSmartTests.executeCheck.loop f64 plugin t device r clk =
      t.append (CheckSmartTests.executeCheck.loop f64 plugin Tally.empty device r clk) := by
  unfold CheckSmartTests.executeCheck.loop
  simp only []
  split_ifs <;> simp [Tally.append, Tally.empty]

theorem checkSmart_state_eq (runs : List (Str × CmdResult)) :
    (CheckSmart.executeCheck runs).state = (CheckSmart.executeCheck.tally runs).severity := by
  unfold CheckSmart.executeCheck Tally.severity
  simp only [List.length_pos, ne_eq, gt_iff_lt]
  split_ifs <;> rfl

theorem checkSmartStatus_state_eq (runs : List (Str × CmdResult)) :
    (CheckSmartStatus.executeCheck runs).state =
      (CheckSmartStatus.executeCheck.tally runs).severity := by
  unfold CheckSmartStatus.executeCheck Tally.severity
  simp only [List.length_pos, ne_eq, gt_iff_lt]
  split_ifs <;> rfl

theorem checkSmartTests_state_eq (f64 : ℚ → ℚ) (plugin : CheckSmartTests.Config)
    (runs : List (Str × CmdResult × time.Clock)) :
    (CheckSmartTests.executeCheck f64 plugin runs).state =
      (CheckSmartTests.executeCheck.tally f64 plugin runs).severity := by
  unfold CheckSmartTests.executeCheck Tally.severity
  simp only [List.length_pos, ne_eq, gt_iff_lt]
  split_ifs <;> rfl

theorem Tally.isMaxSeverity_foldl {α : Type} (step : Tally → α → Tally)
    (happ : ∀ t x, step t x = t.append (step Tally.empty x)) (xs : List α) :
    IsMaxSeverity (xs.foldl step Tally.empty).severity
      (xs.map (fun x => step Tally.empty x)) := by
  have hf := Tally.foldl_failures step happ xs Tally.empty
  have hw := Tally.foldl_warnings step happ xs Tally.empty
  simp only [Tally.empty, ne_eq, not_true_eq_false, false_or] at hf hw
  have hf' : (xs.foldl step Tally.empty).failures = [] ↔
      ∀ x ∈ xs, (step Tally.empty x).failures = [] := by
    have := not_congr hf
    simpa [Tally.empty] using this
  have hw' : (xs.foldl step Tally.empty).warnings = [] ↔
      ∀ x ∈ xs, (step Tally.empty x).warnings = [] := by
    have := not_congr hw
    simpa [Tally.empty] using this
  refine ⟨?_, ?_, ?_, ?_⟩
  · rw [Tally.foldl_severity step happ, Tally.severity_empty, List.map_map]
    have h0 : ∀ l : List Int, (∀ a ∈ l, sensu.CheckStateOK ≤ a) →
        sensu.CheckStateOK ≤ l.foldr max sensu.CheckStateOK := by
      intro l
      induction l with
      | nil => simp
      | cons a l ih => intro h; simp [h a (List.mem_cons_self a l)]
    apply max_eq_right
    apply h0
    intro a ha
    simp only [List.mem_map, Function.comp] at ha
    obtain ⟨x, _, rfl⟩ := ha
    unfold Tally.severity sensu.CheckStateOK sensu.CheckStateCritical sensu.CheckStateWarning
    split_ifs <;> decide
  · rw [Tally.severity_critical]
    simpa [Tally.empty] using hf
  · rw [Tally.severity_warning, hf']
    have : (xs.foldl step Tally.empty).warnings ≠ [] ↔
        ∃ x ∈ xs, (step Tally.empty x).warnings ≠ [] := by simpa [Tally.empty] using hw
    rw [this]
    simp
  · rw [Tally.severity_ok, hf', hw']
    simp only [List.mem_map, forall_exists_index, and_imp, forall_apply_eq_imp_iff₂]
    constructor
    · intro h x hx; exact ⟨h.1 x hx, h.2 x hx⟩
    · intro h; exact ⟨fun x hx => (h x hx).1, fun x hx => (h x hx).2⟩

theorem checkSmart_isMaxSeverity (runs : List (Str × CmdResult)) :
    IsMaxSeverity (CheckSmart.executeCheck runs).state (runs.map CheckSmart.verdict) := by
  rw [checkSmart_state_eq]
  exact Tally.isMaxSeverity_foldl (fun t dr => CheckSmart.executeCheck.loop t dr.1 dr.2)
    (fun t x => checkSmart_loop_append t x.1 x.2) runs

theorem checkSmartStatus_isMaxSeverity (runs : List (Str × CmdResult)) :
    IsMaxSeverity (CheckSmartStatus.executeCheck runs).state
      (runs.map CheckSmartStatus.verdict) := by
  rw [checkSmartStatus_state_eq]
  exact Tally.isMaxSeverity_foldl (fun t dr => CheckSmartStatus.executeCheck.loop t dr.1 dr.2)
    (fun t x => checkSmartStatus_loop_append t x.1 x.2) runs

theorem checkSmartTests_isMaxSeverity (f64 : ℚ → ℚ) (plugin : CheckSmartTests.Config)
    (runs : List (Str × CmdResult × time.Clock)) :
    IsMaxSeverity (CheckSmartTests.executeCheck f64 plugin runs).state
      (runs.map (CheckSmartTests.verdict f64 plugin)) := by
  rw [checkSmartTests_state_eq]
  exact Tally.isMaxSeverity_foldl
    (fun t dr => CheckSmartTests.executeCheck.loop f64 plugin t dr.1 dr.2.1 dr.2.2)
    (fun t x => checkSmartTests_loop_append f64 plugin t x.1 x.2.1 x.2.2) runs

/-- **C1.** In each of the three SMART probes, for every list of devices and
every per-device result, `executeCheck` returns the maximum severity over the
devices under CRITICAL > WARNING > OK: CRITICAL exactly when at least one
device produced a failure entry, WARNING exactly when no device produced a
failure entry and at least one produced a warning entry, and OK otherwise. -/
theorem C1_executeCheck_returns_max_severity (f64 : ℚ → ℚ) (plugin : CheckSmartTests.Config)
    (runs runsStatus : List (Str × CmdResult))
    (runsTests : List (Str × CmdResult × time.Clock)) :
    IsMaxSeverity (CheckSmart.executeCheck runs).state (runs.map CheckSmart.verdict)
      ∧ IsMaxSeverity (CheckSmartStatus.executeCheck runsStatus).state
          (runsStatus.map CheckSmartStatus.verdict)
      ∧ IsMaxSeverity (CheckSmartTests.executeCheck f64 plugin runsTests).state
          (runsTests.map (CheckSmartTests.verdict f64 plugin)) := by
  exact ⟨checkSmart_isMaxSeverity runs, checkSmartStatus_isMaxSeverity runsStatus,
    checkSmartTests_isMaxSeverity f64 plugin runsTests⟩

/-! ### Substring search -/

theorem strings.HasPrefix_iff (s p : Str) : strings.HasPrefix s p = true ↔ p <+: s := by
  induction p generalizing s with
  | nil => simp [strings.HasPrefix]
  | cons a p ih =>
    cases s with
    | nil => simp [strings.HasPrefix]
    | cons c s =>
      simp only [strings.HasPrefix, Bool.and_eq_true, beq_iff_eq, ih, List.cons_prefix_cons]
      constructor
      · rintro ⟨rfl, h⟩; exact ⟨rfl, h⟩
      · rintro ⟨rfl, h⟩; exact ⟨rfl, h⟩

/-- `strings.Contains s substr` holds exactly when `substr` is a contiguous
part of `s`. -/
theorem strings.Contains_iff (s substr : Str) :
    strings.Contains s substr = true ↔ substr <:+: s := by
  induction s with
  | nil =>
    simp only [strings.Contains, strings.HasPrefix_iff, List.prefix_nil, List.infix_nil]
  | cons c s ih =>
    simp only [strings.Contains, Bool.or_eq_true, strings.HasPrefix_iff, ih,
      List.infix_cons_iff]

theorem strings.Contains_eq_false_iff (s substr : Str) :
    strings.Contains s substr = false ↔ ¬ substr <:+: s := by
  rw [← strings.Contains_iff]; simp

/-! ### check-smart: the health summary -/

/-- **C2.** In check-smart, for every raw output of a diagnostic command that
exited successfully: if the output contains "PASSED" nothing is recorded;
otherwise, if it contains "FAILING_NOW" or "FAILED", a failure is recorded;
otherwise the warning "Unknown SMART status" is recorded (a warning, never a
failure). -/
theorem C2_health_summary_decision_order (t : Tally) (device output : Str) :
    ("PASSED".toList <:+: output →
        CheckSmart.executeCheck.loop t device ⟨output, none⟩ = t)
      ∧ (¬ "PASSED".toList <:+: output →
          ("FAILING_NOW".toList <:+: output ∨ "FAILED".toList <:+: output) →
          CheckSmart.executeCheck.loop t device ⟨output, none⟩ =
            ⟨t.failures ++ [device ++ ": SMART health check FAILED".toList], t.warnings⟩)
      ∧ (¬ "PASSED".toList <:+: output → ¬ "FAILING_NOW".toList <:+: output →
          ¬ "FAILED".toList <:+: output →
          CheckSmart.executeCheck.loop t device ⟨output, none⟩ =
            ⟨t.failures, t.warnings ++ [device ++ ": Unknown SMART status".toList]⟩) := by
  refine ⟨?_, ?_, ?_⟩
  · intro h
    rw [← strings.Contains_iff] at h
    simp only [CheckSmart.executeCheck.loop, h, if_true]
  · intro h1 h2
    rw [← strings.Contains_iff] at h1
    rw [← strings.Contains_iff, ← strings.Contains_iff, ← Bool.or_eq_true] at h2
    simp only [Bool.not_eq_true] at h1
    simp only [CheckSmart.executeCheck.loop, h1, h2, if_true, Bool.false_eq_true, if_false]
  · intro h1 h2 h3
    rw [← strings.Contains_iff] at h1 h2 h3
    simp only [Bool.not_eq_true] at h1 h2 h3
    simp only [CheckSmart.executeCheck.loop, h1, h2, h3, Bool.or_self, Bool.false_eq_true,
      if_false]

/-- Instances of C2: an output with "PASSED" only records nothing, one with
"FAILING_NOW" only records a failure, one with none of the tokens records the
warning "Unknown SMART status". -/
theorem C2_health_summary_witness :
    CheckSmart.executeCheck.loop Tally.empty "/dev/sda".toList
        ⟨"SMART overall-health self-assessment test result: PASSED".toList, none⟩ = Tally.empty
      ∧ CheckSmart.executeCheck.loop Tally.empty "/dev/sda".toList
          ⟨"Attribute 5 FAILING_NOW".toList, none⟩ =
            ⟨["/dev/sda: SMART health check FAILED".toList], []⟩
      ∧ CheckSmart.executeCheck.loop Tally.empty "/dev/sda".toList
          ⟨"no status line".toList, none⟩ =
            ⟨[], ["/dev/sda: Unknown SMART status".toList]⟩ :=
  ⟨(C2_health_summary_decision_order Tally.empty "/dev/sda".toList
      "SMART overall-health self-assessment test result: PASSED".toList).1
      ((strings.Contains_iff _ _).1 (by decide)),
    (C2_health_summary_decision_order Tally.empty "/dev/sda".toList
      "Attribute 5 FAILING_NOW".toList).2.1
      (fun h => absurd ((strings.Contains_iff _ _).2 h) (by decide))
      (Or.inl ((strings.Contains_iff _ _).1 (by decide))),
    (C2_health_summary_decision_order Tally.empty "/dev/sda".toList
      "no status line".toList).2.2
      (fun h => absurd ((strings.Contains_iff _ _).2 h) (by decide))
      (fun h => absurd ((strings.Contains_iff _ _).2 h) (by decide))
      (fun h => absurd ((strings.Contains_iff _ _).2 h) (by decide))⟩

/-! ### The markers of an unsupported device -/

theorem hasUnsupportedMarker_iff (output : Str) :
    hasUnsupportedMarker output = true ↔
      ("Unsupported".toList <:+: output ∨ "Unknown".toList <:+: output) := by
  unfold hasUnsupportedMarker
  rw [Bool.or_eq_true, strings.Contains_iff, strings.Contains_iff]

/-- Counterexample to C3 as stated. With a command that exited successfully
the markers are not looked at: in check-smart an output with "Unknown" and
"FAILED" records a failure, and in check-smart-status an output with "Unknown"
and the status "test failed" records a failure. In check-smart-tests a failed
command whose output has "Unsupported" records nothing at all, so no warning. -/
theorem C3_counterexample :
    CheckSmart.executeCheck.loop Tally.empty "/dev/sda".toList
        ⟨"Device type: Unknown\nSMART overall-health self-assessment test result: FAILED!".toList,
          none⟩ = ⟨["/dev/sda: SMART health check FAILED".toList], []⟩
      ∧ CheckSmartStatus.executeCheck.loop Tally.empty "/dev/sda".toList
          ⟨"Device type: Unknown\nOffline data collection status: (test failed)".toList,
            none⟩ = ⟨["/dev/sda: test failed".toList], []⟩
      ∧ CheckSmartTests.executeCheck.loop (fun x => x) ⟨24, 336⟩ Tally.empty "/dev/sda".toList
          ⟨"SMART command Unsupported".toList, some "exit status 4".toList⟩ ⟨0, 0, 0⟩
            = Tally.empty := by
  refine ⟨by decide, by decide, by decide⟩

/-- **C3, amended.** In check-smart and check-smart-status, for every device
whose diagnostic command returned an error and whose output contains
"Unsupported" or "Unknown", exactly one warning entry "<device>: SMART not
supported" is recorded and no failure entry, whatever else the output holds;
in check-smart-tests no failure entry is recorded for such a device. -/
theorem C3_unsupported_marker_after_command_error (f64 : ℚ → ℚ)
    (plugin : CheckSmartTests.Config) (t : Tally) (device output e : Str) (clk : time.Clock)
    (hmark : "Unsupported".toList <:+: output ∨ "Unknown".toList <:+: output) :
    CheckSmart.executeCheck.loop t device ⟨output, some e⟩ =
        ⟨t.failures, t.warnings ++ [device ++ ": SMART not supported".toList]⟩
      ∧ CheckSmartStatus.executeCheck.loop t device ⟨output, some e⟩ =
        ⟨t.failures, t.warnings ++ [device ++ ": SMART not supported".toList]⟩
      ∧ (CheckSmartTests.executeCheck.loop f64 plugin t device ⟨output, some e⟩ clk).failures =
        t.failures := by
  have h : (strings.Contains output "Unsupported".toList
      || strings.Contains output "Unknown".toList) = true :=
    (hasUnsupportedMarker_iff output).2 hmark
  refine ⟨?_, ?_, ?_⟩
  · simp only [CheckSmart.executeCheck.loop, h, if_true]
  · simp only [CheckSmartStatus.executeCheck.loop, h, Option.isSome_some, and_self, if_true]
  · simp only [CheckSmartTests.executeCheck.loop, h, Option.isSome_some, and_self, if_true]

/-- Instance of the amended C3: a failed command whose output holds "Unknown"
and a status text with "fail" yields the warning and no failure. -/
theorem C3_unsupported_marker_witness :
    CheckSmart.executeCheck.loop Tally.empty "/dev/sdb".toList
        ⟨"Unknown USB bridge\nOffline data collection status: (test failed)".toList,
          some "exit status 1".toList⟩ = ⟨[], ["/dev/sdb: SMART not supported".toList]⟩
      ∧ CheckSmartStatus.executeCheck.loop Tally.empty "/dev/sdb".toList
        ⟨"Unknown USB bridge\nOffline data collection status: (test failed)".toList,
          some "exit status 1".toList⟩ = ⟨[], ["/dev/sdb: SMART not supported".toList]⟩
      ∧ (CheckSmartTests.executeCheck.loop (fun x => x) ⟨24, 336⟩ Tally.empty "/dev/sdb".toList
        ⟨"Unknown USB bridge\nOffline data collection status: (test failed)".toList,
          some "exit status 1".toList⟩ ⟨0, 0, 0⟩).failures = [] :=
  C3_unsupported_marker_after_command_error (fun x => x) ⟨24, 336⟩ Tally.empty "/dev/sdb".toList
    "Unknown USB bridge\nOffline data collection status: (test failed)".toList
    "exit status 1".toList ⟨0, 0, 0⟩
    (Or.inr ((strings.Contains_iff _ _).1 (by decide)))

/-! ### check-smart-status: classification of the extracted status -/

/-- **C4.** In check-smart-status, for every extracted offline-test status
`s` of a device that is not short-circuited as unsupported: if `s` is exactly
"completed without error" or "was completed without error" nothing is
recorded; if `s` is empty the warning "No offline test status found" is
recorded; otherwise a failure carrying `s` is recorded when the lower-cased
`s` contains "fail" or "error", and a warning carrying `s` when it contains
neither. In particular "Offline data collection status: (completed without
error)" is OK, "Self-test execution status: ( 25% of test remaining)" is
WARNING with reason "25% of test remaining", and a status line with the text
"test failed" is CRITICAL. -/
theorem C4_offline_status_classification :
    (∀ (t : Tally) (device : Str) (r : CmdResult) (s : Str),
      (r.err = none ∨ hasUnsupportedMarker r.output = false) →
      CheckSmartStatus.parseOfflineTestStatus r.output = s →
        ((s = "completed without error".toList ∨ s = "was completed without error".toList) →
          CheckSmartStatus.executeCheck.loop t device r = t)
        ∧ (s = [] → CheckSmartStatus.executeCheck.loop t device r =
            ⟨t.failures, t.warnings ++ [device ++ ": No offline test status found".toList]⟩)
        ∧ (s ≠ "completed without error".toList → s ≠ "was completed without error".toList →
            s ≠ [] →
            ("fail".toList <:+: strings.ToLower s ∨ "error".toList <:+: strings.ToLower s) →
            CheckSmartStatus.executeCheck.loop t device r =
              ⟨t.failures ++ [device ++ ": ".toList ++ s], t.warnings⟩)
        ∧ (s ≠ "completed without error".toList → s ≠ "was completed without error".toList →
            s ≠ [] →
            ¬ "fail".toList <:+: strings.ToLower s → ¬ "error".toList <:+: strings.ToLower s →
            CheckSmartStatus.executeCheck.loop t device r =
              ⟨t.failures, t.warnings ++ [device ++ ": ".toList ++ s]⟩))
      ∧ CheckSmartStatus.executeCheck [("/dev/sda".toList,
          ⟨"Offline data collection status: (completed without error)".toList, none⟩)] =
          ⟨sensu.CheckStateOK, none,
            "OK - All SMART offline tests completed successfully\n".toList⟩
      ∧ CheckSmartStatus.executeCheck [("/dev/sda".toList,
          ⟨"Self-test execution status: ( 25% of test remaining)".toList, none⟩)] =
          ⟨sensu.CheckStateWarning, none,
            "WARNING - SMART offline test warnings: [/dev/sda: 25% of test remaining]\n".toList⟩
      ∧ CheckSmartStatus.executeCheck [("/dev/sda".toList,
          ⟨"Offline data collection status: (test failed)".toList, none⟩)] =
          ⟨sensu.CheckStateCritical, none,
            "CRITICAL - SMART offline test failures: [/dev/sda: test failed]\n".toList⟩
      ∧ (∀ (t : Tally) (device : Str) (err : Option Str),
          CheckSmartStatus.executeCheck.loop t device
              ⟨"Offline data collection status: (completed without error)".toList, err⟩ = t
          ∧ CheckSmartStatus.executeCheck.loop t device
              ⟨"Self-test execution status: ( 25% of test remaining)".toList, err⟩ =
            ⟨t.failures, t.warnings ++ [device ++ ": ".toList ++ "25% of test remaining".toList]⟩
          ∧ CheckSmartStatus.executeCheck.loop t device
              ⟨"Offline data collection status: (test failed)".toList, err⟩ =
            ⟨t.failures ++ [device ++ ": ".toList ++ "test failed".toList], t.warnings⟩) := by
  have gen : ∀ (t : Tally) (device : Str) (r : CmdResult) (s : Str),
      (r.err = none ∨ hasUnsupportedMarker r.output = false) →
      CheckSmartStatus.parseOfflineTestStatus r.output = s →
        ((s = "completed without error".toList ∨ s = "was completed without error".toList) →
          CheckSmartStatus.executeCheck.loop t device r = t)
        ∧ (s = [] → CheckSmartStatus.executeCheck.loop t device r =
            ⟨t.failures, t.warnings ++ [device ++ ": No offline test status found".toList]⟩)
        ∧ (s ≠ "completed without error".toList → s ≠ "was completed without error".toList →
            s ≠ [] →
            ("fail".toList <:+: strings.ToLower s ∨ "error".toList <:+: strings.ToLower s) →
            CheckSmartStatus.executeCheck.loop t device r =
              ⟨t.failures ++ [device ++ ": ".toList ++ s], t.warnings⟩)
        ∧ (s ≠ "completed without error".toList → s ≠ "was completed without error".toList →
            s ≠ [] →
            ¬ "fail".toList <:+: strings.ToLower s → ¬ "error".toList <:+: strings.ToLower s →
            CheckSmartStatus.executeCheck.loop t device r =
              ⟨t.failures, t.warnings ++ [device ++ ": ".toList ++ s]⟩) := ?_
  · refine ⟨gen, by decide, by decide, by decide, ?_⟩
    intro t device err
    refine ⟨?_, ?_, ?_⟩
    · exact (gen t device _ "completed without error".toList
        (Or.inr (show hasUnsupportedMarker
          "Offline data collection status: (completed without error)".toList = false
          by decide))
        (show CheckSmartStatus.parseOfflineTestStatus
          "Offline data collection status: (completed without error)".toList =
            "completed without error".toList by decide)).1 (Or.inl rfl)
    · exact (gen t device _ "25% of test remaining".toList
        (Or.inr (show hasUnsupportedMarker
          "Self-test execution status: ( 25% of test remaining)".toList = false by decide))
        (show CheckSmartStatus.parseOfflineTestStatus
          "Self-test execution status: ( 25% of test remaining)".toList =
            "25% of test remaining".toList by decide)).2.2.2
        (by decide) (by decide) (by decide)
        (fun h => absurd ((strings.Contains_iff _ _).2 h) (by decide))
        (fun h => absurd ((strings.Contains_iff _ _).2 h) (by decide))
    · exact (gen t device _ "test failed".toList
        (Or.inr (show hasUnsupportedMarker
          "Offline data collection status: (test failed)".toList = false by decide))
        (show CheckSmartStatus.parseOfflineTestStatus
          "Offline data collection status: (test failed)".toList =
            "test failed".toList by decide)).2.2.1
        (by decide) (by decide) (by decide)
        (Or.inl ((strings.Contains_iff _ _).1 (by decide)))
  intro t device r s hgate hs
  have hg : ¬ (r.err.isSome = true ∧ (strings.Contains r.output "Unsupported".toList
      || strings.Contains r.output "Unknown".toList) = true) := by
    rintro ⟨h1, h2⟩
    rcases hgate with h | h
    · rw [h] at h1; exact absurd h1 (by simp)
    · unfold hasUnsupportedMarker at h; rw [h] at h2; exact absurd h2 (by simp)
  refine ⟨?_, ?_, ?_, ?_⟩
  · intro h
    unfold CheckSmartStatus.executeCheck.loop
    rw [if_neg hg]
    simp only [hs]
    rcases h with h | h
    · rw [if_pos h]
    · split_ifs <;> rfl
  · intro h
    unfold CheckSmartStatus.executeCheck.loop
    rw [if_neg hg]
    simp only [hs]
    subst h
    rw [if_neg (by decide), if_neg (by decide), if_pos rfl]
  · intro h1 h2 h3 h4
    rw [← strings.Contains_iff, ← strings.Contains_iff, ← Bool.or_eq_true] at h4
    unfold CheckSmartStatus.executeCheck.loop
    rw [if_neg hg]
    simp only [hs]
    rw [if_neg h1, if_neg h2, if_neg h3, if_pos h4]
  · intro h1 h2 h3 h4 h5
    rw [← strings.Contains_iff, Bool.not_eq_true] at h4 h5
    unfold CheckSmartStatus.executeCheck.loop
    rw [if_neg hg]
    simp only [hs]
    rw [if_neg h1, if_neg h2, if_neg h3, if_neg (by rw [h4, h5]; decide)]

/-- Instance of C4: a device whose command succeeded and whose extracted
status is "in progress" gets a warning carrying that text. -/
theorem C4_offline_status_witness :
    CheckSmartStatus.executeCheck.loop Tally.empty "/dev/sdc".toList
        ⟨"Self-test execution status: (in progress)".toList, none⟩ =
      ⟨[], ["/dev/sdc: in progress".toList]⟩ :=
  (C4_offline_status_classification.1 Tally.empty "/dev/sdc".toList
    ⟨"Self-test execution status: (in progress)".toList, none⟩ "in progress".toList
    (Or.inl rfl) (by decide)).2.2.2 (by decide) (by decide) (by decide)
    (fun h => absurd ((strings.Contains_iff _ _).2 h) (by decide))
    (fun h => absurd ((strings.Contains_iff _ _).2 h) (by decide))

/-! ### The matcher finds what the patterns mean -/

theorem regexp.starLoop_sound (a : regexp.Re) (k : regexp.Kont) (r : Str × regexp.Caps)
    (iha : ∀ s c k', a.run s c k' = some r →
      ∃ s1 c1, regexp.Matches a s c s1 c1 ∧ k' s1 c1 = some r)
    (n : Nat) : ∀ s c, regexp.starLoop a.run n s c k = some r →
      ∃ s1 c1, regexp.Matches (.star a) s c s1 c1 ∧ k s1 c1 = some r := by
  induction n with
  | zero =>
    intro s c h
    exact ⟨s, c, regexp.Matches.starDone a s c, h⟩
  | succ n ih =>
    intro s c h
    simp only [regexp.starLoop] at h
    split at h
    · next r' hr' =>
      cases h
      obtain ⟨s1, c1, hm, hk⟩ := iha s c _ hr'
      by_cases hlt : s1.length < s.length
      · rw [if_pos hlt] at hk
        obtain ⟨s2, c2, hm2, hk2⟩ := ih s1 c1 hk
        exact ⟨s2, c2, regexp.Matches.starMore hm hlt hm2, hk2⟩
      · rw [if_neg hlt] at hk
        cases hk
    · exact ⟨s, c, regexp.Matches.starDone a s c, h⟩

theorem regexp.lazyLoop_sound (a : regexp.Re) (k : regexp.Kont) (r : Str × regexp.Caps)
    (iha : ∀ s c k', a.run s c k' = some r →
      ∃ s1 c1, regexp.Matches a s c s1 c1 ∧ k' s1 c1 = some r)
    (n : Nat) : ∀ s c, regexp.lazyLoop a.run n s c k = some r →
      ∃ s1 c1, regexp.Matches (.lazyStar a) s c s1 c1 ∧ k s1 c1 = some r := by
  induction n with
  | zero =>
    intro s c h
    exact ⟨s, c, regexp.Matches.lazyDone a s c, h⟩
  | succ n ih =>
    intro s c h
    simp only [regexp.lazyLoop] at h
    split at h
    · next r' hr' =>
      cases h
      exact ⟨s, c, regexp.Matches.lazyDone a s c, hr'⟩
    · obtain ⟨s1, c1, hm, hk⟩ := iha s c _ h
      by_cases hlt : s1.length < s.length
      · rw [if_pos hlt] at hk
        obtain ⟨s2, c2, hm2, hk2⟩ := ih s1 c1 hk
        exact ⟨s2, c2, regexp.Matches.lazyMore hm hlt hm2, hk2⟩
      · rw [if_neg hlt] at hk
        cases hk

/-- Soundness of the search: a result comes from a match of the pattern,
handed to the continuation. -/
theorem regexp.run_sound (re : regexp.Re) : ∀ (s : Str) (c : regexp.Caps) (k : regexp.Kont)
    (r : Str × regexp.Caps), re.run s c k = some r →
      ∃ s1 c1, regexp.Matches re s c s1 c1 ∧ k s1 c1 = some r := by
  induction re with
  | eps =>
    intro s c k r h
    exact ⟨s, c, regexp.Matches.eps s c, h⟩
  | cls p =>
    intro s c k r h
    cases s with
    | nil => simp [regexp.Re.run] at h
    | cons a t =>
      simp only [regexp.Re.run] at h
      by_cases hp : p a = true
      · rw [if_pos hp] at h
        exact ⟨t, c, regexp.Matches.cls p a t c hp, h⟩
      · rw [if_neg hp] at h
        cases h
  | cat a b iha ihb =>
    intro s c k r h
    simp only [regexp.Re.run] at h
    obtain ⟨s1, c1, hm1, h1⟩ := iha s c _ r h
    obtain ⟨s2, c2, hm2, h2⟩ := ihb s1 c1 k r h1
    exact ⟨s2, c2, regexp.Matches.cat hm1 hm2, h2⟩
  | alt a b iha ihb =>
    intro s c k r h
    simp only [regexp.Re.run] at h
    split at h
    · next r' hr' =>
      cases h
      obtain ⟨s1, c1, hm, hk⟩ := iha s c k _ hr'
      exact ⟨s1, c1, regexp.Matches.altLeft b hm, hk⟩
    · obtain ⟨s1, c1, hm, hk⟩ := ihb s c k r h
      exact ⟨s1, c1, regexp.Matches.altRight a hm, hk⟩
  | star a iha =>
    intro s c k r h
    simp only [regexp.Re.run] at h
    exact regexp.starLoop_sound a k r (fun s c k' => iha s c k' r) s.length s c h
  | lazyStar a iha =>
    intro s c k r h
    simp only [regexp.Re.run] at h
    exact regexp.lazyLoop_sound a k r (fun s c k' => iha s c k' r) s.length s c h
  | cap i a iha =>
    intro s c k r h
    simp only [regexp.Re.run] at h
    obtain ⟨s1, c1, hm, hk⟩ := iha s c _ r h
    exact ⟨s1, _, regexp.Matches.cap i hm, hk⟩

theorem regexp.run_none_of_kont_none (re : regexp.Re) (s : Str) (c : regexp.Caps) :
    re.run s c (fun _ _ => none) = none := by
  cases h : re.run s c (fun _ _ => none) with
  | none => rfl
  | some r =>
    obtain ⟨s1, c1, _, hk⟩ := regexp.run_sound re s c _ r h
    cases hk

/-- A match never reads past the end: what is left is no longer than the
input. -/
theorem regexp.Matches.length_le {re : regexp.Re} {s s1 : Str} {c c1 : regexp.Caps}
    (h : regexp.Matches re s c s1 c1) : s1.length ≤ s.length := by
  induction h with
  | eps => exact le_refl _
  | cls => simp
  | cat _ _ ih1 ih2 => exact le_trans ih2 ih1
  | altLeft _ _ ih => exact ih
  | altRight _ _ ih => exact ih
  | starDone => exact le_refl _
  | starMore _ hlt _ _ ih2 => exact le_trans ih2 (le_of_lt hlt)
  | lazyDone => exact le_refl _
  | lazyMore _ hlt _ _ ih2 => exact le_trans ih2 (le_of_lt hlt)
  | cap _ _ ih => exact ih

/-- With fuel for every character, the greedy loop does not depend on the
fuel. -/
theorem regexp.starLoop_fuel (a : regexp.Re) (k : regexp.Kont) (n : Nat) :
    ∀ (s : Str) (c : regexp.Caps), s.length ≤ n →
      regexp.starLoop a.run n s c k = regexp.starLoop a.run s.length s c k := by
  induction n using Nat.strong_induction_on with
  | _ n ih =>
    intro s c hle
    rcases Nat.eq_or_lt_of_le hle with heq | hlt
    · rw [heq]
    · cases n with
      | zero => omega
      | succ n =>
        have key : ∀ m, s.length ≤ m + 1 → m ≤ n →
            (fun (s1 : Str) (c1 : regexp.Caps) =>
              if s1.length < s.length then regexp.starLoop a.run m s1 c1 k else none) =
            (fun (s1 : Str) (c1 : regexp.Caps) =>
              if s1.length < s.length then regexp.starLoop a.run s1.length s1 c1 k
              else none) := by
          intro m hm hmn
          funext s1 c1
          by_cases h1 : s1.length < s.length
          · rw [if_pos h1, if_pos h1]
            exact ih m (by omega) s1 c1 (by omega)
          · rw [if_neg h1, if_neg h1]
        cases hs : s.length with
        | zero =>
          simp only [regexp.starLoop]
          have : (fun (s1 : Str) (c1 : regexp.Caps) =>
              if s1.length < s.length then regexp.starLoop a.run n s1 c1 k else none) =
              (fun _ _ => none) := by
            funext s1 c1
            rw [if_neg (by omega)]
          rw [this, regexp.run_none_of_kont_none]
        | succ m =>
          simp only [regexp.starLoop]
          rw [key n (by omega) (le_refl _), key m (by omega) (by omega)]

theorem regexp.lazyLoop_fuel (a : regexp.Re) (k : regexp.Kont) (n : Nat) :
    ∀ (s : Str) (c : regexp.Caps), s.length ≤ n →
      regexp.lazyLoop a.run n s c k = regexp.lazyLoop a.run s.length s c k := by
  induction n using Nat.strong_induction_on with
  | _ n ih =>
    intro s c hle
    rcases Nat.eq_or_lt_of_le hle with heq | hlt
    · rw [heq]
    · cases n with
      | zero => omega
      | succ n =>
        have key : ∀ m, s.length ≤ m + 1 → m ≤ n →
            (fun (s1 : Str) (c1 : regexp.Caps) =>
              if s1.length < s.length then regexp.lazyLoop a.run m s1 c1 k else none) =
            (fun (s1 : Str) (c1 : regexp.Caps) =>
              if s1.length < s.length then regexp.lazyLoop a.run s1.length s1 c1 k
              else none) := by
          intro m hm hmn
          funext s1 c1
          by_cases h1 : s1.length < s.length
          · rw [if_pos h1, if_pos h1]
            exact ih m (by omega) s1 c1 (by omega)
          · rw [if_neg h1, if_neg h1]
        cases hs : s.length with
        | zero =>
          simp only [regexp.lazyLoop]
          have : (fun (s1 : Str) (c1 : regexp.Caps) =>
              if s1.length < s.length then regexp.lazyLoop a.run n s1 c1 k else none) =
              (fun _ _ => none) := by
            funext s1 c1
            rw [if_neg (by omega)]
          rw [this, regexp.run_none_of_kont_none]
          cases k s c <;> rfl
        | succ m =>
          simp only [regexp.lazyLoop]
          rw [key n (by omega) (le_refl _), key m (by omega) (by omega)]

/-- Completeness of the search: when the pattern has a match that the
continuation accepts, the search returns a result. -/
theorem regexp.run_complete {re : regexp.Re} {s s1 : Str} {c c1 : regexp.Caps}
    (h : regexp.Matches re s c s1 c1) :
    ∀ k : regexp.Kont, (k s1 c1).isSome = true → (re.run s c k).isSome = true := by
  induction h with
  | eps s c => intro k hk; simpa [regexp.Re.run] using hk
  | cls p a s c hp => intro k hk; simpa [regexp.Re.run, hp] using hk
  | cat _ _ ih1 ih2 =>
    intro k hk
    simp only [regexp.Re.run]
    exact ih1 _ (ih2 k hk)
  | altLeft b _ ih =>
    intro k hk
    simp only [regexp.Re.run]
    have := ih k hk
    split
    · rfl
    · next hnone => rw [hnone] at this; cases this
  | altRight a _ ih =>
    intro k hk
    simp only [regexp.Re.run]
    split
    · rfl
    · exact ih k hk
  | starDone a s c =>
    intro k hk
    simp only [regexp.Re.run]
    cases hs : s.length with
    | zero => simpa [regexp.starLoop] using hk
    | succ n =>
      simp only [regexp.starLoop]
      split
      · rfl
      · exact hk
  | @starMore a s s1 s2 c c1 c2 hm hlt _ ih1 ih2 =>
    intro k hk
    simp only [regexp.Re.run]
    cases hs : s.length with
    | zero => omega
    | succ n =>
      simp only [regexp.starLoop]
      have h2 := ih2 k hk
      simp only [regexp.Re.run] at h2
      have h1 := ih1 (fun s1' c1' =>
        if s1'.length < s.length then regexp.starLoop a.run n s1' c1' k else none) (by
          simp only [hlt, if_true]
          rw [regexp.starLoop_fuel a k n s1 c1 (by omega)]
          exact h2)
      split
      · rfl
      · next hnone => rw [hnone] at h1; cases h1
  | lazyDone a s c =>
    intro k hk
    simp only [regexp.Re.run]
    cases hs : s.length with
    | zero => simpa [regexp.lazyLoop] using hk
    | succ n =>
      simp only [regexp.lazyLoop]
      split
      · rfl
      · next hnone => rw [hnone] at hk; cases hk
  | @lazyMore a s s1 s2 c c1 c2 hm hlt _ ih1 ih2 =>
    intro k hk
    simp only [regexp.Re.run]
    cases hs : s.length with
    | zero => omega
    | succ n =>
      simp only [regexp.lazyLoop]
      have h2 := ih2 k hk
      simp only [regexp.Re.run] at h2
      split
      · rfl
      · exact ih1 (fun s1' c1' =>
          if s1'.length < s.length then regexp.lazyLoop a.run n s1' c1' k else none) (by
            simp only [hlt, if_true]
            rw [regexp.lazyLoop_fuel a k n s1 c1 (by omega)]
            exact h2)
  | cap i _ ih =>
    intro k hk
    simp only [regexp.Re.run]
    exact ih _ hk

/-! ### Reading the patterns of the probes -/

theorem regexp.Matches.cls_inv {p : Char → Bool} {s s1 : Str} {c c1 : regexp.Caps}
    (h : regexp.Matches (.cls p) s c s1 c1) : ∃ a, s = a :: s1 ∧ p a = true ∧ c1 = c := by
  cases h with
  | cls _ a _ _ hp => exact ⟨a, rfl, hp, rfl⟩

theorem regexp.Matches.cat_inv {a b : regexp.Re} {s s2 : Str} {c c2 : regexp.Caps}
    (h : regexp.Matches (.cat a b) s c s2 c2) :
    ∃ s1 c1, regexp.Matches a s c s1 c1 ∧ regexp.Matches b s1 c1 s2 c2 := by
  cases h with
  | cat h1 h2 => exact ⟨_, _, h1, h2⟩

theorem regexp.Matches.cap_inv {i : Nat} {a : regexp.Re} {s s1 : Str} {c c1 : regexp.Caps}
    (h : regexp.Matches (.cap i a) s c s1 c1) :
    ∃ c0, regexp.Matches a s c s1 c0 ∧ c1 = c0.set i (s.take (s.length - s1.length)) := by
  cases h with
  | cap _ h1 => exact ⟨_, h1, rfl⟩

theorem regexp.Matches.star_cls_inv {p : Char → Bool} {s s1 : Str} {c c1 : regexp.Caps}
    (h : regexp.Matches (.star (.cls p)) s c s1 c1) :
    ∃ ws, s = ws ++ s1 ∧ ws.all p = true ∧ c1 = c := by
  generalize hre : regexp.Re.star (.cls p) = re at h
  induction h with
  | starDone a s c => exact ⟨[], rfl, rfl, rfl⟩
  | starMore h1 _ _ _ ih2 =>
    cases hre
    obtain ⟨a, rfl, hp, rfl⟩ := h1.cls_inv
    obtain ⟨ws, rfl, hws, rfl⟩ := ih2 rfl
    exact ⟨a :: ws, rfl, by simp [hp, hws], rfl⟩
  | _ => cases hre

theorem regexp.Matches.lazyStar_cls_inv {p : Char → Bool} {s s1 : Str} {c c1 : regexp.Caps}
    (h : regexp.Matches (.lazyStar (.cls p)) s c s1 c1) :
    ∃ ws, s = ws ++ s1 ∧ ws.all p = true ∧ c1 = c := by
  generalize hre : regexp.Re.lazyStar (.cls p) = re at h
  induction h with
  | lazyDone a s c => exact ⟨[], rfl, rfl, rfl⟩
  | lazyMore h1 _ _ _ ih2 =>
    cases hre
    obtain ⟨a, rfl, hp, rfl⟩ := h1.cls_inv
    obtain ⟨ws, rfl, hws, rfl⟩ := ih2 rfl
    exact ⟨a :: ws, rfl, by simp [hp, hws], rfl⟩
  | _ => cases hre

theorem regexp.Matches.plus_cls_inv {p : Char → Bool} {s s1 : Str} {c c1 : regexp.Caps}
    (h : regexp.Matches (regexp.Re.plus (.cls p)) s c s1 c1) :
    ∃ a ws, s = a :: (ws ++ s1) ∧ p a = true ∧ ws.all p = true ∧ c1 = c := by
  obtain ⟨s0, c0, h1, h2⟩ := regexp.Matches.cat_inv h
  obtain ⟨a, rfl, hp, rfl⟩ := h1.cls_inv
  obtain ⟨ws, rfl, hws, rfl⟩ := h2.star_cls_inv
  exact ⟨a, ws, rfl, hp, hws, rfl⟩

theorem regexp.Matches.star_cls_intro (p : Char → Bool) (ws s1 : Str) (c : regexp.Caps)
    (hws : ws.all p = true) : regexp.Matches (.star (.cls p)) (ws ++ s1) c s1 c := by
  induction ws with
  | nil => exact regexp.Matches.starDone _ _ _
  | cons a ws ih =>
    simp only [List.all_cons, Bool.and_eq_true] at hws
    exact regexp.Matches.starMore (regexp.Matches.cls p a _ c hws.1) (by simp) (ih hws.2)

theorem regexp.Matches.plus_cls_intro (p : Char → Bool) (a : Char) (ws s1 : Str)
    (c : regexp.Caps) (ha : p a = true) (hws : ws.all p = true) :
    regexp.Matches (regexp.Re.plus (.cls p)) (a :: (ws ++ s1)) c s1 c :=
  regexp.Matches.cat (regexp.Matches.cls p a _ c ha) (regexp.Matches.star_cls_intro p ws s1 c hws)

theorem regexp.Matches.lit_inv {w s s1 : Str} {c c1 : regexp.Caps}
    (h : regexp.Matches (regexp.Re.lit w) s c s1 c1) : s = w ++ s1 ∧ c1 = c := by
  induction w generalizing s c with
  | nil =>
    cases h
    exact ⟨rfl, rfl⟩
  | cons x w ih =>
    obtain ⟨s0, c0, h1, h2⟩ := regexp.Matches.cat_inv h
    obtain ⟨a, rfl, hp, rfl⟩ := h1.cls_inv
    obtain ⟨rfl, rfl⟩ := ih h2
    simp only [beq_iff_eq] at hp
    subst hp
    exact ⟨rfl, rfl⟩

theorem regexp.Matches.litFold_inv {w s s1 : Str} {c c1 : regexp.Caps}
    (h : regexp.Matches (regexp.Re.litFold w) s c s1 c1) :
    ∃ lab, s = lab ++ s1 ∧ CheckSmartStatus.foldEq lab w = true ∧ c1 = c := by
  induction w generalizing s c with
  | nil =>
    cases h
    exact ⟨[], rfl, rfl, rfl⟩
  | cons x w ih =>
    obtain ⟨s0, c0, h1, h2⟩ := regexp.Matches.cat_inv h
    obtain ⟨a, rfl, hp, rfl⟩ := h1.cls_inv
    obtain ⟨lab, rfl, hlab, rfl⟩ := ih h2
    exact ⟨a :: lab, rfl, by simp [CheckSmartStatus.foldEq, hp, hlab], rfl⟩

theorem regexp.Matches.litFold_intro (w : Str) : ∀ (lab s1 : Str) (c : regexp.Caps),
    CheckSmartStatus.foldEq lab w = true →
    regexp.Matches (regexp.Re.litFold w) (lab ++ s1) c s1 c := by
  induction w with
  | nil =>
    intro lab s1 c h
    cases lab with
    | nil => exact regexp.Matches.eps _ _
    | cons a lab => simp [CheckSmartStatus.foldEq] at h
  | cons x w ih =>
    intro lab s1 c h
    cases lab with
    | nil => simp [CheckSmartStatus.foldEq] at h
    | cons a lab =>
      simp only [CheckSmartStatus.foldEq, Bool.and_eq_true] at h
      exact regexp.Matches.cat (regexp.Matches.cls _ a _ c h.1) (ih lab s1 c h.2)

theorem CheckSmartStatus.foldEq_length : ∀ (lab w : Str),
    CheckSmartStatus.foldEq lab w = true → lab.length = w.length := by
  intro lab
  induction lab with
  | nil =>
    intro w h
    cases w with
    | nil => rfl
    | cons x w => simp [CheckSmartStatus.foldEq] at h
  | cons a lab ih =>
    intro w h
    cases w with
    | nil => simp [CheckSmartStatus.foldEq] at h
    | cons x w =>
      simp only [CheckSmartStatus.foldEq, Bool.and_eq_true] at h
      simp [ih w h.2]

/-- A run of characters with a property, ended by a character without it,
can be read off a text in one way only. -/
theorem strings.span_unique {α : Type} (p : α → Bool) : ∀ (xs ys : List α) (a b : α)
    (r r1 : List α), xs.all p = true → p a = false → ys.all p = true → p b = false →
    xs ++ a :: r = ys ++ b :: r1 → xs = ys ∧ a = b ∧ r = r1 := by
  intro xs
  induction xs with
  | nil =>
    intro ys a b r r1 _ ha hys _ h
    cases ys with
    | nil =>
      simp only [List.nil_append, List.cons.injEq] at h
      exact ⟨rfl, h.1, h.2⟩
    | cons y ys =>
      simp only [List.nil_append, List.cons_append, List.cons.injEq] at h
      simp only [List.all_cons, Bool.and_eq_true] at hys
      rw [← h.1, ha] at hys
      exact absurd hys.1 (by simp)
  | cons x xs ih =>
    intro ys a b r r1 hxs ha hys hb h
    simp only [List.all_cons, Bool.and_eq_true] at hxs
    cases ys with
    | nil =>
      simp only [List.nil_append, List.cons_append, List.cons.injEq] at h
      rw [h.1, hb] at hxs
      exact absurd hxs.1 (by simp)
    | cons y ys =>
      simp only [List.cons_append, List.cons.injEq] at h
      simp only [List.all_cons, Bool.and_eq_true] at hys
      obtain ⟨h1, h2, h3⟩ := ih ys a b r r1 hxs.2 ha hys.2 hb h.2
      exact ⟨by rw [h.1, h1], h2, h3⟩

/-! ### The leftmost match -/

theorem regexp.matchHere_sound {re : regexp.Regexp} {s rest : Str} {c : regexp.Caps}
    (h : re.matchHere s = some (rest, c)) :
    regexp.Matches re.prog s (fun _ => []) rest c := by
  obtain ⟨s1, c1, hm, hk⟩ := regexp.run_sound re.prog s _ _ _ h
  simp only [Option.some.injEq, Prod.mk.injEq] at hk
  obtain ⟨rfl, rfl⟩ := hk
  exact hm

theorem regexp.matchHere_complete {re : regexp.Regexp} {s s1 : Str} {c1 : regexp.Caps}
    (h : regexp.Matches re.prog s (fun _ => []) s1 c1) : (re.matchHere s).isSome = true :=
  regexp.run_complete h _ rfl

theorem regexp.find_of_matchHere {re : regexp.Regexp} {s rest : Str} {c : regexp.Caps}
    (h : re.matchHere s = some (rest, c)) :
    regexp.FindStringSubmatch re s = regexp.submatches re s rest c := by
  cases s with
  | nil => simp only [regexp.FindStringSubmatch, h]
  | cons a t => simp only [regexp.FindStringSubmatch, h]

theorem regexp.find_cons_of_none {re : regexp.Regexp} {a : Char} {t : Str}
    (h : re.matchHere (a :: t) = none) :
    regexp.FindStringSubmatch re (a :: t) = regexp.FindStringSubmatch re t := by
  simp only [regexp.FindStringSubmatch, h]

/-- The search skips every offset at which the pattern does not match. -/
theorem regexp.find_skip (re : regexp.Regexp) : ∀ (pre t : Str),
    (∀ pre1 suf, pre = pre1 ++ suf → suf ≠ [] → re.matchHere (suf ++ t) = none) →
    regexp.FindStringSubmatch re (pre ++ t) = regexp.FindStringSubmatch re t := by
  intro pre
  induction pre with
  | nil => intro t _; rfl
  | cons a pre ih =>
    intro t h
    have h0 := h [] (a :: pre) rfl (by simp)
    rw [List.cons_append] at h0 ⊢
    rw [regexp.find_cons_of_none h0]
    exact ih t (fun pre1 suf hps hne => h (a :: pre1) suf (by rw [hps]; rfl) hne)

/-- The nil slice is returned when the pattern matches at no offset. -/
theorem regexp.find_none (re : regexp.Regexp) : ∀ (s : Str),
    (∀ pre t, s = pre ++ t → re.matchHere t = none) →
    regexp.FindStringSubmatch re s = [] := by
  intro s
  induction s with
  | nil =>
    intro h
    simp only [regexp.FindStringSubmatch, h [] [] rfl]
  | cons a s ih =>
    intro h
    rw [regexp.find_cons_of_none (h [] (a :: s) rfl)]
    exact ih (fun pre t hs => h (a :: pre) t (by rw [hs]; rfl))

/-! ### check-smart-status: the status line -/

theorem strings.take_consumed (w r : Str) : (w ++ r).take ((w ++ r).length - r.length) = w := by
  simp

/-- What the two status patterns match: the label in any case, white space,
and a non-empty parenthesised text without a closing parenthesis, which
becomes group 1. -/
theorem CheckSmartStatus.status_matches_inv {label s s1 : Str} {c c1 : regexp.Caps}
    (h : regexp.Matches (.cat (regexp.Re.litFold label) CheckSmartStatus.statusTail) s c s1 c1) :
    ∃ lab ws body, s = lab ++ (ws ++ ('(' :: (body ++ (')' :: s1))))
      ∧ CheckSmartStatus.foldEq lab label = true ∧ ws.all regexp.isSpaceClass = true
      ∧ body ≠ [] ∧ body.all (fun x => x != ')') = true ∧ c1 = c.set 1 body := by
  obtain ⟨t1, d1, h1, h2⟩ := regexp.Matches.cat_inv h
  obtain ⟨lab, rfl, hlab, rfl⟩ := h1.litFold_inv
  unfold CheckSmartStatus.statusTail at h2
  obtain ⟨t2, d2, h3, h4⟩ := regexp.Matches.cat_inv h2
  obtain ⟨ws, rfl, hws, rfl⟩ := h3.star_cls_inv
  obtain ⟨t3, d3, h5, h6⟩ := regexp.Matches.cat_inv h4
  obtain ⟨a, rfl, ha, rfl⟩ := h5.cls_inv
  obtain ⟨t4, d4, h7, h8⟩ := regexp.Matches.cat_inv h6
  obtain ⟨d5, h9, rfl⟩ := h7.cap_inv
  obtain ⟨b, bs, rfl, hb, hbs, rfl⟩ := h9.plus_cls_inv
  obtain ⟨e, rfl, he, rfl⟩ := h8.cls_inv
  simp only [beq_iff_eq] at ha he
  subst ha he
  refine ⟨lab, ws, b :: bs, rfl, hlab, hws, by simp, by simp [hb, hbs], ?_⟩
  have := strings.take_consumed (b :: bs) (')' :: s1)
  simp only [List.cons_append] at this
  rw [this]

theorem CheckSmartStatus.status_matches_intro (label lab ws body s1 : Str) (c : regexp.Caps)
    (hlab : CheckSmartStatus.foldEq lab label = true) (hws : ws.all regexp.isSpaceClass = true)
    (hne : body ≠ []) (hbody : body.all (fun x => x != ')') = true) :
    regexp.Matches (.cat (regexp.Re.litFold label) CheckSmartStatus.statusTail)
      (lab ++ (ws ++ ('(' :: (body ++ (')' :: s1))))) c s1 (c.set 1 body) := by
  cases body with
  | nil => exact absurd rfl hne
  | cons b bs =>
    simp only [List.all_cons, Bool.and_eq_true] at hbody
    refine regexp.Matches.cat (regexp.Matches.litFold_intro label lab _ c hlab) ?_
    unfold CheckSmartStatus.statusTail
    refine regexp.Matches.cat (regexp.Matches.star_cls_intro _ ws _ c hws) ?_
    refine regexp.Matches.cat (regexp.Matches.cls _ '(' _ c (by simp)) ?_
    have hcap := regexp.Matches.cap 1
      (regexp.Matches.plus_cls_intro (fun x => x != ')') b bs (')' :: s1) c hbody.1 hbody.2)
    have htake := strings.take_consumed (b :: bs) (')' :: s1)
    simp only [List.cons_append] at htake
    rw [htake] at hcap
    exact regexp.Matches.cat hcap (regexp.Matches.cls _ ')' _ _ (by simp))

/-- At one offset the output has at most one status line for a label. -/
theorem CheckSmartStatus.StatusAt_unique {label output pre body1 body2 : Str}
    (h1 : CheckSmartStatus.StatusAt label output pre body1)
    (h2 : CheckSmartStatus.StatusAt label output pre body2) : body1 = body2 := by
  obtain ⟨lab1, ws1, r1, e1, hl1, hw1, _, hb1⟩ := h1
  obtain ⟨lab2, ws2, r2, e2, hl2, hw2, _, hb2⟩ := h2
  rw [e1] at e2
  have e3 := List.append_cancel_left e2
  have hlen : lab1.length = lab2.length := by
    rw [CheckSmartStatus.foldEq_length _ _ hl1, CheckSmartStatus.foldEq_length _ _ hl2]
  obtain ⟨rfl, e4⟩ := List.append_inj e3 hlen
  obtain ⟨rfl, _, e5⟩ := strings.span_unique regexp.isSpaceClass ws1 ws2 '(' '(' _ _
    hw1 (by decide) hw2 (by decide) e4
  obtain ⟨rfl, _, _⟩ := strings.span_unique (fun x => x != ')') body1 body2 ')' ')' _ _
    hb1 (by decide) hb2 (by decide) e5
  rfl

/-- The first status line, when there is a status line at all. -/
theorem CheckSmartStatus.FirstStatus_exists {label output : Str}
    (h : ∃ pre body, CheckSmartStatus.StatusAt label output pre body) :
    ∃ body, CheckSmartStatus.FirstStatus label output body := by
  classical
  have hex : ∃ n, ∃ pre body, pre.length = n ∧ CheckSmartStatus.StatusAt label output pre body := by
    obtain ⟨pre, body, hs⟩ := h
    exact ⟨pre.length, pre, body, rfl, hs⟩
  obtain ⟨pre, body, hlen, hs⟩ := Nat.find_spec hex
  refine ⟨body, pre, hs, ?_⟩
  intro pre1 body1 hs1
  rw [hlen]
  exact Nat.find_min' hex ⟨pre1, body1, rfl, hs1⟩

theorem CheckSmartStatus.FirstStatus_unique {label output body1 body2 : Str}
    (h1 : CheckSmartStatus.FirstStatus label output body1)
    (h2 : CheckSmartStatus.FirstStatus label output body2) : body1 = body2 := by
  obtain ⟨pre1, hs1, hmin1⟩ := h1
  obtain ⟨pre2, hs2, hmin2⟩ := h2
  have hlen : pre1.length = pre2.length :=
    le_antisymm (hmin1 pre2 body2 hs2) (hmin2 pre1 body1 hs1)
  obtain ⟨_, _, _, e1, _⟩ := id hs1
  obtain ⟨_, _, _, e2, _⟩ := id hs2
  have hpre : pre1 = pre2 := (List.append_inj (e1.symm.trans e2) hlen).1
  subst hpre
  exact CheckSmartStatus.StatusAt_unique hs1 hs2

/-- `FindStringSubmatch` with a status pattern returns the text of the first
status line as its group 1. -/
theorem CheckSmartStatus.find_first_status {label output body : Str}
    (h : CheckSmartStatus.FirstStatus label output body) :
    ∃ m0, regexp.FindStringSubmatch
      ⟨.cat (regexp.Re.litFold label) CheckSmartStatus.statusTail, 1⟩ output = [m0, body] := by
  obtain ⟨pre, hs, hmin⟩ := h
  obtain ⟨lab, ws, rest, rfl, hlab, hws, hne, hbody⟩ := id hs
  have hm := CheckSmartStatus.status_matches_intro label lab ws body rest (fun _ => [])
    hlab hws hne hbody
  have hsome : (regexp.Regexp.matchHere
      ⟨.cat (regexp.Re.litFold label) CheckSmartStatus.statusTail, 1⟩
      (lab ++ (ws ++ ('(' :: (body ++ (')' :: rest)))))).isSome = true :=
    regexp.matchHere_complete hm
  obtain ⟨⟨rest1, c1⟩, hr⟩ := Option.isSome_iff_exists.1 hsome
  have hm1 := regexp.matchHere_sound hr
  obtain ⟨lab1, ws1, body1, e1, hlab1, hws1, hne1, hbody1, hc1⟩ :=
    CheckSmartStatus.status_matches_inv hm1
  have hs1 : CheckSmartStatus.StatusAt label
      (pre ++ (lab ++ (ws ++ ('(' :: (body ++ (')' :: rest)))))) pre body1 :=
    ⟨lab1, ws1, rest1, by rw [e1], hlab1, hws1, hne1, hbody1⟩
  have hb : body1 = body := CheckSmartStatus.StatusAt_unique hs1 hs
  subst hb
  rw [regexp.find_skip, regexp.find_of_matchHere hr]
  · have hgroups : (List.range 1).map (fun i => c1 (i + 1)) = [body1] := by
      rw [hc1]; rfl
    exact ⟨_, by unfold regexp.submatches; rw [hgroups]⟩
  · intro pre1 suf hpre hsuf
    cases hnone : regexp.Regexp.matchHere
        ⟨.cat (regexp.Re.litFold label) CheckSmartStatus.statusTail, 1⟩
        (suf ++ (lab ++ (ws ++ ('(' :: (body1 ++ (')' :: rest)))))) with
    | none => rfl
    | some r =>
      obtain ⟨rest2, c2⟩ := r
      have hm2 := regexp.matchHere_sound hnone
      obtain ⟨lab2, ws2, body2, e2, hlab2, hws2, hne2, hbody2, _⟩ :=
        CheckSmartStatus.status_matches_inv hm2
      have hs2 : CheckSmartStatus.StatusAt label
          (pre ++ (lab ++ (ws ++ ('(' :: (body1 ++ (')' :: rest)))))) pre1 body2 :=
        ⟨lab2, ws2, rest2, by rw [hpre, List.append_assoc, e2], hlab2, hws2, hne2, hbody2⟩
      have := hmin pre1 body2 hs2
      rw [hpre, List.length_append] at this
      have : suf.length = 0 := by omega
      exact absurd (List.length_eq_zero.1 this) hsuf

/-- `FindStringSubmatch` with a status pattern returns the nil slice when the
output has no status line for the label. -/
theorem CheckSmartStatus.find_no_status {label output : Str}
    (h : ∀ pre body, ¬ CheckSmartStatus.StatusAt label output pre body) :
    regexp.FindStringSubmatch
      ⟨.cat (regexp.Re.litFold label) CheckSmartStatus.statusTail, 1⟩ output = [] := by
  apply regexp.find_none
  intro pre t hout
  cases hnone : regexp.Regexp.matchHere
      ⟨.cat (regexp.Re.litFold label) CheckSmartStatus.statusTail, 1⟩ t with
  | none => rfl
  | some r =>
    obtain ⟨rest2, c2⟩ := r
    have hm2 := regexp.matchHere_sound hnone
    obtain ⟨lab2, ws2, body2, e2, hlab2, hws2, hne2, hbody2, _⟩ :=
      CheckSmartStatus.status_matches_inv hm2
    exact absurd ⟨lab2, ws2, rest2, by rw [hout, e2], hlab2, hws2, hne2, hbody2⟩ (h pre body2)

/-- **C5.** For every raw output, `parseOfflineTestStatus` tries the label
"offline data collection status" first and "self-test execution status"
second, each read case-insensitively and followed by a colon, optional white
space and a parenthesised text. Whenever the output has a status line for the
first label, the result is the trimmed parenthesised text of the first such
line, wherever the lines for the second label stand; when it has lines for the
second label only, the result is the trimmed text of the first of them; when
it has neither, the result is the empty string. -/
theorem C5_parseOfflineTestStatus_label_order (output : Str) :
    ((∃ pre body, CheckSmartStatus.StatusAt CheckSmartStatus.offlineLabel output pre body) →
        (∃ body, CheckSmartStatus.FirstStatus CheckSmartStatus.offlineLabel output body)
        ∧ ∀ body, CheckSmartStatus.FirstStatus CheckSmartStatus.offlineLabel output body →
            CheckSmartStatus.parseOfflineTestStatus output = strings.TrimSpace body)
      ∧ ((∀ pre body, ¬ CheckSmartStatus.StatusAt CheckSmartStatus.offlineLabel output pre body) →
          (∃ pre body, CheckSmartStatus.StatusAt CheckSmartStatus.selfTestLabel output pre body) →
          (∃ body, CheckSmartStatus.FirstStatus CheckSmartStatus.selfTestLabel output body)
          ∧ ∀ body, CheckSmartStatus.FirstStatus CheckSmartStatus.selfTestLabel output body →
              CheckSmartStatus.parseOfflineTestStatus output = strings.TrimSpace body)
      ∧ ((∀ pre body, ¬ CheckSmartStatus.StatusAt CheckSmartStatus.offlineLabel output pre body) →
          (∀ pre body, ¬ CheckSmartStatus.StatusAt CheckSmartStatus.selfTestLabel output pre body) →
          CheckSmartStatus.parseOfflineTestStatus output = []) := by
  refine ⟨?_, ?_, ?_⟩
  · intro hex
    refine ⟨CheckSmartStatus.FirstStatus_exists hex, ?_⟩
    intro body hfirst
    obtain ⟨m0, hm⟩ := CheckSmartStatus.find_first_status hfirst
    unfold CheckSmartStatus.parseOfflineTestStatus CheckSmartStatus.offlineRe
    simp only [hm]
    rfl
  · intro hno hex
    refine ⟨CheckSmartStatus.FirstStatus_exists hex, ?_⟩
    intro body hfirst
    obtain ⟨m0, hm⟩ := CheckSmartStatus.find_first_status hfirst
    have h0 := CheckSmartStatus.find_no_status hno
    unfold CheckSmartStatus.parseOfflineTestStatus CheckSmartStatus.offlineRe
      CheckSmartStatus.selfTestRe
    simp only [hm, h0]
    rfl
  · intro hno1 hno2
    have h1 := CheckSmartStatus.find_no_status hno1
    have h2 := CheckSmartStatus.find_no_status hno2
    unfold CheckSmartStatus.parseOfflineTestStatus CheckSmartStatus.offlineRe
      CheckSmartStatus.selfTestRe
    simp only [h1, h2]
    rfl

/-- Instance of C5: in an output whose "Self-test execution status" line
comes before its "Offline data collection status" line, the result is the
text of the latter, here "0x82". -/
theorem C5_parseOfflineTestStatus_witness :
    (∃ body, CheckSmartStatus.FirstStatus CheckSmartStatus.offlineLabel
        "Self-test execution status: (   0)\nOffline data collection status:  (0x82)\n".toList body
      ∧ CheckSmartStatus.parseOfflineTestStatus
          "Self-test execution status: (   0)\nOffline data collection status:  (0x82)\n".toList
        = strings.TrimSpace body)
      ∧ CheckSmartStatus.parseOfflineTestStatus
          "Self-test execution status: (   0)\nOffline data collection status:  (0x82)\n".toList
        = "0x82".toList := by
  have h := (C5_parseOfflineTestStatus_label_order
    "Self-test execution status: (   0)\nOffline data collection status:  (0x82)\n".toList).1
    ⟨"Self-test execution status: (   0)\n".toList, "0x82".toList,
      "Offline data collection status:".toList, "  ".toList, "\n".toList,
      by decide, by decide, by decide, by decide, by decide⟩
  obtain ⟨⟨body, hb⟩, hall⟩ := h
  exact ⟨⟨body, hb, hall body hb⟩, by decide⟩

/-! ### check-smart-tests: the line loop of `parseTestLog` -/

theorem CheckSmartTests.loop_marker (st : CheckSmartTests.ScanState) (line : Str)
    (h : CheckSmartTests.isMarker line = true) :
    CheckSmartTests.parseTestLog.loop st line = { st with inTestLog := true } := by
  unfold CheckSmartTests.isMarker at h
  unfold CheckSmartTests.parseTestLog.loop
  rw [if_pos h]

theorem CheckSmartTests.loop_before (st : CheckSmartTests.ScanState) (line : Str)
    (h : CheckSmartTests.isMarker line = false) (hst : st.inTestLog = false) :
    CheckSmartTests.parseTestLog.loop st line = st := by
  unfold CheckSmartTests.isMarker at h
  unfold CheckSmartTests.parseTestLog.loop
  rw [if_neg (by rw [h]; decide), if_pos hst]

/-- Inside the table, a line is handled through the row it is read as. -/
theorem CheckSmartTests.loop_inLog (st : CheckSmartTests.ScanState) (line : Str)
    (h : CheckSmartTests.isMarker line = false) (hst : st.inTestLog = true) :
    CheckSmartTests.parseTestLog.loop st line =
      match CheckSmartTests.parseRow line with
      | some r => CheckSmartTests.applyRow st r
      | none => st := by
  unfold CheckSmartTests.isMarker at h
  unfold CheckSmartTests.parseTestLog.loop CheckSmartTests.parseRow
  rw [if_neg (by rw [h]; decide), if_neg (by rw [hst]; decide)]
  simp only []
  by_cases hlen : (regexp.FindStringSubmatch CheckSmartTests.rowRe line).length > 3
  · rw [if_pos hlen, if_pos hlen]
    rfl
  · rw [if_neg hlen, if_neg hlen]

theorem CheckSmartTests.applyRow_inTestLog (st : CheckSmartTests.ScanState)
    (r : CheckSmartTests.Row) :
    (CheckSmartTests.applyRow st r).inTestLog = st.inTestLog := by
  unfold CheckSmartTests.applyRow
  simp only []
  split_ifs <;> rfl

theorem CheckSmartTests.foldl_applyRow_inTestLog (rows : List CheckSmartTests.Row) :
    ∀ st : CheckSmartTests.ScanState,
      (rows.foldl CheckSmartTests.applyRow st).inTestLog = st.inTestLog := by
  induction rows with
  | nil => intro st; rfl
  | cons r rows ih =>
    intro st
    rw [List.foldl_cons, ih, CheckSmartTests.applyRow_inTestLog]

/-- Once inside the table, the loop is the fold of `applyRow` over the
matched rows of the lines that are not marker lines. -/
theorem CheckSmartTests.foldl_loop_inLog (lines : List Str) :
    ∀ st : CheckSmartTests.ScanState, st.inTestLog = true →
      lines.foldl CheckSmartTests.parseTestLog.loop st =
        ((lines.filter (fun l => !CheckSmartTests.isMarker l)).filterMap
          CheckSmartTests.parseRow).foldl CheckSmartTests.applyRow st := by
  induction lines with
  | nil => intro st _; rfl
  | cons l lines ih =>
    intro st hst
    rw [List.foldl_cons]
    by_cases hm : CheckSmartTests.isMarker l = true
    · rw [CheckSmartTests.loop_marker st l hm]
      have hst' : ({ st with inTestLog := true } : CheckSmartTests.ScanState) = st := by
        cases st; simp only [CheckSmartTests.ScanState.mk.injEq, and_true]; exact hst.symm
      rw [hst', ih st hst, List.filter_cons_of_neg (by simp [hm])]
    · simp only [Bool.not_eq_true] at hm
      rw [CheckSmartTests.loop_inLog st l hm hst, List.filter_cons_of_pos (by simp [hm])]
      cases hrow : CheckSmartTests.parseRow l with
      | none =>
        simp only [List.filterMap_cons, hrow]
        exact ih st hst
      | some r =>
        simp only [List.filterMap_cons, hrow, List.foldl_cons]
        exact ih _ (by rw [CheckSmartTests.applyRow_inTestLog]; exact hst)

/-- The three results of the loop, started outside the table, are those of
the fold of `applyRow` over the rows of the table. -/
theorem CheckSmartTests.foldl_loop_before (lines : List Str) :
    ∀ st : CheckSmartTests.ScanState, st.inTestLog = false →
      (lines.foldl CheckSmartTests.parseTestLog.loop st).shortTestAge =
          (((CheckSmartTests.tableLines lines).filterMap CheckSmartTests.parseRow).foldl
            CheckSmartTests.applyRow st).shortTestAge
        ∧ (lines.foldl CheckSmartTests.parseTestLog.loop st).longTestAge =
          (((CheckSmartTests.tableLines lines).filterMap CheckSmartTests.parseRow).foldl
            CheckSmartTests.applyRow st).longTestAge
        ∧ (lines.foldl CheckSmartTests.parseTestLog.loop st).failures =
          (((CheckSmartTests.tableLines lines).filterMap CheckSmartTests.parseRow).foldl
            CheckSmartTests.applyRow st).failures := by
  induction lines with
  | nil => intro st _; exact ⟨rfl, rfl, rfl⟩
  | cons l lines ih =>
    intro st hst
    rw [List.foldl_cons]
    by_cases hm : CheckSmartTests.isMarker l = true
    · rw [CheckSmartTests.loop_marker st l hm,
        CheckSmartTests.foldl_loop_inLog lines _ rfl]
      have htl : CheckSmartTests.tableLines (l :: lines) =
          lines.filter (fun l => !CheckSmartTests.isMarker l) := by
        unfold CheckSmartTests.tableLines
        rw [List.dropWhile_cons_of_neg (by simp [hm])]
        rfl
      rw [htl]
      generalize (lines.filter (fun l => !CheckSmartTests.isMarker l)).filterMap
        CheckSmartTests.parseRow = rows
      clear ih htl
      induction rows generalizing st with
      | nil => exact ⟨rfl, rfl, rfl⟩
      | cons r rows ihr =>
        simp only [List.foldl_cons]
        have key : CheckSmartTests.applyRow { st with inTestLog := true } r =
            { CheckSmartTests.applyRow st r with inTestLog := true } := by
          unfold CheckSmartTests.applyRow
          simp only []
          split_ifs <;> rfl
        rw [key]
        exact ihr (CheckSmartTests.applyRow st r)
          (by rw [CheckSmartTests.applyRow_inTestLog]; exact hst)
    · simp only [Bool.not_eq_true] at hm
      rw [CheckSmartTests.loop_before st l hm hst]
      have htl : CheckSmartTests.tableLines (l :: lines) = CheckSmartTests.tableLines lines := by
        unfold CheckSmartTests.tableLines
        rw [List.dropWhile_cons_of_pos (by simp [hm])]
      rw [htl]
      exact ih st hst

theorem CheckSmartTests.foldl_applyRow_failures (rows : List CheckSmartTests.Row) :
    ∀ st : CheckSmartTests.ScanState,
      (rows.foldl CheckSmartTests.applyRow st).failures =
        st.failures ++ (rows.filter CheckSmartTests.Row.failed).map CheckSmartTests.Row.entry := by
  induction rows with
  | nil => intro st; simp
  | cons r rows ih =>
    intro st
    rw [List.foldl_cons, ih]
    by_cases hf : r.failed = true
    · rw [List.filter_cons_of_pos hf]
      simp only [CheckSmartTests.applyRow, hf, if_true, List.map_cons, List.append_assoc,
        List.singleton_append]
    · rw [List.filter_cons_of_neg hf]
      have : (CheckSmartTests.applyRow st r).failures = st.failures := by
        unfold CheckSmartTests.applyRow
        rw [if_neg hf]
        simp only []
        split_ifs <;> rfl
      rw [this]

/-- The failure list of the scan: one entry per failing row of the table, in
row order. -/
theorem CheckSmartTests.scan_failures (output : Str) :
    (CheckSmartTests.parseTestLog.scan output).failures =
      ((CheckSmartTests.logRows output).filter CheckSmartTests.Row.failed).map
        CheckSmartTests.Row.entry := by
  unfold CheckSmartTests.parseTestLog.scan CheckSmartTests.logRows
  rw [(CheckSmartTests.foldl_loop_before _ _ rfl).2.2, CheckSmartTests.foldl_applyRow_failures]
  rfl

/-! ### check-smart-tests: what a matched row holds -/

theorem regexp.Matches.alt_inv {a b : regexp.Re} {s s1 : Str} {c c1 : regexp.Caps}
    (h : regexp.Matches (.alt a b) s c s1 c1) :
    regexp.Matches a s c s1 c1 ∨ regexp.Matches b s c s1 c1 := by
  cases h with
  | altLeft _ h1 => exact Or.inl h1
  | altRight _ h1 => exact Or.inr h1

/-- A non-nil result of `FindStringSubmatch` is the submatches of a match at
some offset. -/
theorem regexp.find_cases (re : regexp.Regexp) : ∀ s : Str,
    regexp.FindStringSubmatch re s = [] ∨
      ∃ pre t rest c, s = pre ++ t ∧ re.matchHere t = some (rest, c)
        ∧ regexp.FindStringSubmatch re s = regexp.submatches re t rest c := by
  intro s
  induction s with
  | nil =>
    cases h : re.matchHere [] with
    | none => left; simp only [regexp.FindStringSubmatch, h]
    | some r => exact Or.inr ⟨[], [], r.1, r.2, rfl, h, regexp.find_of_matchHere h⟩
  | cons a s ih =>
    cases h : re.matchHere (a :: s) with
    | none =>
      rw [regexp.find_cons_of_none h]
      rcases ih with h0 | ⟨pre, t, rest, c, hs, hm, hf⟩
      · exact Or.inl h0
      · exact Or.inr ⟨a :: pre, t, rest, c, by rw [hs]; rfl, hm, hf⟩
    | some r => exact Or.inr ⟨[], a :: s, r.1, r.2, rfl, h, regexp.find_of_matchHere h⟩

theorem regexp.Matches.cap_kind_inv {i : Nat} {a b d s s1 : Str} {c c1 : regexp.Caps}
    (h : regexp.Matches
      (.cap i (.alt (regexp.Re.lit a) (.alt (regexp.Re.lit b) (regexp.Re.lit d)))) s c s1 c1) :
    ∃ w, (w = a ∨ w = b ∨ w = d) ∧ s = w ++ s1 ∧ c1 = c.set i w := by
  obtain ⟨c0, hk, rfl⟩ := h.cap_inv
  rcases hk.alt_inv with h1 | h2
  · obtain ⟨rfl, rfl⟩ := h1.lit_inv
    exact ⟨a, Or.inl rfl, rfl, by rw [strings.take_consumed]⟩
  · rcases h2.alt_inv with h3 | h4
    · obtain ⟨rfl, rfl⟩ := h3.lit_inv
      exact ⟨b, Or.inr (Or.inl rfl), rfl, by rw [strings.take_consumed]⟩
    · obtain ⟨rfl, rfl⟩ := h4.lit_inv
      exact ⟨d, Or.inr (Or.inr rfl), rfl, by rw [strings.take_consumed]⟩

theorem regexp.Matches.cap_plus_cls_inv {i : Nat} {p : Char → Bool} {s s1 : Str}
    {c c1 : regexp.Caps} (h : regexp.Matches (.cap i (regexp.Re.plus (.cls p))) s c s1 c1) :
    ∃ a ws, s = a :: (ws ++ s1) ∧ p a = true ∧ ws.all p = true ∧ c1 = c.set i (a :: ws) := by
  obtain ⟨c0, hk, rfl⟩ := h.cap_inv
  obtain ⟨a, ws, rfl, ha, hws, rfl⟩ := hk.plus_cls_inv
  refine ⟨a, ws, rfl, ha, hws, ?_⟩
  have := strings.take_consumed (a :: ws) s1
  simp only [List.cons_append] at this
  rw [this]

theorem regexp.Matches.cap_lazyStar_cls_inv {i : Nat} {p : Char → Bool} {s s1 : Str}
    {c c1 : regexp.Caps} (h : regexp.Matches (.cap i (.lazyStar (.cls p))) s c s1 c1) :
    ∃ ws, s = ws ++ s1 ∧ ws.all p = true ∧ c1 = c.set i ws := by
  obtain ⟨c0, hk, rfl⟩ := h.cap_inv
  obtain ⟨ws, rfl, hws, rfl⟩ := hk.lazyStar_cls_inv
  exact ⟨ws, rfl, hws, by rw [strings.take_consumed]⟩

/-- What the row pattern captures: group 1 is one of the three kind words
and group 3 is a non-empty string of digits. -/
theorem CheckSmartTests.rowRe_matches_inv {s s1 : Str} {c1 : regexp.Caps}
    (h : regexp.Matches CheckSmartTests.rowRe.prog s (fun _ => []) s1 c1) :
    (c1 1 = "Short".toList ∨ c1 1 = "Extended".toList ∨ c1 1 = "Long".toList)
      ∧ ∃ d ds, c1 3 = d :: ds ∧ regexp.isDigitClass d = true
          ∧ ds.all regexp.isDigitClass = true := by
  unfold CheckSmartTests.rowRe at h
  simp only [] at h
  obtain ⟨_, _, h1, h⟩ := regexp.Matches.cat_inv h
  obtain ⟨_, rfl, _, rfl⟩ := h1.cls_inv
  obtain ⟨_, _, h1, h⟩ := regexp.Matches.cat_inv h
  obtain ⟨_, _, rfl, _, _, rfl⟩ := h1.plus_cls_inv
  obtain ⟨_, _, h1, h⟩ := regexp.Matches.cat_inv h
  obtain ⟨_, _, rfl, _, _, rfl⟩ := h1.plus_cls_inv
  obtain ⟨_, _, h1, h⟩ := regexp.Matches.cat_inv h
  obtain ⟨_, _, rfl, _, _, rfl⟩ := h1.plus_cls_inv
  obtain ⟨_, _, h1, h⟩ := regexp.Matches.cat_inv h
  obtain ⟨w, hw, rfl, rfl⟩ := h1.cap_kind_inv
  obtain ⟨_, _, h1, h⟩ := regexp.Matches.cat_inv h
  obtain ⟨_, _, rfl, _, _, rfl⟩ := h1.plus_cls_inv
  obtain ⟨_, _, h1, h⟩ := regexp.Matches.cat_inv h
  obtain ⟨_, _, rfl, _, _, rfl⟩ := h1.plus_cls_inv
  obtain ⟨_, _, h1, h⟩ := regexp.Matches.cat_inv h
  obtain ⟨_, _, rfl, _, _, rfl⟩ := h1.plus_cls_inv
  obtain ⟨_, _, h1, h⟩ := regexp.Matches.cat_inv h
  obtain ⟨st, rfl, _, rfl⟩ := h1.cap_lazyStar_cls_inv
  obtain ⟨_, _, h1, h⟩ := regexp.Matches.cat_inv h
  obtain ⟨_, _, rfl, _, _, rfl⟩ := h1.plus_cls_inv
  obtain ⟨_, _, h1, h⟩ := regexp.Matches.cat_inv h
  obtain ⟨_, _, rfl, _, _, rfl⟩ := h1.plus_cls_inv
  obtain ⟨_, _, h1, h⟩ := regexp.Matches.cat_inv h
  obtain ⟨_, rfl, _, rfl⟩ := h1.cls_inv
  obtain ⟨_, _, h1, h⟩ := regexp.Matches.cat_inv h
  obtain ⟨_, _, rfl, _, _, rfl⟩ := h1.plus_cls_inv
  obtain ⟨d, ds, rfl, hd, hds, rfl⟩ := h.cap_plus_cls_inv
  exact ⟨hw, d, ds, rfl, hd, hds⟩

/-- The `Atoi` of a string that starts with a digit is not negative. -/
theorem strconv.Atoi_nonneg (d : Char) (ds : Str) (hd : regexp.isDigitClass d = true) :
    0 ≤ strconv.Atoi (d :: ds) := by
  have h1 : d ≠ '-' := by rintro rfl; exact absurd hd (by decide)
  have h2 : d ≠ '+' := by rintro rfl; exact absurd hd (by decide)
  unfold strconv.Atoi
  split
  · next h => cases h
  · next t h => simp only [List.cons.injEq] at h; exact absurd h.1 h1
  · next t h => simp only [List.cons.injEq] at h; exact absurd h.1 h2
  · split
    · exact le_min (Int.ofNat_nonneg _) (by decide)
    · exact le_refl _

/-- A matched row is of one of the three kinds, and its hours are not
negative. -/
theorem CheckSmartTests.parseRow_inv {line : Str} {r : CheckSmartTests.Row}
    (h : CheckSmartTests.parseRow line = some r) :
    (r.testType = "Short".toList ∨ r.testType = "Extended".toList ∨ r.testType = "Long".toList)
      ∧ 0 ≤ r.lifeHours := by
  unfold CheckSmartTests.parseRow at h
  simp only [] at h
  split_ifs at h with hlen
  rcases regexp.find_cases CheckSmartTests.rowRe line with h0 | ⟨pre, t, rest, c, _, hm, hf⟩
  · rw [h0] at hlen; simp at hlen
  · have hinv := CheckSmartTests.rowRe_matches_inv (regexp.matchHere_sound hm)
    obtain ⟨hkind, d, ds, hd3, hd, _⟩ := hinv
    have e1 : (regexp.FindStringSubmatch CheckSmartTests.rowRe line).getD 1 [] = c 1 := by
      rw [hf]; rfl
    have e3 : (regexp.FindStringSubmatch CheckSmartTests.rowRe line).getD 3 [] = c 3 := by
      rw [hf]; rfl
    simp only [Option.some.injEq] at h
    subst h
    simp only [e1, e3, hd3]
    exact ⟨hkind, strconv.Atoi_nonneg d ds hd⟩

/-! ### check-smart-tests: the conversion "to hours since test" -/

theorem time.wrap64_eq (x : Int) (h1 : -(2 ^ 63) ≤ x) (h2 : x < 2 ^ 63) : time.wrap64 x = x := by
  unfold time.wrap64
  omega

theorem time.toInt_mem (x : ℚ) (n : Int) (h1 : ((n - 1 : Int) : ℚ) ≤ x) (h2 : x ≤ (n : ℚ)) :
    time.toInt x = n ∨ time.toInt x = n - 1 := by
  unfold time.toInt
  split_ifs with h0
  · have hle : n - 1 ≤ ⌊x⌋ := Int.le_floor.2 h1
    have hfl : (⌊x⌋ : ℚ) ≤ (n : ℚ) := le_trans (Int.floor_le x) h2
    have : ⌊x⌋ ≤ n := by exact_mod_cast hfl
    omega
  · have hle : ⌈x⌉ ≤ n := Int.ceil_le.2 h2
    have hx : x < 0 := not_le.1 h0
    have hn : (n - 1 : Int) < 0 := by
      have : ((n - 1 : Int) : ℚ) < 0 := lt_of_le_of_lt h1 hx
      exact_mod_cast this
    have hce : (n - 1 : Int) ≤ ⌈x⌉ := by
      have : ((n - 1 : Int) : ℚ) ≤ (⌈x⌉ : ℚ) := le_trans h1 (Int.le_ceil x)
      exact_mod_cast this
    omega

/-- The duration handed to `Hours()`: the age in nanoseconds, less the time
that passed between the two readings of the clock. -/
theorem CheckSmartTests.hoursSince_duration (now fresh age : Int)
    (h0 : 0 ≤ age) (h1 : age ≤ 2562047) (hnow : now ≤ fresh) (hfresh : fresh - now < time.Hour) :
    time.Sub now (time.Add fresh (time.wrap64 (time.wrap64 (-age) * time.Hour))) =
      age * time.Hour - (fresh - now) := by
  unfold time.Hour at *
  rw [time.wrap64_eq (-age) (by omega) (by omega),
    time.wrap64_eq (-age * 3600000000000) (by omega) (by omega)]
  unfold time.Sub time.Add
  omega

theorem time.Hours_bounds (f64 : ℚ → ℚ) (hr : time.IsRounding f64) (d n : Int)
    (hn0 : 0 ≤ n) (hn1 : n ≤ 2562047) (h1 : (n - 1) * time.Hour < d) (h2 : d ≤ n * time.Hour) :
    ((n - 1 : Int) : ℚ) ≤ time.Hours f64 d ∧ time.Hours f64 d ≤ (n : ℚ) := by
  obtain ⟨hmono, hexact⟩ := hr
  have hH : (0 : ℚ) < 3600000000000 := by norm_num
  have e0 : f64 ((0 : Int) : ℚ) = ((0 : Int) : ℚ) := hexact 0 (by norm_num)
  have e1 : f64 ((1 : Int) : ℚ) = ((1 : Int) : ℚ) := hexact 1 (by norm_num)
  have em1 : f64 ((-1 : Int) : ℚ) = ((-1 : Int) : ℚ) := hexact (-1) (by norm_num)
  have en : f64 ((n : Int) : ℚ) = ((n : Int) : ℚ) := hexact n (by
    rw [abs_of_nonneg hn0]; exact le_trans hn1 (by norm_num))
  have en1 : f64 (((n - 1 : Int)) : ℚ) = ((n - 1 : Int) : ℚ) := hexact (n - 1) (by
    rw [abs_le]; constructor <;> [skip; skip]
    · have : (-(2 : Int) ^ 53) ≤ -1 := by norm_num
      omega
    · have : (2562047 : Int) ≤ 2 ^ 53 := by norm_num
      omega)
  simp only [Int.cast_zero, Int.cast_one, Int.cast_neg] at e0 e1 em1
  -- the quotient and the remainder of the truncating division
  have hdm := Int.tdiv_add_tmod d time.Hour
  unfold time.Hours
  unfold time.Hour at *
  by_cases hd : 0 ≤ d
  · -- a duration that is not negative
    have hq : Int.tdiv d 3600000000000 = d / 3600000000000 :=
      Int.tdiv_eq_ediv hd (by norm_num)
    have hm : Int.tmod d 3600000000000 = d % 3600000000000 :=
      Int.tmod_eq_emod hd (by norm_num)
    rw [hq, hm]
    by_cases hfull : d = n * 3600000000000
    · have q1 : d / 3600000000000 = n := by omega
      have m1 : d % 3600000000000 = 0 := by omega
      rw [q1, m1]
      simp only [Int.cast_zero, zero_div, e0, add_zero, en]
      constructor
      · exact_mod_cast (by omega : n - 1 ≤ n)
      · exact le_refl _
    · have q1 : d / 3600000000000 = n - 1 := by omega
      have m0 : 0 ≤ d % 3600000000000 := by omega
      have m1 : d % 3600000000000 < 3600000000000 := by omega
      rw [q1]
      have hfrac0 : (0 : ℚ) ≤ ((d % 3600000000000 : Int) : ℚ) / 3600000000000 :=
        div_nonneg (by exact_mod_cast m0) (le_of_lt hH)
      have hfrac1 : ((d % 3600000000000 : Int) : ℚ) / 3600000000000 ≤ 1 := by
        rw [div_le_one hH]
        exact_mod_cast (le_of_lt m1)
      have hr0 : (0 : ℚ) ≤ f64 (((d % 3600000000000 : Int) : ℚ) / 3600000000000) := by
        have := hmono hfrac0
        rwa [e0] at this
      have hr1 : f64 (((d % 3600000000000 : Int) : ℚ) / 3600000000000) ≤ 1 := by
        have := hmono hfrac1
        rwa [e1] at this
      constructor
      · have := hmono (show ((n - 1 : Int) : ℚ) ≤ ((n - 1 : Int) : ℚ)
            + f64 (((d % 3600000000000 : Int) : ℚ) / 3600000000000) by linarith)
        rwa [en1] at this
      · have := hmono (show ((n - 1 : Int) : ℚ)
            + f64 (((d % 3600000000000 : Int) : ℚ) / 3600000000000) ≤ ((n : Int) : ℚ) by
              push_cast; linarith)
        rwa [en] at this
  · -- a negative duration: only for `n = 0`, less than an hour below zero
    have hdneg : d < 0 := not_le.1 hd
    have hn : n = 0 := by omega
    subst hn
    have hq : Int.tdiv d 3600000000000 = 0 := by
      have h3 : Int.tdiv (-d) 3600000000000 = 0 :=
        Int.tdiv_eq_zero_of_lt (by omega) (by omega)
      have h4 := Int.neg_tdiv (-d) 3600000000000
      rw [neg_neg, h3] at h4
      simpa using h4
    have hm : Int.tmod d 3600000000000 = d := by
      rw [hq] at hdm
      omega
    rw [hq, hm]
    simp only [Int.cast_zero, zero_add]
    have hfrac0 : ((d : Int) : ℚ) / 3600000000000 ≤ 0 :=
      div_nonpos_of_nonpos_of_nonneg (by exact_mod_cast (le_of_lt hdneg)) (le_of_lt hH)
    have hfrac1 : (-1 : ℚ) ≤ ((d : Int) : ℚ) / 3600000000000 := by
      rw [le_div_iff₀ hH]
      have : (-3600000000000 : Int) ≤ d := by omega
      exact_mod_cast this
    have hr0 : f64 (((d : Int) : ℚ) / 3600000000000) ≤ 0 := by
      have := hmono hfrac0
      rwa [e0] at this
    have hr1 : (-1 : ℚ) ≤ f64 (((d : Int) : ℚ) / 3600000000000) := by
      have := hmono hfrac1
      rwa [em1] at this
    constructor
    · have := hmono hr1
      rw [em1] at this
      simpa using this
    · have := hmono hr0
      rwa [e0] at this

/-- The conversion gives back the age itself or one hour less: the age when
the two readings of the clock coincide, else an hour less unless the rounding
brings the quotient up to the next whole number. -/
theorem CheckSmartTests.hoursSince_eq (f64 : ℚ → ℚ) (hr : time.IsRounding f64)
    (now fresh age : Int) (h0 : 0 ≤ age) (h1 : age ≤ 2562047) (hnow : now ≤ fresh)
    (hfresh : fresh - now < time.Hour) :
    CheckSmartTests.parseTestLog.hoursSince f64 now fresh age = age
      ∨ CheckSmartTests.parseTestLog.hoursSince f64 now fresh age = age - 1 := by
  unfold CheckSmartTests.parseTestLog.hoursSince
  rw [CheckSmartTests.hoursSince_duration now fresh age h0 h1 hnow hfresh]
  have hb := time.Hours_bounds f64 hr (age * time.Hour - (fresh - now)) age h0 h1
    (by unfold time.Hour at *; omega) (by unfold time.Hour at *; omega)
  exact time.toInt_mem _ age hb.1 hb.2

/-! ### check-smart-tests: the two ages -/

theorem CheckSmartTests.foldr_min_base (l : List Int) (a b : Int) :
    l.foldr min (min a b) = min a (l.foldr min b) := by
  induction l with
  | nil => rfl
  | cons x l ih => simp only [List.foldr_cons, ih, min_left_comm]

theorem CheckSmartTests.applyRow_short (st : CheckSmartTests.ScanState)
    (r : CheckSmartTests.Row) :
    (CheckSmartTests.applyRow st r).shortTestAge =
      if (!r.failed && strings.HasPrefix r.testType "Short".toList) = true then
        min r.lifeHours st.shortTestAge
      else st.shortTestAge := by
  unfold CheckSmartTests.applyRow
  cases hf : r.failed <;> cases hs : strings.HasPrefix r.testType "Short".toList <;>
    simp only [Bool.not_true, Bool.not_false, Bool.false_and, Bool.true_and, Bool.false_eq_true,
      if_false, if_true, false_and, true_and] <;>
    split_ifs <;> (try dsimp only at *) <;>
    first | rfl | (rw [min_def]; split_ifs <;> omega)

theorem CheckSmartTests.applyRow_long (st : CheckSmartTests.ScanState)
    (r : CheckSmartTests.Row) :
    (CheckSmartTests.applyRow st r).longTestAge =
      if (!r.failed && (strings.HasPrefix r.testType "Extended".toList
          || strings.HasPrefix r.testType "Long".toList)) = true then
        min r.lifeHours st.longTestAge
      else st.longTestAge := by
  unfold CheckSmartTests.applyRow
  cases hf : r.failed <;>
    cases hs : (strings.HasPrefix r.testType "Extended".toList
          || strings.HasPrefix r.testType "Long".toList) <;>
    simp only [Bool.not_true, Bool.not_false, Bool.false_and, Bool.true_and, Bool.false_eq_true,
      if_false, if_true, false_and, true_and] <;>
    split_ifs <;> (try dsimp only at *) <;>
    first | rfl | (rw [min_def]; split_ifs <;> omega)

theorem CheckSmartTests.foldl_applyRow_short (rows : List CheckSmartTests.Row) :
    ∀ st : CheckSmartTests.ScanState,
      (rows.foldl CheckSmartTests.applyRow st).shortTestAge =
        ((rows.filter (fun r => !r.failed
            && strings.HasPrefix r.testType "Short".toList)).map
          (fun r => r.lifeHours)).foldr min st.shortTestAge := by
  induction rows with
  | nil => intro st; rfl
  | cons r rows ih =>
    intro st
    rw [List.foldl_cons, ih, CheckSmartTests.applyRow_short]
    by_cases hp : (!r.failed && strings.HasPrefix r.testType "Short".toList) = true
    · rw [if_pos hp]
      simp only [List.filter_cons, hp, if_true, List.map_cons, List.foldr_cons]
      rw [← CheckSmartTests.foldr_min_base]
    · rw [if_neg hp]
      simp only [List.filter_cons, hp, Bool.false_eq_true, if_false]

theorem CheckSmartTests.foldl_applyRow_long (rows : List CheckSmartTests.Row) :
    ∀ st : CheckSmartTests.ScanState,
      (rows.foldl CheckSmartTests.applyRow st).longTestAge =
        ((rows.filter (fun r => !r.failed
            && (strings.HasPrefix r.testType "Extended".toList
              || strings.HasPrefix r.testType "Long".toList))).map
          (fun r => r.lifeHours)).foldr min st.longTestAge := by
  induction rows with
  | nil => intro st; rfl
  | cons r rows ih =>
    intro st
    rw [List.foldl_cons, ih, CheckSmartTests.applyRow_long]
    by_cases hp : (!r.failed && (strings.HasPrefix r.testType "Extended".toList
        || strings.HasPrefix r.testType "Long".toList)) = true
    · rw [if_pos hp]
      simp only [List.filter_cons, hp, if_true, List.map_cons, List.foldr_cons]
      rw [← CheckSmartTests.foldr_min_base]
    · rw [if_neg hp]
      simp only [List.filter_cons, hp, Bool.false_eq_true, if_false]

theorem CheckSmartTests.mem_logRows {output : Str} {r : CheckSmartTests.Row}
    (h : r ∈ CheckSmartTests.logRows output) :
    (r.testType = "Short".toList ∨ r.testType = "Extended".toList ∨ r.testType = "Long".toList)
      ∧ 0 ≤ r.lifeHours := by
  unfold CheckSmartTests.logRows at h
  obtain ⟨line, _, hrow⟩ := List.mem_filterMap.1 h
  exact CheckSmartTests.parseRow_inv hrow

/-- The Short age after the line loop is the capped minimum over the rows of
kind Short that are not failures. -/
theorem CheckSmartTests.scan_short (output : Str) :
    (CheckSmartTests.parseTestLog.scan output).shortTestAge =
      CheckSmartTests.shortMinimum output := by
  unfold CheckSmartTests.parseTestLog.scan CheckSmartTests.shortMinimum
    CheckSmartTests.minHours
  rw [(CheckSmartTests.foldl_loop_before _ _ rfl).1, CheckSmartTests.foldl_applyRow_short]
  have hrows : CheckSmartTests.logRows output =
      (CheckSmartTests.tableLines (strings.Split output '\n')).filterMap
        CheckSmartTests.parseRow := rfl
  rw [← hrows]
  congr 2
  apply List.filter_congr
  intro r hr
  obtain ⟨hk, _⟩ := CheckSmartTests.mem_logRows hr
  unfold CheckSmartTests.Row.isShort
  rcases hk with h | h | h <;> rw [h] <;> rfl

/-- The Extended age after the line loop is the capped minimum over the rows
of kind Extended or Long that are not failures. -/
theorem CheckSmartTests.scan_long (output : Str) :
    (CheckSmartTests.parseTestLog.scan output).longTestAge =
      CheckSmartTests.extendedMinimum output := by
  unfold CheckSmartTests.parseTestLog.scan CheckSmartTests.extendedMinimum
    CheckSmartTests.minHours
  rw [(CheckSmartTests.foldl_loop_before _ _ rfl).2.1, CheckSmartTests.foldl_applyRow_long]
  have hrows : CheckSmartTests.logRows output =
      (CheckSmartTests.tableLines (strings.Split output '\n')).filterMap
        CheckSmartTests.parseRow := rfl
  rw [← hrows]
  congr 2
  apply List.filter_congr
  intro r hr
  obtain ⟨hk, _⟩ := CheckSmartTests.mem_logRows hr
  unfold CheckSmartTests.Row.isExtended
  rcases hk with h | h | h <;> rw [h] <;> rfl

theorem CheckSmartTests.minHours_bounds (rows : List CheckSmartTests.Row)
    (h : ∀ r ∈ rows, 0 ≤ r.lifeHours) :
    0 ≤ CheckSmartTests.minHours rows ∧ CheckSmartTests.minHours rows ≤ 999999 := by
  unfold CheckSmartTests.minHours
  induction rows with
  | nil => simp
  | cons r rows ih =>
    have h1 := ih (fun x hx => h x (List.mem_cons_of_mem r hx))
    have h2 := h r (List.mem_cons_self r rows)
    simp only [List.map_cons, List.foldr_cons]
    exact ⟨le_min h2 h1.1, le_trans (min_le_right _ _) h1.2⟩

theorem CheckSmartTests.shortMinimum_bounds (output : Str) :
    0 ≤ CheckSmartTests.shortMinimum output ∧ CheckSmartTests.shortMinimum output ≤ 999999 :=
  CheckSmartTests.minHours_bounds _
    (fun _ hr => (CheckSmartTests.mem_logRows (List.mem_of_mem_filter hr)).2)

theorem CheckSmartTests.extendedMinimum_bounds (output : Str) :
    0 ≤ CheckSmartTests.extendedMinimum output
      ∧ CheckSmartTests.extendedMinimum output ≤ 999999 :=
  CheckSmartTests.minHours_bounds _
    (fun _ hr => (CheckSmartTests.mem_logRows (List.mem_of_mem_filter hr)).2)

/-! ### check-smart-tests: the self-test table -/

/-- **C6 (the code departs from the claim).** On the output made of a line
with "Self-test Log" and the two rows of the specification, whose status is
"Completed without error", `parseTestLog` puts both rows on the failure list
and leaves both ages at the sentinel: the status text contains "error". -/
theorem C6_rows_without_error_are_read_as_failures (f64 : ℚ → ℚ) (clk : time.Clock) :
    CheckSmartTests.parseTestLog f64 clk
        ("Self-test Log\n"
          ++ "# 1  Short offline    Completed without error       00%     12345  -\n"
          ++ "# 2  Extended offline Completed without error       00%     12300  -").toList =
      ⟨999999, 999999,
        ["Short test at 12345 hours".toList, "Extended test at 12300 hours".toList]⟩ := by
  have hscan : CheckSmartTests.parseTestLog.scan
      ("Self-test Log\n"
        ++ "# 1  Short offline    Completed without error       00%     12345  -\n"
        ++ "# 2  Extended offline Completed without error       00%     12300  -").toList =
      ⟨true, 999999, 999999,
        ["Short test at 12345 hours".toList, "Extended test at 12300 hours".toList]⟩ := by
    decide!
  unfold CheckSmartTests.parseTestLog
  rw [hscan]
  rfl

/-- Counterexample to C7 as stated. The line below follows the marker line
and matches the row pattern with the status "Completed: read failure", which
holds "fail"; but it also contains "Self-test Log", so the loop takes it for a
marker line and the failure list stays empty. -/
theorem C7_counterexample :
    CheckSmartTests.parseRow
        "# 1  Short offline       Completed: read failure       90%       500         Self-test Log".toList
        = some ⟨"Short".toList, "Completed: read failure".toList, 500⟩
      ∧ hasFailureKeyword "Completed: read failure".toList = true
      ∧ (CheckSmartTests.parseTestLog (fun x => x) ⟨0, 0, 0⟩
          ("Self-test Log\n"
            ++ "# 1  Short offline       Completed: read failure       90%       500         Self-test Log").toList
          ).failures = [] := by
  refine ⟨by decide!, by decide, by decide!⟩

/-- **C7, amended.** For every raw output, each line after the first line
containing "Self-test Log" that does not itself contain "Self-test Log",
matches the row pattern and has a status text containing "fail" or "error"
case-insensitively adds exactly one entry "<kind> test at <hours> hours" to
the failure list of `parseTestLog`, in row order, and changes neither age; a
row whose status contains neither keyword adds nothing to the failure list;
a line that contains "Self-test Log" is never read as a row. -/
theorem C7_failing_rows_enter_the_failure_list (f64 : ℚ → ℚ) (clk : time.Clock)
    (output : Str) :
    (CheckSmartTests.parseTestLog f64 clk output).failures =
        ((CheckSmartTests.logRows output).filter
          (fun r => hasFailureKeyword r.status)).map
          (fun r => r.testType ++ " test at ".toList ++ fmt.decimal r.lifeHours
            ++ " hours".toList)
      ∧ (∀ (st : CheckSmartTests.ScanState) (line : Str) (r : CheckSmartTests.Row),
          st.inTestLog = true → CheckSmartTests.isMarker line = false →
          CheckSmartTests.parseRow line = some r → hasFailureKeyword r.status = true →
          CheckSmartTests.parseTestLog.loop st line =
            ⟨st.inTestLog, st.shortTestAge, st.longTestAge,
              st.failures ++ [r.testType ++ " test at ".toList ++ fmt.decimal r.lifeHours
                ++ " hours".toList]⟩)
      ∧ (∀ (st : CheckSmartTests.ScanState) (line : Str) (r : CheckSmartTests.Row),
          st.inTestLog = true → CheckSmartTests.isMarker line = false →
          CheckSmartTests.parseRow line = some r → hasFailureKeyword r.status = false →
          (CheckSmartTests.parseTestLog.loop st line).failures = st.failures)
      ∧ (∀ (st : CheckSmartTests.ScanState) (line : Str),
          CheckSmartTests.isMarker line = true →
          CheckSmartTests.parseTestLog.loop st line =
            ⟨true, st.shortTestAge, st.longTestAge, st.failures⟩) := by
  refine ⟨?_, ?_, ?_, ?_⟩
  · have h := CheckSmartTests.scan_failures output
    unfold CheckSmartTests.parseTestLog
    exact h
  · intro st line r hst hm hrow hf
    rw [CheckSmartTests.loop_inLog st line hm hst, hrow]
    simp only [CheckSmartTests.applyRow, CheckSmartTests.Row.failed, hf, if_true,
      CheckSmartTests.Row.entry]
  · intro st line r hst hm hrow hf
    rw [CheckSmartTests.loop_inLog st line hm hst, hrow]
    simp only [CheckSmartTests.applyRow, CheckSmartTests.Row.failed, hf, Bool.false_eq_true,
      if_false]
    split_ifs <;> rfl
  · intro st line hm
    exact CheckSmartTests.loop_marker st line hm

/-- Instance of the amended C7: inside the table, the row with status
"Completed: read failure" adds the entry "Short test at 500 hours" and leaves
both ages. -/
theorem C7_failing_rows_witness :
    CheckSmartTests.parseTestLog.loop ⟨true, 999999, 400, []⟩
        "# 1  Short offline       Completed: read failure       90%       500         1234".toList
      = ⟨true, 999999, 400, ["Short test at 500 hours".toList]⟩ :=
  (C7_failing_rows_enter_the_failure_list (fun x => x) ⟨0, 0, 0⟩ []).2.1
    ⟨true, 999999, 400, []⟩
    "# 1  Short offline       Completed: read failure       90%       500         1234".toList
    ⟨"Short".toList, "Completed: read failure".toList, 500⟩
    rfl (by decide) (by decide) (by decide)

/-- Counterexample to C8 as stated. The table has one row, of kind Short,
matched and not a failure, with 1000000 power-on hours; the minimum over such
rows is 1000000, yet the Short age `parseTestLog` returns is the sentinel
999999. -/
theorem C8_counterexample :
    CheckSmartTests.logRows
        "Self-test Log\n# 1  Short offline       Completed       00%   1000000         -".toList
        = [⟨"Short".toList, "Completed".toList, 1000000⟩]
      ∧ hasFailureKeyword "Completed".toList = false
      ∧ (CheckSmartTests.parseTestLog (fun x => x) ⟨0, 0, 0⟩
        "Self-test Log\n# 1  Short offline       Completed       00%   1000000         -".toList
        ).shortTestAge = 999999 := by
  refine ⟨by decide!, by decide, by decide!⟩

theorem CheckSmartTests.parseTestLog_short (f64 : ℚ → ℚ) (clk : time.Clock) (output : Str) :
    (CheckSmartTests.parseTestLog f64 clk output).shortTestAge =
      if CheckSmartTests.shortMinimum output ≠ 999999 then
        CheckSmartTests.parseTestLog.hoursSince f64 clk.now clk.nowShort
          (CheckSmartTests.shortMinimum output)
      else 999999 := by
  unfold CheckSmartTests.parseTestLog
  simp only [CheckSmartTests.scan_short]
  split_ifs with h
  · rfl
  · exact not_not.1 h

theorem CheckSmartTests.parseTestLog_long (f64 : ℚ → ℚ) (clk : time.Clock) (output : Str) :
    (CheckSmartTests.parseTestLog f64 clk output).longTestAge =
      if CheckSmartTests.extendedMinimum output ≠ 999999 then
        CheckSmartTests.parseTestLog.hoursSince f64 clk.now clk.nowLong
          (CheckSmartTests.extendedMinimum output)
      else 999999 := by
  unfold CheckSmartTests.parseTestLog
  simp only [CheckSmartTests.scan_long]
  split_ifs with h
  · rfl
  · exact not_not.1 h

/-- **C8, amended.** For every raw output, the Short age of `parseTestLog`
before the final conversion is the minimum power-on-hours value over the
matched rows of kind Short that are not failures, among the lines after the
first "Self-test Log" line that are not marker lines themselves, capped by the
sentinel 999999 (so it is the sentinel when there is no such row, and also
when every such row has 999999 hours or more); likewise the Extended age over
the rows of kind Extended or Long. The returned age is the sentinel when that
minimum is the sentinel, and otherwise the minimum or one hour less. Two
outputs with the same rows give the same result: lines before the marker and
lines that do not match the row pattern have no effect. -/
theorem C8_ages_are_minimum_capped_by_sentinel (f64 : ℚ → ℚ) (clk : time.Clock)
    (output : Str) (hr : time.IsRounding f64) (hclk : clk.Steady) :
    (CheckSmartTests.parseTestLog.scan output).shortTestAge =
        CheckSmartTests.minHours ((CheckSmartTests.logRows output).filter
          (fun r => !hasFailureKeyword r.status && decide (r.testType = "Short".toList)))
      ∧ (CheckSmartTests.parseTestLog.scan output).longTestAge =
        CheckSmartTests.minHours ((CheckSmartTests.logRows output).filter
          (fun r => !hasFailureKeyword r.status
            && decide (r.testType = "Extended".toList ∨ r.testType = "Long".toList)))
      ∧ ((CheckSmartTests.parseTestLog.scan output).shortTestAge = 999999 →
          (CheckSmartTests.parseTestLog f64 clk output).shortTestAge = 999999)
      ∧ ((CheckSmartTests.parseTestLog.scan output).shortTestAge ≠ 999999 →
          (CheckSmartTests.parseTestLog f64 clk output).shortTestAge =
              (CheckSmartTests.parseTestLog.scan output).shortTestAge
            ∨ (CheckSmartTests.parseTestLog f64 clk output).shortTestAge =
              (CheckSmartTests.parseTestLog.scan output).shortTestAge - 1)
      ∧ ((CheckSmartTests.parseTestLog.scan output).longTestAge = 999999 →
          (CheckSmartTests.parseTestLog f64 clk output).longTestAge = 999999)
      ∧ ((CheckSmartTests.parseTestLog.scan output).longTestAge ≠ 999999 →
          (CheckSmartTests.parseTestLog f64 clk output).longTestAge =
              (CheckSmartTests.parseTestLog.scan output).longTestAge
            ∨ (CheckSmartTests.parseTestLog f64 clk output).longTestAge =
              (CheckSmartTests.parseTestLog.scan output).longTestAge - 1)
      ∧ (∀ output2, CheckSmartTests.logRows output2 = CheckSmartTests.logRows output →
          CheckSmartTests.parseTestLog f64 clk output2 =
            CheckSmartTests.parseTestLog f64 clk output) := by
  obtain ⟨hs1, hs2, hl1, hl2⟩ := hclk
  have hsb := CheckSmartTests.shortMinimum_bounds output
  have hlb := CheckSmartTests.extendedMinimum_bounds output
  refine ⟨CheckSmartTests.scan_short output, CheckSmartTests.scan_long output, ?_, ?_, ?_, ?_, ?_⟩
  · intro h
    rw [CheckSmartTests.scan_short] at h
    rw [CheckSmartTests.parseTestLog_short, if_neg (not_not.2 h)]
  · intro h
    rw [CheckSmartTests.scan_short] at h ⊢
    rw [CheckSmartTests.parseTestLog_short, if_pos h]
    exact CheckSmartTests.hoursSince_eq f64 hr _ _ _ hsb.1 (by omega) hs1 hs2
  · intro h
    rw [CheckSmartTests.scan_long] at h
    rw [CheckSmartTests.parseTestLog_long, if_neg (not_not.2 h)]
  · intro h
    rw [CheckSmartTests.scan_long] at h ⊢
    rw [CheckSmartTests.parseTestLog_long, if_pos h]
    exact CheckSmartTests.hoursSince_eq f64 hr _ _ _ hlb.1 (by omega) hl1 hl2
  · intro output2 hrows
    have e1 : CheckSmartTests.shortMinimum output2 = CheckSmartTests.shortMinimum output := by
      unfold CheckSmartTests.shortMinimum; rw [hrows]
    have e2 : CheckSmartTests.extendedMinimum output2 =
        CheckSmartTests.extendedMinimum output := by
      unfold CheckSmartTests.extendedMinimum; rw [hrows]
    have e3 : (CheckSmartTests.parseTestLog f64 clk output2).failures =
        (CheckSmartTests.parseTestLog f64 clk output).failures := by
      show (CheckSmartTests.parseTestLog.scan output2).failures =
        (CheckSmartTests.parseTestLog.scan output).failures
      rw [CheckSmartTests.scan_failures, CheckSmartTests.scan_failures, hrows]
    have e4 := CheckSmartTests.parseTestLog_short f64 clk output2
    have e5 := CheckSmartTests.parseTestLog_long f64 clk output2
    rw [e1, ← CheckSmartTests.parseTestLog_short f64 clk output] at e4
    rw [e2, ← CheckSmartTests.parseTestLog_long f64 clk output] at e5
    cases hp2 : CheckSmartTests.parseTestLog f64 clk output2
    cases hp : CheckSmartTests.parseTestLog f64 clk output
    rw [hp2, hp] at e3 e4 e5
    simp only at e3 e4 e5
    rw [e3, e4, e5]

/-- Instance of the amended C8: with exact arithmetic and three coinciding
readings of the clock, on a table with a Short row at 12345 hours and a Long
row at 12300 hours, both with status "Completed", the returned Short age is
the age after the line loop or one less. -/
theorem C8_ages_witness :
    (CheckSmartTests.parseTestLog (fun x => x) ⟨0, 0, 0⟩
        ("Self-test Log\n# 1  Short offline       Completed       00%     12345         -\n"
          ++ "# 2  Long offline       Completed       00%     12300         -").toList
        ).shortTestAge =
          (CheckSmartTests.parseTestLog.scan
            ("Self-test Log\n# 1  Short offline       Completed       00%     12345         -\n"
              ++ "# 2  Long offline       Completed       00%     12300         -").toList
            ).shortTestAge
        ∨ (CheckSmartTests.parseTestLog (fun x => x) ⟨0, 0, 0⟩
          ("Self-test Log\n# 1  Short offline       Completed       00%     12345         -\n"
            ++ "# 2  Long offline       Completed       00%     12300         -").toList
          ).shortTestAge =
            (CheckSmartTests.parseTestLog.scan
              ("Self-test Log\n# 1  Short offline       Completed       00%     12345         -\n"
                ++ "# 2  Long offline       Completed       00%     12300         -").toList
              ).shortTestAge - 1 :=
  (C8_ages_are_minimum_capped_by_sentinel (fun x => x) ⟨0, 0, 0⟩
    ("Self-test Log\n# 1  Short offline       Completed       00%     12345         -\n"
      ++ "# 2  Long offline       Completed       00%     12300         -").toList
    ⟨fun _ _ h => h, fun _ _ => rfl⟩
    ⟨le_refl _, by decide, le_refl _, by decide⟩).2.2.2.1 (by decide!)

/-! ### check-smart-tests: staleness -/

theorem CheckSmartTests.loop_of_not_skipped (f64 : ℚ → ℚ) (plugin : CheckSmartTests.Config)
    (t : Tally) (device : Str) (r : CmdResult) (clk : time.Clock)
    (hskip : CheckSmartTests.skipped r = false) :
    CheckSmartTests.executeCheck.loop f64 plugin t device r clk =
      if (CheckSmartTests.parseTestLog f64 clk r.output).failures.length > 0 then
        ⟨t.failures ++ [device ++ ": Tests failed: ".toList
          ++ strings.Join (CheckSmartTests.parseTestLog f64 clk r.output).failures ", ".toList],
          t.warnings⟩
      else
        ⟨t.failures, t.warnings
          ++ (if plugin.ShortTestInterval > 0
                ∧ (CheckSmartTests.parseTestLog f64 clk r.output).shortTestAge
                  > plugin.ShortTestInterval then
              [CheckSmartTests.shortStaleWarning device
                (CheckSmartTests.parseTestLog f64 clk r.output).shortTestAge
                plugin.ShortTestInterval]
            else [])
          ++ (if plugin.LongTestInterval > 0
                ∧ (CheckSmartTests.parseTestLog f64 clk r.output).longTestAge
                  > plugin.LongTestInterval then
              [CheckSmartTests.longStaleWarning device
                (CheckSmartTests.parseTestLog f64 clk r.output).longTestAge
                plugin.LongTestInterval]
            else [])⟩ := by
  have hg : ¬ (r.err.isSome = true ∧ (strings.Contains r.output "Unsupported".toList
      || strings.Contains r.output "Unknown".toList) = true) := by
    intro h
    have : CheckSmartTests.skipped r = true := by
      unfold CheckSmartTests.skipped hasUnsupportedMarker
      rw [h.1, h.2]; rfl
    rw [hskip] at this
    exact absurd this (by decide)
  unfold CheckSmartTests.executeCheck.loop
  rw [if_neg hg]
  simp only []
  unfold CheckSmartTests.shortStaleWarning CheckSmartTests.longStaleWarning
  split_ifs <;> simp

theorem CheckSmartTests.loop_of_skipped (f64 : ℚ → ℚ) (plugin : CheckSmartTests.Config)
    (t : Tally) (device : Str) (r : CmdResult) (clk : time.Clock)
    (hskip : CheckSmartTests.skipped r = true) :
    CheckSmartTests.executeCheck.loop f64 plugin t device r clk = t := by
  unfold CheckSmartTests.skipped hasUnsupportedMarker at hskip
  simp only [Bool.and_eq_true] at hskip
  unfold CheckSmartTests.executeCheck.loop
  rw [if_pos hskip]

/-- **C9.** In check-smart-tests, for every device that reaches the parser
and whose parsed failure list is empty, no failure is recorded, and a
Short-test staleness warning is recorded exactly when `ShortTestInterval > 0`
and the Short age is greater than `ShortTestInterval` (so an interval of 0
never produces a warning, whatever the age); the same holds for the Extended
age and `LongTestInterval`. The run is CRITICAL exactly when some device that
reaches the parser has a non-empty self-test failure list, so staleness alone
never makes the run CRITICAL. -/
theorem C9_staleness_warns_and_never_fails (f64 : ℚ → ℚ) (plugin : CheckSmartTests.Config) :
    (∀ (t : Tally) (device : Str) (r : CmdResult) (clk : time.Clock),
      CheckSmartTests.skipped r = false →
      (CheckSmartTests.parseTestLog f64 clk r.output).failures = [] →
        (CheckSmartTests.executeCheck.loop f64 plugin t device r clk).failures = t.failures
        ∧ (CheckSmartTests.executeCheck.loop f64 plugin t device r clk).warnings =
          t.warnings
            ++ (if plugin.ShortTestInterval > 0
                  ∧ (CheckSmartTests.parseTestLog f64 clk r.output).shortTestAge
                    > plugin.ShortTestInterval then
                [CheckSmartTests.shortStaleWarning device
                  (CheckSmartTests.parseTestLog f64 clk r.output).shortTestAge
                  plugin.ShortTestInterval]
              else [])
            ++ (if plugin.LongTestInterval > 0
                  ∧ (CheckSmartTests.parseTestLog f64 clk r.output).longTestAge
                    > plugin.LongTestInterval then
                [CheckSmartTests.longStaleWarning device
                  (CheckSmartTests.parseTestLog f64 clk r.output).longTestAge
                  plugin.LongTestInterval]
              else [])
        ∧ (plugin.ShortTestInterval = 0 → plugin.LongTestInterval = 0 →
            CheckSmartTests.executeCheck.loop f64 plugin t device r clk = t))
      ∧ (∀ runs : List (Str × CmdResult × time.Clock),
          (CheckSmartTests.executeCheck f64 plugin runs).state = sensu.CheckStateCritical ↔
            ∃ dr ∈ runs, CheckSmartTests.skipped dr.2.1 = false
              ∧ (CheckSmartTests.parseTestLog f64 dr.2.2 dr.2.1.output).failures ≠ []) := by
  refine ⟨?_, ?_⟩
  · intro t device r clk hskip hfail
    rw [CheckSmartTests.loop_of_not_skipped f64 plugin t device r clk hskip]
    rw [if_neg (by rw [hfail]; decide)]
    refine ⟨rfl, rfl, ?_⟩
    intro h1 h2
    rw [h1, h2]
    simp
  · intro runs
    have h := (checkSmartTests_isMaxSeverity f64 plugin runs).2.1
    rw [h]
    constructor
    · rintro ⟨v, hv, hne⟩
      obtain ⟨dr, hdr, rfl⟩ := List.mem_map.1 hv
      refine ⟨dr, hdr, ?_⟩
      unfold CheckSmartTests.verdict at hne
      cases hskip : CheckSmartTests.skipped dr.2.1
      · refine ⟨rfl, ?_⟩
        rw [CheckSmartTests.loop_of_not_skipped f64 plugin _ _ _ _ hskip] at hne
        intro hnil
        rw [if_neg (by rw [hnil]; decide)] at hne
        exact hne rfl
      · rw [CheckSmartTests.loop_of_skipped f64 plugin _ _ _ _ hskip] at hne
        exact absurd rfl hne
    · rintro ⟨dr, hdr, hskip, hne⟩
      refine ⟨CheckSmartTests.verdict f64 plugin dr, List.mem_map.2 ⟨dr, hdr, rfl⟩, ?_⟩
      unfold CheckSmartTests.verdict
      rw [CheckSmartTests.loop_of_not_skipped f64 plugin _ _ _ _ hskip,
        if_pos (List.length_pos.2 hne)]
      simp [Tally.empty]

/-- Instance of C9: a device whose table has no row reaches the parser with
an empty failure list and both ages at the sentinel; with the Short interval
at 24 and the Extended interval at 0, only the Short warning is recorded. -/
theorem C9_staleness_witness :
    (CheckSmartTests.executeCheck.loop (fun x => x) ⟨24, 0⟩ Tally.empty "/dev/sda".toList
        ⟨"Self-test Log\n".toList, none⟩ ⟨0, 0, 0⟩).failures = []
      ∧ (CheckSmartTests.executeCheck.loop (fun x => x) ⟨24, 0⟩ Tally.empty "/dev/sda".toList
        ⟨"Self-test Log\n".toList, none⟩ ⟨0, 0, 0⟩).warnings =
          ["/dev/sda: Short test not run in 999999 hours (threshold: 24)".toList] :=
  ⟨((C9_staleness_warns_and_never_fails (fun x => x) ⟨24, 0⟩).1 Tally.empty "/dev/sda".toList
      ⟨"Self-test Log\n".toList, none⟩ ⟨0, 0, 0⟩ (by decide) (by decide)).1,
    ((C9_staleness_warns_and_never_fails (fun x => x) ⟨24, 0⟩).1 Tally.empty "/dev/sda".toList
      ⟨"Self-test Log\n".toList, none⟩ ⟨0, 0, 0⟩ (by decide) (by decide)).2.1.trans
      (by decide)⟩

/-! ### check-smart-tests: the conversion does not collapse -/

theorem CheckSmartTests.hoursSince_same_reading (f64 : ℚ → ℚ) (hr : time.IsRounding f64)
    (now age : Int) (h0 : 0 ≤ age) (h1 : age ≤ 2562047) :
    CheckSmartTests.parseTestLog.hoursSince f64 now now age = age := by
  obtain ⟨_, hexact⟩ := hr
  unfold CheckSmartTests.parseTestLog.hoursSince
  rw [CheckSmartTests.hoursSince_duration now now age h0 h1 (le_refl _)
    (by unfold time.Hour; omega)]
  have hd : age * time.Hour - (now - now) = age * time.Hour := by omega
  rw [hd]
  unfold time.Hours time.Hour
  have hq : Int.tdiv (age * 3600000000000) 3600000000000 = age := by
    rw [Int.tdiv_eq_ediv (by omega) (by norm_num)]
    omega
  have hm : Int.tmod (age * 3600000000000) 3600000000000 = 0 := by
    rw [Int.tmod_eq_emod (by omega) (by norm_num)]
    omega
  rw [hq, hm]
  have e0 : f64 ((0 : Int) : ℚ) = ((0 : Int) : ℚ) := hexact 0 (by norm_num)
  have en : f64 ((age : Int) : ℚ) = ((age : Int) : ℚ) := hexact age (by
    rw [abs_of_nonneg h0]; exact le_trans h1 (by norm_num))
  simp only [Int.cast_zero, zero_div] at e0 ⊢
  rw [e0, add_zero, en]
  unfold time.toInt
  rw [if_pos (by exact_mod_cast h0)]
  exact Int.floor_intCast age

/-- Counterexample to C10 as stated. For the parsed value 12345 and two
readings of the clock 100 ns apart, the conversion returns 12344 with exact
arithmetic, and at least 12344 with every rounding to `float64`: the age is
about 12345, not about 0. On an output whose table has one Short row at 12345
hours, `parseTestLog` returns the Short age 12344, which exceeds the default
interval of 24. -/
theorem C10_counterexample :
    CheckSmartTests.parseTestLog.hoursSince (fun x => x) 0 100 12345 = 12344
      ∧ (∀ f64 : ℚ → ℚ, time.IsRounding f64 →
          12344 ≤ CheckSmartTests.parseTestLog.hoursSince f64 0 100 12345)
      ∧ (CheckSmartTests.parseTestLog (fun x => x) ⟨0, 100, 100⟩
          "Self-test Log\n# 1  Short offline       Completed       00%     12345         -".toList
          ).shortTestAge = 12344 := by
  have hval : CheckSmartTests.parseTestLog.hoursSince (fun x => x) 0 100 12345 = 12344 := by
    unfold CheckSmartTests.parseTestLog.hoursSince
    have hd : time.Sub 0 (time.Add 100 (time.wrap64 (time.wrap64 (-12345) * time.Hour))) =
        44441999999999900 := by decide!
    rw [hd]
    unfold time.Hours time.Hour
    have hq : Int.tdiv 44441999999999900 3600000000000 = 12344 := by decide!
    have hm : Int.tmod 44441999999999900 3600000000000 = 3599999999900 := by decide!
    rw [hq, hm]
    unfold time.toInt
    rw [if_pos (by norm_num)]
    rw [Int.floor_eq_iff]
    constructor <;> norm_num
  refine ⟨hval, ?_, ?_⟩
  · intro f64 hr
    rcases CheckSmartTests.hoursSince_eq f64 hr 0 100 12345 (by decide) (by decide)
      (by decide) (by decide) with h | h
    · rw [h]; decide
    · rw [h]; decide
  · have hscan : CheckSmartTests.parseTestLog.scan
        "Self-test Log\n# 1  Short offline       Completed       00%     12345         -".toList
        = ⟨true, 12345, 999999, []⟩ := by decide!
    unfold CheckSmartTests.parseTestLog
    rw [hscan]
    simp only []
    rw [if_pos (by decide)]
    exact hval

/-- **C10, amended.** In `parseTestLog`, the final "hours since test"
conversion gives back the parsed power-on-hours value `h` itself or `h - 1`,
not a value near zero: for every `h` from 0 to 2562047 (every non-sentinel
minimum lies in this range), every rounding to `float64` that is monotone and
exact on integers, and two readings of the clock taken in order less than an
hour apart, the returned age is `h` or `h - 1`, and it is `h` when the two
readings coincide. So the comparison against a configured interval follows the
parsed value: it is triggered whenever `h - 1` exceeds the interval and never
when `h` does not exceed it. -/
theorem C10_conversion_returns_the_parsed_hours (f64 : ℚ → ℚ) (now fresh h : Int)
    (hr : time.IsRounding f64) (h0 : 0 ≤ h) (h1 : h ≤ 2562047) (hnow : now ≤ fresh)
    (hfresh : fresh - now < time.Hour) :
    (CheckSmartTests.parseTestLog.hoursSince f64 now fresh h = h
        ∨ CheckSmartTests.parseTestLog.hoursSince f64 now fresh h = h - 1)
      ∧ (fresh = now → CheckSmartTests.parseTestLog.hoursSince f64 now fresh h = h)
      ∧ (∀ interval : Int, h - 1 > interval →
          CheckSmartTests.parseTestLog.hoursSince f64 now fresh h > interval)
      ∧ (∀ interval : Int, h ≤ interval →
          ¬ CheckSmartTests.parseTestLog.hoursSince f64 now fresh h > interval) := by
  have key := CheckSmartTests.hoursSince_eq f64 hr now fresh h h0 h1 hnow hfresh
  refine ⟨key, ?_, ?_, ?_⟩
  · intro he
    rw [he]
    exact CheckSmartTests.hoursSince_same_reading f64 hr now h h0 h1
  · intro interval hi
    rcases key with k | k <;> rw [k] <;> omega
  · intro interval hi
    rcases key with k | k <;> rw [k] <;> omega

/-- Instance of the amended C10: with exact arithmetic, readings 100 ns
apart and the parsed value 12345, the returned age is 12345 or 12344 and
exceeds the interval 24. -/
theorem C10_conversion_witness :
    (CheckSmartTests.parseTestLog.hoursSince (fun x => x) 0 100 12345 = 12345
        ∨ CheckSmartTests.parseTestLog.hoursSince (fun x => x) 0 100 12345 = 12345 - 1)
      ∧ CheckSmartTests.parseTestLog.hoursSince (fun x => x) 0 100 12345 > 24 :=
  ⟨(C10_conversion_returns_the_parsed_hours (fun x => x) 0 100 12345
      ⟨fun _ _ h => h, fun _ _ => rfl⟩ (by decide) (by decide) (by decide) (by decide)).1,
    (C10_conversion_returns_the_parsed_hours (fun x => x) 0 100 12345
      ⟨fun _ _ h => h, fun _ _ => rfl⟩ (by decide) (by decide) (by decide) (by decide)).2.2.1
      24 (by decide)⟩

/-! ### A command error without an unsupported marker -/

theorem checkSmart_loop_of_plain_error (t : Tally) (device output e : Str)
    (h1 : strings.Contains output "Unsupported".toList = false)
    (h2 : strings.Contains output "Unknown".toList = false) :
    CheckSmart.executeCheck.loop t device ⟨output, some e⟩
      = ⟨t.failures ++ [device ++ ": ".toList ++ e], t.warnings⟩ := by
  unfold CheckSmart.executeCheck.loop
  simp only []
  rw [if_neg (by rw [h1, h2]; simp)]

theorem checkSmartStatus_loop_of_plain_error (t : Tally) (device output e : Str)
    (h1 : strings.Contains output "Unsupported".toList = false)
    (h2 : strings.Contains output "Unknown".toList = false) :
    CheckSmartStatus.executeCheck.loop t device ⟨output, some e⟩
      = CheckSmartStatus.executeCheck.loop t device ⟨output, none⟩ := by
  have g1 : ¬ ((some e).isSome = true ∧ (strings.Contains output "Unsupported".toList
      || strings.Contains output "Unknown".toList) = true) := by
    rw [h1, h2]; simp
  have g2 : ¬ ((none : Option Str).isSome = true ∧ (strings.Contains output "Unsupported".toList
      || strings.Contains output "Unknown".toList) = true) := by
    rw [h1, h2]; simp
  unfold CheckSmartStatus.executeCheck.loop
  simp only []
  rw [if_neg g1, if_neg g2]

theorem checkSmartTests_loop_of_plain_error (f64 : ℚ → ℚ) (plugin : CheckSmartTests.Config)
    (t : Tally) (device output e : Str) (clk : time.Clock)
    (h1 : strings.Contains output "Unsupported".toList = false)
    (h2 : strings.Contains output "Unknown".toList = false) :
    CheckSmartTests.executeCheck.loop f64 plugin t device ⟨output, some e⟩ clk
      = CheckSmartTests.executeCheck.loop f64 plugin t device ⟨output, none⟩ clk := by
  have g1 : ¬ ((some e).isSome = true ∧ (strings.Contains output "Unsupported".toList
      || strings.Contains output "Unknown".toList) = true) := by
    rw [h1, h2]; simp
  have g2 : ¬ ((none : Option Str).isSome = true ∧ (strings.Contains output "Unsupported".toList
      || strings.Contains output "Unknown".toList) = true) := by
    rw [h1, h2]; simp
  unfold CheckSmartTests.executeCheck.loop
  simp only []
  rw [if_neg g1, if_neg g2]

theorem checkSmartTests_empty_output (f64 : ℚ → ℚ) (clk : time.Clock) (e : Option Str) :
    CheckSmartTests.executeCheck f64 ⟨24, 336⟩ [("/dev/sda".toList, ⟨[], e⟩, clk)]
      = ⟨sensu.CheckStateWarning, none,
          ("WARNING - SMART test interval warnings: [/dev/sda: Short test not run in 999999 "
            ++ "hours (threshold: 24) /dev/sda: Extended test not run in 999999 hours "
            ++ "(threshold: 336)]\n").toList⟩ := by
  have hs : CheckSmartTests.skipped ⟨[], e⟩ = false := by
    unfold CheckSmartTests.skipped
    have : hasUnsupportedMarker [] = false := by decide
    simp only [this, Bool.and_false]
  have hscan : CheckSmartTests.parseTestLog.scan [] = ⟨false, 999999, 999999, []⟩ := by decide
  have hlog : CheckSmartTests.parseTestLog f64 clk [] = ⟨999999, 999999, []⟩ := by
    unfold CheckSmartTests.parseTestLog
    rw [hscan]
    simp only []
    rw [if_neg (by decide), if_neg (by decide)]
  unfold CheckSmartTests.executeCheck CheckSmartTests.executeCheck.tally
  simp only [List.foldl_cons, List.foldl_nil]
  rw [CheckSmartTests.loop_of_not_skipped f64 ⟨24, 336⟩ ⟨[], []⟩ "/dev/sda".toList ⟨[], e⟩ clk hs]
  simp only [hlog]
  decide!

/-- **C11 (the code departs from the claim).** A command error whose output
holds neither "Unsupported" nor "Unknown" is recorded as a failure entry
"<device>: <error>" by check-smart only. In check-smart-status and
check-smart-tests the loop goes on to parse the output exactly as if the
command had returned no error: for the device "/dev/sda" with the error "exit
status 4", check-smart-status returns OK on the output "Offline data collection
status: (completed without error)" and WARNING ("No offline test status found")
on an empty output, and check-smart-tests with the default intervals returns
WARNING on an empty output; no failure entry is recorded in any of them. -/
theorem C11_command_error_is_recorded_by_check_smart_only :
    (∀ (t : Tally) (device output e : Str),
        strings.Contains output "Unsupported".toList = false →
        strings.Contains output "Unknown".toList = false →
        CheckSmart.executeCheck.loop t device ⟨output, some e⟩
          = ⟨t.failures ++ [device ++ ": ".toList ++ e], t.warnings⟩)
      ∧ (∀ (t : Tally) (device output e : Str),
        strings.Contains output "Unsupported".toList = false →
        strings.Contains output "Unknown".toList = false →
        CheckSmartStatus.executeCheck.loop t device ⟨output, some e⟩
          = CheckSmartStatus.executeCheck.loop t device ⟨output, none⟩)
      ∧ (∀ (f64 : ℚ → ℚ) (plugin : CheckSmartTests.Config) (t : Tally) (device output e : Str)
          (clk : time.Clock),
        strings.Contains output "Unsupported".toList = false →
        strings.Contains output "Unknown".toList = false →
        CheckSmartTests.executeCheck.loop f64 plugin t device ⟨output, some e⟩ clk
          = CheckSmartTests.executeCheck.loop f64 plugin t device ⟨output, none⟩ clk)
      ∧ CheckSmartStatus.executeCheck [("/dev/sda".toList,
            ⟨"Offline data collection status: (completed without error)".toList,
              some "exit status 4".toList⟩)]
          = ⟨sensu.CheckStateOK, none,
              "OK - All SMART offline tests completed successfully\n".toList⟩
      ∧ CheckSmartStatus.executeCheck [("/dev/sda".toList, ⟨[], some "exit status 4".toList⟩)]
          = ⟨sensu.CheckStateWarning, none,
              "WARNING - SMART offline test warnings: [/dev/sda: No offline test status found]\n".toList⟩
      ∧ (∀ (f64 : ℚ → ℚ) (clk : time.Clock),
          CheckSmartTests.executeCheck f64 ⟨24, 336⟩
              [("/dev/sda".toList, ⟨[], some "exit status 4".toList⟩, clk)]
            = ⟨sensu.CheckStateWarning, none,
                ("WARNING - SMART test interval warnings: [/dev/sda: Short test not run in 999999 "
                  ++ "hours (threshold: 24) /dev/sda: Extended test not run in 999999 hours "
                  ++ "(threshold: 336)]\n").toList⟩) :=
  ⟨checkSmart_loop_of_plain_error, checkSmartStatus_loop_of_plain_error,
    checkSmartTests_loop_of_plain_error, by decide!, by decide!,
    fun f64 clk => checkSmartTests_empty_output f64 clk (some "exit status 4".toList)⟩

/-! ### check-smart: the printed message -/

theorem Tally.foldl_eq_flatMap {α : Type} (step : Tally → α → Tally)
    (happ : ∀ t x, step t x = t.append (step Tally.empty x)) (xs : List α) (t : Tally) :
    xs.foldl step t =
      ⟨t.failures ++ xs.flatMap (fun x => (step Tally.empty x).failures),
        t.warnings ++ xs.flatMap (fun x => (step Tally.empty x).warnings)⟩ := by
  induction xs generalizing t with
  | nil => simp
  | cons x xs ih =>
    simp only [List.foldl_cons]
    rw [ih, happ t x]
    simp [Tally.append, List.flatMap_cons]

theorem List.flatMap_eq_filter_map {α β : Type} (g : α → List β) (p : α → Bool) (f : α → β)
    (h : ∀ x, g x = if p x = true then [f x] else []) (xs : List α) :
    xs.flatMap g = (xs.filter p).map f := by
  induction xs with
  | nil => rfl
  | cons x xs ih =>
    rw [List.flatMap_cons, ih, h x, List.filter_cons]
    cases hp : p x <;> simp

theorem CheckSmart.verdict_cases (dr : Str × CmdResult) :
    (CheckSmart.verdict dr = ⟨[CheckSmart.failureEntry dr], []⟩
        ∧ Tally.severity (CheckSmart.verdict dr) = sensu.CheckStateCritical)
      ∨ (CheckSmart.verdict dr = ⟨[], [CheckSmart.warningEntry dr]⟩
        ∧ Tally.severity (CheckSmart.verdict dr) = sensu.CheckStateWarning)
      ∨ (CheckSmart.verdict dr = ⟨[], []⟩
        ∧ Tally.severity (CheckSmart.verdict dr) = sensu.CheckStateOK) := by
  obtain ⟨device, output, err⟩ := dr
  unfold CheckSmart.verdict CheckSmart.executeCheck.loop CheckSmart.failureEntry
    CheckSmart.warningEntry Tally.empty
  cases err with
  | some e =>
    simp only []
    split_ifs
    · right; left; exact ⟨by simp, by unfold Tally.severity; simp⟩
    · left; exact ⟨by simp, by unfold Tally.severity; simp⟩
  | none =>
    simp only []
    split_ifs
    · right; right; exact ⟨rfl, by decide⟩
    · left; exact ⟨by simp, by unfold Tally.severity; simp⟩
    · right; left; exact ⟨by simp, by unfold Tally.severity; simp⟩

theorem CheckSmart.verdict_failures (dr : Str × CmdResult) :
    (CheckSmart.verdict dr).failures =
      if decide (Tally.severity (CheckSmart.verdict dr) = sensu.CheckStateCritical) = true then
        [CheckSmart.failureEntry dr] else [] := by
  rcases CheckSmart.verdict_cases dr with ⟨h, hs⟩ | ⟨h, hs⟩ | ⟨h, hs⟩
  · rw [hs, h]; rfl
  · rw [hs, h]; rfl
  · rw [hs, h]; rfl

theorem CheckSmart.verdict_warnings (dr : Str × CmdResult) :
    (CheckSmart.verdict dr).warnings =
      if decide (Tally.severity (CheckSmart.verdict dr) = sensu.CheckStateWarning) = true then
        [CheckSmart.warningEntry dr] else [] := by
  rcases CheckSmart.verdict_cases dr with ⟨h, hs⟩ | ⟨h, hs⟩ | ⟨h, hs⟩
  · rw [hs, h]; rfl
  · rw [hs, h]; rfl
  · rw [hs, h]; rfl

theorem CheckSmart.tally_eq (runs : List (Str × CmdResult)) :
    CheckSmart.executeCheck.tally runs =
      ⟨(runs.filter (fun dr =>
          decide (Tally.severity (CheckSmart.verdict dr) = sensu.CheckStateCritical))).map
          CheckSmart.failureEntry,
        (runs.filter (fun dr =>
          decide (Tally.severity (CheckSmart.verdict dr) = sensu.CheckStateWarning))).map
          CheckSmart.warningEntry⟩ := by
  unfold CheckSmart.executeCheck.tally
  have h := Tally.foldl_eq_flatMap (fun t dr => CheckSmart.executeCheck.loop t dr.1 dr.2)
    (fun t x => checkSmart_loop_append t x.1 x.2) runs ⟨[], []⟩
  rw [h]
  simp only [List.nil_append]
  have hf := List.flatMap_eq_filter_map (fun x => (CheckSmart.verdict x).failures) _
    CheckSmart.failureEntry CheckSmart.verdict_failures runs
  have hw := List.flatMap_eq_filter_map (fun x => (CheckSmart.verdict x).warnings) _
    CheckSmart.warningEntry CheckSmart.verdict_warnings runs
  congr 1

/-- **C12.** In check-smart, for every device list with its diagnostic
results, the printed message names exactly the devices whose verdict equals the
run's severity, in the order of the list: when the run is CRITICAL the message
is "CRITICAL - SMART health failures: " followed by the list of the failure
entries of the failing devices, one for each, in list order, and nothing for a
device that passed or only warned; when the run is WARNING it is "WARNING -
SMART warnings: " followed by the warning entries of the warning devices in
list order; when the run is OK it is the fixed text "OK - All SMART health
checks passed". Each entry starts with the device and ": ", and is the whole
verdict of its device. For the two devices "/dev/sda" reporting PASSED and
"/dev/sdb" reporting FAILING_NOW, the run is CRITICAL and the message names
only "/dev/sdb". -/
theorem C12_message_names_the_devices_at_the_run_severity (runs : List (Str × CmdResult)) :
    ((CheckSmart.executeCheck runs).state = sensu.CheckStateCritical →
        (CheckSmart.executeCheck runs).stdout =
          "CRITICAL - SMART health failures: ".toList
            ++ fmt.sliceV ((runs.filter (fun dr =>
                decide (Tally.severity (CheckSmart.verdict dr) = sensu.CheckStateCritical))).map
                CheckSmart.failureEntry)
            ++ "\n".toList)
      ∧ ((CheckSmart.executeCheck runs).state = sensu.CheckStateWarning →
        (CheckSmart.executeCheck runs).stdout =
          "WARNING - SMART warnings: ".toList
            ++ fmt.sliceV ((runs.filter (fun dr =>
                decide (Tally.severity (CheckSmart.verdict dr) = sensu.CheckStateWarning))).map
                CheckSmart.warningEntry)
            ++ "\n".toList)
      ∧ ((CheckSmart.executeCheck runs).state = sensu.CheckStateOK →
        (CheckSmart.executeCheck runs).stdout = "OK - All SMART health checks passed\n".toList)
      ∧ (∀ dr : Str × CmdResult,
          (Tally.severity (CheckSmart.verdict dr) = sensu.CheckStateCritical →
            CheckSmart.verdict dr = ⟨[CheckSmart.failureEntry dr], []⟩)
          ∧ (Tally.severity (CheckSmart.verdict dr) = sensu.CheckStateWarning →
            CheckSmart.verdict dr = ⟨[], [CheckSmart.warningEntry dr]⟩)
          ∧ (dr.1 ++ ": ".toList) <+: CheckSmart.failureEntry dr
          ∧ (dr.1 ++ ": ".toList) <+: CheckSmart.warningEntry dr)
      ∧ CheckSmart.executeCheck
          [("/dev/sda".toList,
              ⟨"SMART overall-health self-assessment test result: PASSED\n".toList, none⟩),
            ("/dev/sdb".toList,
              ⟨"SMART overall-health self-assessment test result: FAILING_NOW\n".toList, none⟩)]
          = ⟨sensu.CheckStateCritical, none,
              "CRITICAL - SMART health failures: [/dev/sdb: SMART health check FAILED]\n".toList⟩ := by
  have ht := CheckSmart.tally_eq runs
  refine ⟨?_, ?_, ?_, ?_, by decide!⟩
  · intro hs
    unfold CheckSmart.executeCheck at hs ⊢
    simp only [] at hs ⊢
    split_ifs at hs ⊢ with h1 h2
    · rw [ht]
    · dsimp only at hs; exact absurd hs (by decide)
    · dsimp only at hs; exact absurd hs (by decide)
  · intro hs
    unfold CheckSmart.executeCheck at hs ⊢
    simp only [] at hs ⊢
    split_ifs at hs ⊢ with h1 h2
    · dsimp only at hs; exact absurd hs (by decide)
    · rw [ht]
    · dsimp only at hs; exact absurd hs (by decide)
  · intro hs
    unfold CheckSmart.executeCheck at hs ⊢
    simp only [] at hs ⊢
    split_ifs at hs ⊢ with h1 h2
    · dsimp only at hs; exact absurd hs (by decide)
    · dsimp only at hs; exact absurd hs (by decide)
    · rfl
  · intro dr
    refine ⟨?_, ?_, ?_, ?_⟩
    · intro hs
      rcases CheckSmart.verdict_cases dr with ⟨h, hs1⟩ | ⟨h, hs1⟩ | ⟨h, hs1⟩
      · exact h
      · rw [hs1] at hs; exact absurd hs (by decide)
      · rw [hs1] at hs; exact absurd hs (by decide)
    · intro hs
      rcases CheckSmart.verdict_cases dr with ⟨h, hs1⟩ | ⟨h, hs1⟩ | ⟨h, hs1⟩
      · rw [hs1] at hs; exact absurd hs (by decide)
      · exact h
      · rw [hs1] at hs; exact absurd hs (by decide)
    · unfold CheckSmart.failureEntry
      cases dr.2.err with
      | some e => exact ⟨e, by simp⟩
      | none => exact ⟨"SMART health check FAILED".toList, by simp⟩
    · unfold CheckSmart.warningEntry
      cases dr.2.err with
      | some e => exact ⟨"SMART not supported".toList, by simp⟩
      | none => exact ⟨"Unknown SMART status".toList, by simp⟩

/-! ### Order and repetition of the devices -/

theorem Tally.foldl_severity_congr {α : Type} (step : Tally → α → Tally)
    (happ : ∀ t x, step t x = t.append (step Tally.empty x)) (xs ys : List α)
    (h : ∀ x, x ∈ xs ↔ x ∈ ys) :
    (xs.foldl step Tally.empty).severity = (ys.foldl step Tally.empty).severity := by
  have hf : (xs.foldl step Tally.empty).failures ≠ [] ↔
      (ys.foldl step Tally.empty).failures ≠ [] := by
    rw [Tally.foldl_failures step happ, Tally.foldl_failures step happ]
    simp only [h]
  have hw : (xs.foldl step Tally.empty).warnings ≠ [] ↔
      (ys.foldl step Tally.empty).warnings ≠ [] := by
    rw [Tally.foldl_warnings step happ, Tally.foldl_warnings step happ]
    simp only [h]
  unfold Tally.severity
  by_cases a : (xs.foldl step Tally.empty).failures ≠ []
  · rw [if_pos a, if_pos (hf.mp a)]
  · rw [if_neg a, if_neg (mt hf.mpr a)]
    by_cases b : (xs.foldl step Tally.empty).warnings ≠ []
    · rw [if_pos b, if_pos (hw.mp b)]
    · rw [if_neg b, if_neg (mt hw.mpr b)]

theorem checkSmart_state_congr (runs runs' : List (Str × CmdResult))
    (h : ∀ x, x ∈ runs ↔ x ∈ runs') :
    (CheckSmart.executeCheck runs).state = (CheckSmart.executeCheck runs').state := by
  rw [checkSmart_state_eq, checkSmart_state_eq]
  exact Tally.foldl_severity_congr (fun t dr => CheckSmart.executeCheck.loop t dr.1 dr.2)
    (fun t x => checkSmart_loop_append t x.1 x.2) runs runs' h

theorem checkSmartStatus_state_congr (runs runs' : List (Str × CmdResult))
    (h : ∀ x, x ∈ runs ↔ x ∈ runs') :
    (CheckSmartStatus.executeCheck runs).state = (CheckSmartStatus.executeCheck runs').state := by
  rw [checkSmartStatus_state_eq, checkSmartStatus_state_eq]
  exact Tally.foldl_severity_congr (fun t dr => CheckSmartStatus.executeCheck.loop t dr.1 dr.2)
    (fun t x => checkSmartStatus_loop_append t x.1 x.2) runs runs' h

theorem checkSmartTests_state_congr (f64 : ℚ → ℚ) (plugin : CheckSmartTests.Config)
    (runs runs' : List (Str × CmdResult × time.Clock)) (h : ∀ x, x ∈ runs ↔ x ∈ runs') :
    (CheckSmartTests.executeCheck f64 plugin runs).state
      = (CheckSmartTests.executeCheck f64 plugin runs').state := by
  rw [checkSmartTests_state_eq, checkSmartTests_state_eq]
  exact Tally.foldl_severity_congr
    (fun t dr => CheckSmartTests.executeCheck.loop f64 plugin t dr.1 dr.2.1 dr.2.2)
    (fun t x => checkSmartTests_loop_append f64 plugin t x.1 x.2.1 x.2.2) runs runs' h

theorem List.mem_flatMap_twice {α : Type} (xs : List α) (x : α) :
    x ∈ xs.flatMap (fun y => [y, y]) ↔ x ∈ xs := by
  simp only [List.mem_flatMap, List.mem_cons, List.mem_singleton, or_self, List.not_mem_nil,
    or_false]
  constructor
  · rintro ⟨y, hy, rfl⟩; exact hy
  · intro hx; exact ⟨x, hx, rfl⟩

theorem List.mem_append_self_iff {α : Type} (xs : List α) (x : α) :
    x ∈ xs ++ xs ↔ x ∈ xs := by
  simp only [List.mem_append, or_self]

theorem CheckSmartTests.verdict_failures_iff (f64 : ℚ → ℚ) (plugin : CheckSmartTests.Config)
    (device : Str) (r : CmdResult) (clk : time.Clock) :
    (CheckSmartTests.executeCheck.loop f64 plugin Tally.empty device r clk).failures ≠ [] ↔
      CheckSmartTests.skipped r = false
        ∧ (CheckSmartTests.parseTestLog.scan r.output).failures ≠ [] := by
  cases hs : CheckSmartTests.skipped r with
  | true =>
    rw [CheckSmartTests.loop_of_skipped f64 plugin Tally.empty device r clk hs]
    simp [Tally.empty]
  | false =>
    rw [CheckSmartTests.loop_of_not_skipped f64 plugin Tally.empty device r clk hs]
    have hl : (CheckSmartTests.parseTestLog f64 clk r.output).failures
        = (CheckSmartTests.parseTestLog.scan r.output).failures := rfl
    rw [hl]
    by_cases hne : (CheckSmartTests.parseTestLog.scan r.output).failures = []
    · simp [hne, Tally.empty]
    · have hpos : (CheckSmartTests.parseTestLog.scan r.output).failures.length > 0 :=
        List.length_pos.mpr hne
      rw [if_pos hpos]
      simp [hne]

theorem checkSmartTests_critical_iff (f64 : ℚ → ℚ) (plugin : CheckSmartTests.Config)
    (runs : List (Str × CmdResult × time.Clock)) :
    (CheckSmartTests.executeCheck f64 plugin runs).state = sensu.CheckStateCritical ↔
      ∃ x ∈ runs, CheckSmartTests.skipped x.2.1 = false
        ∧ (CheckSmartTests.parseTestLog.scan x.2.1.output).failures ≠ [] := by
  rw [checkSmartTests_state_eq, Tally.severity_critical]
  unfold CheckSmartTests.executeCheck.tally
  have h := Tally.foldl_failures
    (fun t dr => CheckSmartTests.executeCheck.loop f64 plugin t dr.1 dr.2.1 dr.2.2)
    (fun t x => checkSmartTests_loop_append f64 plugin t x.1 x.2.1 x.2.2) runs Tally.empty
  have h' : (List.foldl
      (fun t dr => CheckSmartTests.executeCheck.loop f64 plugin t dr.1 dr.2.1 dr.2.2)
      ⟨[], []⟩ runs).failures ≠ [] ↔ _ := h
  rw [h']
  simp only [Tally.empty, ne_eq, not_true_eq_false, false_or]
  constructor
  · rintro ⟨x, hx, hf⟩
    exact ⟨x, hx, (CheckSmartTests.verdict_failures_iff f64 plugin x.1 x.2.1 x.2.2).mp hf⟩
  · rintro ⟨x, hx, hf⟩
    exact ⟨x, hx, (CheckSmartTests.verdict_failures_iff f64 plugin x.1 x.2.1 x.2.2).mpr hf⟩

theorem Tally.severity_eq_of_iff (a b : Tally) (hf : a.failures ≠ [] ↔ b.failures ≠ [])
    (hw : a.warnings ≠ [] ↔ b.warnings ≠ []) : a.severity = b.severity := by
  unfold Tally.severity
  by_cases ha : a.failures ≠ []
  · rw [if_pos ha, if_pos (hf.mp ha)]
  · rw [if_neg ha, if_neg (mt hf.mpr ha)]
    by_cases hb : a.warnings ≠ []
    · rw [if_pos hb, if_pos (hw.mp hb)]
    · rw [if_neg hb, if_neg (mt hw.mpr hb)]

theorem CheckSmartTests.short_age_gt_iff (f64 : ℚ → ℚ) (hr : time.IsRounding f64)
    (clk : time.Clock) (hclk : clk.Steady) (output : Str) (interval : Int)
    (hedge : CheckSmartTests.shortMinimum output ≠ interval + 1) :
    (CheckSmartTests.parseTestLog f64 clk output).shortTestAge > interval ↔
      CheckSmartTests.shortMinimum output > interval := by
  have hb := CheckSmartTests.shortMinimum_bounds output
  rw [CheckSmartTests.parseTestLog_short]
  by_cases hs : CheckSmartTests.shortMinimum output ≠ 999999
  · rw [if_pos hs]
    rcases CheckSmartTests.hoursSince_eq f64 hr clk.now clk.nowShort
      (CheckSmartTests.shortMinimum output) hb.1 (by omega) hclk.1 hclk.2.1 with h | h
    · rw [h]
    · rw [h]; omega
  · rw [if_neg hs]
    have := not_not.1 hs
    omega

theorem CheckSmartTests.long_age_gt_iff (f64 : ℚ → ℚ) (hr : time.IsRounding f64)
    (clk : time.Clock) (hclk : clk.Steady) (output : Str) (interval : Int)
    (hedge : CheckSmartTests.extendedMinimum output ≠ interval + 1) :
    (CheckSmartTests.parseTestLog f64 clk output).longTestAge > interval ↔
      CheckSmartTests.extendedMinimum output > interval := by
  have hb := CheckSmartTests.extendedMinimum_bounds output
  rw [CheckSmartTests.parseTestLog_long]
  by_cases hs : CheckSmartTests.extendedMinimum output ≠ 999999
  · rw [if_pos hs]
    rcases CheckSmartTests.hoursSince_eq f64 hr clk.now clk.nowLong
      (CheckSmartTests.extendedMinimum output) hb.1 (by omega) hclk.2.2.1 hclk.2.2.2 with h | h
    · rw [h]
    · rw [h]; omega
  · rw [if_neg hs]
    have := not_not.1 hs
    omega

theorem CheckSmartTests.verdict_warnings_iff (f64 : ℚ → ℚ) (hr : time.IsRounding f64)
    (plugin : CheckSmartTests.Config) (device : Str) (r : CmdResult) (clk : time.Clock)
    (hclk : clk.Steady) (hedge : CheckSmartTests.OffEdge plugin r.output) :
    (CheckSmartTests.executeCheck.loop f64 plugin Tally.empty device r clk).warnings ≠ [] ↔
      CheckSmartTests.staleByHours plugin r := by
  unfold CheckSmartTests.staleByHours
  cases hs : CheckSmartTests.skipped r with
  | true =>
    rw [CheckSmartTests.loop_of_skipped f64 plugin Tally.empty device r clk hs]
    simp [Tally.empty]
  | false =>
    rw [CheckSmartTests.loop_of_not_skipped f64 plugin Tally.empty device r clk hs]
    have hl : (CheckSmartTests.parseTestLog f64 clk r.output).failures
        = (CheckSmartTests.parseTestLog.scan r.output).failures := rfl
    rw [hl]
    have hA := CheckSmartTests.short_age_gt_iff f64 hr clk hclk r.output
      plugin.ShortTestInterval hedge.1
    have hB := CheckSmartTests.long_age_gt_iff f64 hr clk hclk r.output
      plugin.LongTestInterval hedge.2
    by_cases hne : (CheckSmartTests.parseTestLog.scan r.output).failures = []
    · have hnpos : ¬ (CheckSmartTests.parseTestLog.scan r.output).failures.length > 0 := by
        rw [hne]; simp
      rw [if_neg hnpos]
      by_cases h1 : plugin.ShortTestInterval > 0
          ∧ CheckSmartTests.shortMinimum r.output > plugin.ShortTestInterval
      · rw [if_pos ⟨h1.1, hA.mpr h1.2⟩]
        simp [hne, h1]
      · rw [if_neg (fun c => h1 ⟨c.1, hA.mp c.2⟩)]
        by_cases h2 : plugin.LongTestInterval > 0
            ∧ CheckSmartTests.extendedMinimum r.output > plugin.LongTestInterval
        · rw [if_pos ⟨h2.1, hB.mpr h2.2⟩]
          simp [hne, h2]
        · rw [if_neg (fun c => h2 ⟨c.1, hB.mp c.2⟩)]
          simp only [Tally.empty, List.append_nil, ne_eq, not_true_eq_false, false_iff]
          tauto
    · have hpos : (CheckSmartTests.parseTestLog.scan r.output).failures.length > 0 :=
        List.length_pos.mpr hne
      rw [if_pos hpos]
      simp [hne, Tally.empty]

theorem checkSmartTests_warnings_iff (f64 : ℚ → ℚ) (hr : time.IsRounding f64)
    (plugin : CheckSmartTests.Config) (runs : List (Str × CmdResult × time.Clock))
    (hruns : ∀ x ∈ runs, x.2.2.Steady ∧ CheckSmartTests.OffEdge plugin x.2.1.output) :
    (CheckSmartTests.executeCheck.tally f64 plugin runs).warnings ≠ [] ↔
      ∃ x ∈ runs, CheckSmartTests.staleByHours plugin x.2.1 := by
  unfold CheckSmartTests.executeCheck.tally
  have h := Tally.foldl_warnings
    (fun t dr => CheckSmartTests.executeCheck.loop f64 plugin t dr.1 dr.2.1 dr.2.2)
    (fun t x => checkSmartTests_loop_append f64 plugin t x.1 x.2.1 x.2.2) runs Tally.empty
  have h' : (List.foldl
      (fun t dr => CheckSmartTests.executeCheck.loop f64 plugin t dr.1 dr.2.1 dr.2.2)
      ⟨[], []⟩ runs).warnings ≠ [] ↔ _ := h
  rw [h']
  simp only [Tally.empty, ne_eq, not_true_eq_false, false_or]
  constructor
  · rintro ⟨x, hx, hf⟩
    exact ⟨x, hx, (CheckSmartTests.verdict_warnings_iff f64 hr plugin x.1 x.2.1 x.2.2
      (hruns x hx).1 (hruns x hx).2).mp hf⟩
  · rintro ⟨x, hx, hf⟩
    exact ⟨x, hx, (CheckSmartTests.verdict_warnings_iff f64 hr plugin x.1 x.2.1 x.2.2
      (hruns x hx).1 (hruns x hx).2).mpr hf⟩

theorem checkSmartTests_failures_iff (f64 : ℚ → ℚ) (plugin : CheckSmartTests.Config)
    (runs : List (Str × CmdResult × time.Clock)) :
    (CheckSmartTests.executeCheck.tally f64 plugin runs).failures ≠ [] ↔
      ∃ x ∈ runs, CheckSmartTests.skipped x.2.1 = false
        ∧ (CheckSmartTests.parseTestLog.scan x.2.1.output).failures ≠ [] := by
  rw [← Tally.severity_critical, ← checkSmartTests_state_eq]
  exact checkSmartTests_critical_iff f64 plugin runs

theorem List.exists_mem_of_same_results (p : CmdResult → Prop)
    (xs ys : List (Str × CmdResult × time.Clock))
    (h : ∀ y : Str × CmdResult,
      y ∈ xs.map (fun x => (x.1, x.2.1)) ↔ y ∈ ys.map (fun x => (x.1, x.2.1))) :
    (∃ x ∈ xs, p x.2.1) ↔ ∃ x ∈ ys, p x.2.1 := by
  constructor
  · rintro ⟨x, hx, hf⟩
    have hy := (h (x.1, x.2.1)).mp (List.mem_map.mpr ⟨x, hx, rfl⟩)
    obtain ⟨z, hz, hzx⟩ := List.mem_map.mp hy
    have h2 : z.2.1 = x.2.1 := congrArg Prod.snd hzx
    exact ⟨z, hz, by rw [h2]; exact hf⟩
  · rintro ⟨x, hx, hf⟩
    have hy := (h (x.1, x.2.1)).mpr (List.mem_map.mpr ⟨x, hx, rfl⟩)
    obtain ⟨z, hz, hzx⟩ := List.mem_map.mp hy
    have h2 : z.2.1 = x.2.1 := congrArg Prod.snd hzx
    exact ⟨z, hz, by rw [h2]; exact hf⟩

theorem checkSmartTests_state_of_same_results (f64 g64 : ℚ → ℚ) (hf : time.IsRounding f64)
    (hg : time.IsRounding g64) (plugin : CheckSmartTests.Config)
    (runs others : List (Str × CmdResult × time.Clock))
    (hruns : ∀ x ∈ runs, x.2.2.Steady ∧ CheckSmartTests.OffEdge plugin x.2.1.output)
    (hothers : ∀ x ∈ others, x.2.2.Steady ∧ CheckSmartTests.OffEdge plugin x.2.1.output)
    (h : ∀ y : Str × CmdResult,
      y ∈ others.map (fun x => (x.1, x.2.1)) ↔ y ∈ runs.map (fun x => (x.1, x.2.1))) :
    (CheckSmartTests.executeCheck g64 plugin others).state
      = (CheckSmartTests.executeCheck f64 plugin runs).state := by
  rw [checkSmartTests_state_eq, checkSmartTests_state_eq]
  apply Tally.severity_eq_of_iff
  · rw [checkSmartTests_failures_iff, checkSmartTests_failures_iff]
    exact List.exists_mem_of_same_results
      (fun r => CheckSmartTests.skipped r = false
        ∧ (CheckSmartTests.parseTestLog.scan r.output).failures ≠ []) others runs h
  · rw [checkSmartTests_warnings_iff g64 hg plugin others hothers,
      checkSmartTests_warnings_iff f64 hf plugin runs hruns]
    exact List.exists_mem_of_same_results (CheckSmartTests.staleByHours plugin) others runs h

theorem CheckSmartTests.hoursSince_exact_later (now fresh age : Int) (h0 : 1 ≤ age)
    (h1 : age ≤ 2562047) (hnow : now < fresh) (hfresh : fresh - now < time.Hour) :
    CheckSmartTests.parseTestLog.hoursSince (fun x => x) now fresh age = age - 1 := by
  unfold CheckSmartTests.parseTestLog.hoursSince
  rw [CheckSmartTests.hoursSince_duration now fresh age (by omega) h1 (le_of_lt hnow) hfresh]
  unfold time.Hour at hfresh
  unfold time.Hours time.Hour
  have hq : Int.tdiv (age * 3600000000000 - (fresh - now)) 3600000000000 = age - 1 := by
    rw [Int.tdiv_eq_ediv (by omega) (by norm_num)]
    omega
  have hm : Int.tmod (age * 3600000000000 - (fresh - now)) 3600000000000
      = 3600000000000 - (fresh - now) := by
    rw [Int.tmod_eq_emod (by omega) (by norm_num)]
    omega
  rw [hq, hm]
  have hlo : (0 : ℚ) ≤ ((3600000000000 - (fresh - now) : Int) : ℚ) / 3600000000000 :=
    div_nonneg (by exact_mod_cast (by omega : (0 : Int) ≤ 3600000000000 - (fresh - now)))
      (by norm_num)
  have hhi : ((3600000000000 - (fresh - now) : Int) : ℚ) / 3600000000000 < 1 := by
    rw [div_lt_one (by norm_num)]
    exact_mod_cast (by omega : 3600000000000 - (fresh - now) < (3600000000000 : Int))
  have hage : (0 : ℚ) ≤ ((age - 1 : Int) : ℚ) := by
    exact_mod_cast (by omega : (0 : Int) ≤ age - 1)
  unfold time.toInt
  rw [if_pos (by linarith)]
  rw [Int.floor_eq_iff]
  constructor <;> linarith

/-- **C13, counterexample.** In check-smart-tests the severity is not the same
for a device list and a permutation of it. The device "/dev/sda" has a Short
row at 25 hours and "/dev/sdb" one at 10 hours, each with an Extended row at
100 hours; the intervals are 24 and 336 and the arithmetic is exact. The device
evaluated first meets a clock whose readings coincide, the device evaluated
second a clock whose fresh readings are 100 ns after `now`. With "/dev/sda"
first its Short age is 25 and the run is WARNING; with "/dev/sdb" first the
Short age of "/dev/sda" is 24 and the run is OK. -/
theorem C13_counterexample :
    List.Perm
        [("/dev/sda".toList, (⟨("Self-test Log\n# 1 Short offline Completed 00% 25 -\n"
            ++ "# 2 Extended offline Completed 00% 100 -").toList, none⟩ : CmdResult)),
          ("/dev/sdb".toList, ⟨("Self-test Log\n# 1 Short offline Completed 00% 10 -\n"
            ++ "# 2 Extended offline Completed 00% 100 -").toList, none⟩)]
        [("/dev/sdb".toList, ⟨("Self-test Log\n# 1 Short offline Completed 00% 10 -\n"
            ++ "# 2 Extended offline Completed 00% 100 -").toList, none⟩),
          ("/dev/sda".toList, ⟨("Self-test Log\n# 1 Short offline Completed 00% 25 -\n"
            ++ "# 2 Extended offline Completed 00% 100 -").toList, none⟩)]
      ∧ time.IsRounding (fun x => x)
      ∧ time.Clock.Steady ⟨0, 0, 0⟩ ∧ time.Clock.Steady ⟨1000, 1100, 1100⟩
      ∧ (CheckSmartTests.executeCheck (fun x => x) ⟨24, 336⟩
          [("/dev/sda".toList, ⟨("Self-test Log\n# 1 Short offline Completed 00% 25 -\n"
              ++ "# 2 Extended offline Completed 00% 100 -").toList, none⟩, ⟨0, 0, 0⟩),
            ("/dev/sdb".toList, ⟨("Self-test Log\n# 1 Short offline Completed 00% 10 -\n"
              ++ "# 2 Extended offline Completed 00% 100 -").toList, none⟩,
              ⟨1000, 1100, 1100⟩)]).state = sensu.CheckStateWarning
      ∧ (CheckSmartTests.executeCheck (fun x => x) ⟨24, 336⟩
          [("/dev/sdb".toList, ⟨("Self-test Log\n# 1 Short offline Completed 00% 10 -\n"
              ++ "# 2 Extended offline Completed 00% 100 -").toList, none⟩, ⟨0, 0, 0⟩),
            ("/dev/sda".toList, ⟨("Self-test Log\n# 1 Short offline Completed 00% 25 -\n"
              ++ "# 2 Extended offline Completed 00% 100 -").toList, none⟩,
              ⟨1000, 1100, 1100⟩)]).state = sensu.CheckStateOK := by
  have hid : time.IsRounding (fun x => x) := ⟨fun _ _ h => h, fun _ _ => rfl⟩
  have hscanA : CheckSmartTests.parseTestLog.scan
      ("Self-test Log\n# 1 Short offline Completed 00% 25 -\n"
        ++ "# 2 Extended offline Completed 00% 100 -").toList = ⟨true, 25, 100, []⟩ := by decide!
  have hscanB : CheckSmartTests.parseTestLog.scan
      ("Self-test Log\n# 1 Short offline Completed 00% 10 -\n"
        ++ "# 2 Extended offline Completed 00% 100 -").toList = ⟨true, 10, 100, []⟩ := by decide!
  have same : ∀ age : Int, 0 ≤ age → age ≤ 2562047 →
      CheckSmartTests.parseTestLog.hoursSince (fun x => x) 0 0 age = age :=
    fun age h0 h1 => CheckSmartTests.hoursSince_same_reading (fun x => x) hid 0 age h0 h1
  have later : ∀ age : Int, 1 ≤ age → age ≤ 2562047 →
      CheckSmartTests.parseTestLog.hoursSince (fun x => x) 1000 1100 age = age - 1 :=
    fun age h0 h1 => CheckSmartTests.hoursSince_exact_later 1000 1100 age h0 h1
      (by decide) (by decide)
  have hA1 : CheckSmartTests.parseTestLog (fun x => x) ⟨0, 0, 0⟩
      ("Self-test Log\n# 1 Short offline Completed 00% 25 -\n"
        ++ "# 2 Extended offline Completed 00% 100 -").toList = ⟨25, 100, []⟩ := by
    unfold CheckSmartTests.parseTestLog
    rw [hscanA]
    simp only []
    rw [if_pos (by decide), if_pos (by decide), same 25 (by decide) (by decide),
      same 100 (by decide) (by decide)]
  have hA2 : CheckSmartTests.parseTestLog (fun x => x) ⟨1000, 1100, 1100⟩
      ("Self-test Log\n# 1 Short offline Completed 00% 25 -\n"
        ++ "# 2 Extended offline Completed 00% 100 -").toList = ⟨24, 99, []⟩ := by
    unfold CheckSmartTests.parseTestLog
    rw [hscanA]
    simp only []
    rw [if_pos (by decide), if_pos (by decide), later 25 (by decide) (by decide),
      later 100 (by decide) (by decide)]
    rfl
  have hB1 : CheckSmartTests.parseTestLog (fun x => x) ⟨0, 0, 0⟩
      ("Self-test Log\n# 1 Short offline Completed 00% 10 -\n"
        ++ "# 2 Extended offline Completed 00% 100 -").toList = ⟨10, 100, []⟩ := by
    unfold CheckSmartTests.parseTestLog
    rw [hscanB]
    simp only []
    rw [if_pos (by decide), if_pos (by decide), same 10 (by decide) (by decide),
      same 100 (by decide) (by decide)]
  have hB2 : CheckSmartTests.parseTestLog (fun x => x) ⟨1000, 1100, 1100⟩
      ("Self-test Log\n# 1 Short offline Completed 00% 10 -\n"
        ++ "# 2 Extended offline Completed 00% 100 -").toList = ⟨9, 99, []⟩ := by
    unfold CheckSmartTests.parseTestLog
    rw [hscanB]
    simp only []
    rw [if_pos (by decide), if_pos (by decide), later 10 (by decide) (by decide),
      later 100 (by decide) (by decide)]
    rfl
  refine ⟨List.Perm.swap _ _ _, hid, by unfold time.Clock.Steady time.Hour; decide,
    by unfold time.Clock.Steady time.Hour; decide, ?_, ?_⟩
  · rw [checkSmartTests_state_eq]
    unfold CheckSmartTests.executeCheck.tally
    simp only [List.foldl_cons, List.foldl_nil]
    rw [CheckSmartTests.loop_of_not_skipped _ _ _ _ _ _ (by decide!),
      CheckSmartTests.loop_of_not_skipped _ _ _ _ _ _ (by decide!)]
    simp only [hA1, hB2]
    decide!
  · rw [checkSmartTests_state_eq]
    unfold CheckSmartTests.executeCheck.tally
    simp only [List.foldl_cons, List.foldl_nil]
    rw [CheckSmartTests.loop_of_not_skipped _ _ _ _ _ _ (by decide!),
      CheckSmartTests.loop_of_not_skipped _ _ _ _ _ _ (by decide!)]
    simp only [hA2, hB1]
    decide!

/-- **C13, amended.** In check-smart and check-smart-status, for every device
list with the devices' diagnostic results and every permutation of it,
`executeCheck` returns the same severity for the permuted list as for the
original one; and a list in which every device is repeated (each device twice
in a row, or the whole list twice) returns the same severity as the list
without the repetition. In check-smart-tests the same holds when each device
keeps, with its diagnostic result, the readings of the clock of its evaluation.
For any readings it holds in this form: of two lists holding the same devices
with the same results, in any order and with any repetition, both are CRITICAL
or neither is; and they return the same severity when the readings of each
evaluation are taken in order less than an hour apart, the rounding to
`float64` is monotone and exact on integers, and no device's smallest Short
(Extended) hours value is exactly one more than the Short (Extended)
interval. -/
theorem C13_severity_ignores_order_and_repetition (f64 : ℚ → ℚ)
    (plugin : CheckSmartTests.Config) (runs runs' : List (Str × CmdResult))
    (truns truns' : List (Str × CmdResult × time.Clock))
    (hp : runs.Perm runs') (htp : truns.Perm truns') :
    ((CheckSmart.executeCheck runs').state = (CheckSmart.executeCheck runs).state
        ∧ (CheckSmartStatus.executeCheck runs').state = (CheckSmartStatus.executeCheck runs).state
        ∧ (CheckSmartTests.executeCheck f64 plugin truns').state
            = (CheckSmartTests.executeCheck f64 plugin truns).state)
      ∧ ((CheckSmart.executeCheck (runs.flatMap (fun dr => [dr, dr]))).state
            = (CheckSmart.executeCheck runs).state
        ∧ (CheckSmartStatus.executeCheck (runs.flatMap (fun dr => [dr, dr]))).state
            = (CheckSmartStatus.executeCheck runs).state
        ∧ (CheckSmartTests.executeCheck f64 plugin (truns.flatMap (fun dr => [dr, dr]))).state
            = (CheckSmartTests.executeCheck f64 plugin truns).state)
      ∧ ((CheckSmart.executeCheck (runs ++ runs)).state = (CheckSmart.executeCheck runs).state
        ∧ (CheckSmartStatus.executeCheck (runs ++ runs)).state
            = (CheckSmartStatus.executeCheck runs).state
        ∧ (CheckSmartTests.executeCheck f64 plugin (truns ++ truns)).state
            = (CheckSmartTests.executeCheck f64 plugin truns).state)
      ∧ (∀ (g64 : ℚ → ℚ) (others : List (Str × CmdResult × time.Clock)),
          (∀ y : Str × CmdResult,
            y ∈ others.map (fun x => (x.1, x.2.1)) ↔ y ∈ truns.map (fun x => (x.1, x.2.1))) →
          ((CheckSmartTests.executeCheck g64 plugin others).state = sensu.CheckStateCritical ↔
            (CheckSmartTests.executeCheck f64 plugin truns).state = sensu.CheckStateCritical))
      ∧ (∀ (g64 : ℚ → ℚ) (others : List (Str × CmdResult × time.Clock)),
          time.IsRounding f64 → time.IsRounding g64 →
          (∀ x ∈ truns, x.2.2.Steady ∧ CheckSmartTests.OffEdge plugin x.2.1.output) →
          (∀ x ∈ others, x.2.2.Steady) →
          (∀ y : Str × CmdResult,
            y ∈ others.map (fun x => (x.1, x.2.1)) ↔ y ∈ truns.map (fun x => (x.1, x.2.1))) →
          (CheckSmartTests.executeCheck g64 plugin others).state
            = (CheckSmartTests.executeCheck f64 plugin truns).state) := by
  refine ⟨⟨?_, ?_, ?_⟩, ⟨?_, ?_, ?_⟩, ⟨?_, ?_, ?_⟩, ?_, ?_⟩
  · exact checkSmart_state_congr runs' runs (fun x => (hp.mem_iff).symm)
  · exact checkSmartStatus_state_congr runs' runs (fun x => (hp.mem_iff).symm)
  · exact checkSmartTests_state_congr f64 plugin truns' truns (fun x => (htp.mem_iff).symm)
  · exact checkSmart_state_congr _ runs (List.mem_flatMap_twice runs)
  · exact checkSmartStatus_state_congr _ runs (List.mem_flatMap_twice runs)
  · exact checkSmartTests_state_congr f64 plugin _ truns (List.mem_flatMap_twice truns)
  · exact checkSmart_state_congr _ runs (List.mem_append_self_iff runs)
  · exact checkSmartStatus_state_congr _ runs (List.mem_append_self_iff runs)
  · exact checkSmartTests_state_congr f64 plugin _ truns (List.mem_append_self_iff truns)
  · intro g64 others hmem
    rw [checkSmartTests_critical_iff, checkSmartTests_critical_iff]
    exact List.exists_mem_of_same_results
      (fun r => CheckSmartTests.skipped r = false
        ∧ (CheckSmartTests.parseTestLog.scan r.output).failures ≠ []) others truns hmem
  · intro g64 others hf hg htruns hothers hmem
    refine checkSmartTests_state_of_same_results f64 g64 hf hg plugin truns others htruns
      (fun x hx => ⟨hothers x hx, ?_⟩) hmem
    have hy := (hmem (x.1, x.2.1)).mp (List.mem_map.mpr ⟨x, hx, rfl⟩)
    obtain ⟨z, hz, hzx⟩ := List.mem_map.mp hy
    have h2 : z.2.1 = x.2.1 := congrArg Prod.snd hzx
    rw [← h2]
    exact (htruns z hz).2

/-- Instance of the amended C13: the devices "/dev/sda" (PASSED) and
"/dev/sdb" (FAILING_NOW) in either order give the same severity in check-smart,
CRITICAL; and in check-smart-tests the devices "/dev/sda" (Short row at 30
hours) and "/dev/sdb" (Short row at 10 hours) give the same severity in either
order, whichever of the two clocks each evaluation meets. -/
theorem C13_severity_witness :
    ((CheckSmart.executeCheck
        [("/dev/sdb".toList, ⟨"FAILING_NOW".toList, none⟩),
          ("/dev/sda".toList, ⟨"PASSED".toList, none⟩)]).state
      = (CheckSmart.executeCheck
        [("/dev/sda".toList, ⟨"PASSED".toList, none⟩),
          ("/dev/sdb".toList, ⟨"FAILING_NOW".toList, none⟩)]).state
      ∧ (CheckSmart.executeCheck
        [("/dev/sda".toList, ⟨"PASSED".toList, none⟩),
          ("/dev/sdb".toList, ⟨"FAILING_NOW".toList, none⟩)]).state = sensu.CheckStateCritical)
      ∧ (CheckSmartTests.executeCheck (fun x => x) ⟨24, 336⟩
          [("/dev/sdb".toList, ⟨("Self-test Log\n# 1 Short offline Completed 00% 10 -\n"
              ++ "# 2 Extended offline Completed 00% 100 -").toList, none⟩, ⟨0, 0, 0⟩),
            ("/dev/sda".toList, ⟨("Self-test Log\n# 1 Short offline Completed 00% 30 -\n"
              ++ "# 2 Extended offline Completed 00% 100 -").toList, none⟩,
              ⟨1000, 1100, 1100⟩)]).state
        = (CheckSmartTests.executeCheck (fun x => x) ⟨24, 336⟩
          [("/dev/sda".toList, ⟨("Self-test Log\n# 1 Short offline Completed 00% 30 -\n"
              ++ "# 2 Extended offline Completed 00% 100 -").toList, none⟩, ⟨0, 0, 0⟩),
            ("/dev/sdb".toList, ⟨("Self-test Log\n# 1 Short offline Completed 00% 10 -\n"
              ++ "# 2 Extended offline Completed 00% 100 -").toList, none⟩,
              ⟨1000, 1100, 1100⟩)]).state :=
  ⟨⟨(C13_severity_ignores_order_and_repetition (fun x => x) ⟨24, 336⟩
      [("/dev/sda".toList, ⟨"PASSED".toList, none⟩),
        ("/dev/sdb".toList, ⟨"FAILING_NOW".toList, none⟩)]
      [("/dev/sdb".toList, ⟨"FAILING_NOW".toList, none⟩),
        ("/dev/sda".toList, ⟨"PASSED".toList, none⟩)]
      [] [] (List.Perm.swap _ _ _) (List.Perm.refl _)).1.1, by decide⟩,
    (C13_severity_ignores_order_and_repetition (fun x => x) ⟨24, 336⟩ [] []
      [("/dev/sda".toList, ⟨("Self-test Log\n# 1 Short offline Completed 00% 30 -\n"
          ++ "# 2 Extended offline Completed 00% 100 -").toList, none⟩, ⟨0, 0, 0⟩),
        ("/dev/sdb".toList, ⟨("Self-test Log\n# 1 Short offline Completed 00% 10 -\n"
          ++ "# 2 Extended offline Completed 00% 100 -").toList, none⟩,
          ⟨1000, 1100, 1100⟩)]
      [("/dev/sda".toList, ⟨("Self-test Log\n# 1 Short offline Completed 00% 30 -\n"
          ++ "# 2 Extended offline Completed 00% 100 -").toList, none⟩, ⟨0, 0, 0⟩),
        ("/dev/sdb".toList, ⟨("Self-test Log\n# 1 Short offline Completed 00% 10 -\n"
          ++ "# 2 Extended offline Completed 00% 100 -").toList, none⟩,
          ⟨1000, 1100, 1100⟩)]
      (List.Perm.refl _) (List.Perm.refl _)).2.2.2.2 (fun x => x)
      [("/dev/sdb".toList, ⟨("Self-test Log\n# 1 Short offline Completed 00% 10 -\n"
          ++ "# 2 Extended offline Completed 00% 100 -").toList, none⟩, ⟨0, 0, 0⟩),
        ("/dev/sda".toList, ⟨("Self-test Log\n# 1 Short offline Completed 00% 30 -\n"
          ++ "# 2 Extended offline Completed 00% 100 -").toList, none⟩,
          ⟨1000, 1100, 1100⟩)]
      ⟨fun _ _ h => h, fun _ _ => rfl⟩ ⟨fun _ _ h => h, fun _ _ => rfl⟩
      (by
        have e1 : CheckSmartTests.OffEdge ⟨24, 336⟩
            ("Self-test Log\n# 1 Short offline Completed 00% 30 -\n"
              ++ "# 2 Extended offline Completed 00% 100 -").toList := by
          unfold CheckSmartTests.OffEdge; decide!
        have e2 : CheckSmartTests.OffEdge ⟨24, 336⟩
            ("Self-test Log\n# 1 Short offline Completed 00% 10 -\n"
              ++ "# 2 Extended offline Completed 00% 100 -").toList := by
          unfold CheckSmartTests.OffEdge; decide!
        have s1 : time.Clock.Steady ⟨0, 0, 0⟩ := by
          unfold time.Clock.Steady time.Hour; decide
        have s2 : time.Clock.Steady ⟨1000, 1100, 1100⟩ := by
          unfold time.Clock.Steady time.Hour; decide
        intro x hx
        simp only [List.mem_cons, List.mem_singleton, List.not_mem_nil, or_false] at hx
        rcases hx with rfl | rfl
        · exact ⟨s1, e1⟩
        · exact ⟨s2, e2⟩)
      (by
        have s1 : time.Clock.Steady ⟨0, 0, 0⟩ := by
          unfold time.Clock.Steady time.Hour; decide
        have s2 : time.Clock.Steady ⟨1000, 1100, 1100⟩ := by
          unfold time.Clock.Steady time.Hour; decide
        intro x hx
        simp only [List.mem_cons, List.mem_singleton, List.not_mem_nil, or_false] at hx
        rcases hx with rfl | rfl
        · exact s1
        · exact s2)
      (by
        intro y
        simp only [List.map_cons, List.map_nil, List.mem_cons, List.mem_singleton,
          List.not_mem_nil, or_false]
        exact or_comm)⟩

/-! ### check-smart-tests: the reasons kept for one device -/

/-- **C14, counterexample.** The output below has a failing Short row (at 500
hours) and a completed Short row at 100 hours. With the intervals 24 and 336,
exact arithmetic and a clock that stands still, the Short age is 100 and the
Extended age is 999999, both above their positive interval; yet the device's
verdict holds the test-failure reason alone and no staleness reason. -/
theorem C14_counterexample :
    (CheckSmartTests.logRows
        ("Self-test Log\n"
          ++ "# 1  Short offline       Completed: read failure       90%       500         1234\n"
          ++ "# 2  Short offline       Completed       00%     100         -").toList).filter
        CheckSmartTests.Row.failed
        = [⟨"Short".toList, "Completed: read failure".toList, 500⟩]
      ∧ (CheckSmartTests.parseTestLog (fun x => x) ⟨0, 0, 0⟩
        ("Self-test Log\n"
          ++ "# 1  Short offline       Completed: read failure       90%       500         1234\n"
          ++ "# 2  Short offline       Completed       00%     100         -").toList)
        = ⟨100, 999999, ["Short test at 500 hours".toList]⟩
      ∧ ((24 : Int) > 0 ∧ (100 : Int) > 24 ∧ (336 : Int) > 0 ∧ (999999 : Int) > 336)
      ∧ CheckSmartTests.verdict (fun x => x) ⟨24, 336⟩
          ("/dev/sda".toList,
            ⟨("Self-test Log\n"
              ++ "# 1  Short offline       Completed: read failure       90%       500         1234\n"
              ++ "# 2  Short offline       Completed       00%     100         -").toList, none⟩,
            ⟨0, 0, 0⟩)
          = ⟨["/dev/sda: Tests failed: Short test at 500 hours".toList], []⟩ := by
  have hscan : CheckSmartTests.parseTestLog.scan
      ("Self-test Log\n"
        ++ "# 1  Short offline       Completed: read failure       90%       500         1234\n"
        ++ "# 2  Short offline       Completed       00%     100         -").toList
      = ⟨true, 100, 999999, ["Short test at 500 hours".toList]⟩ := by decide!
  have hage : CheckSmartTests.parseTestLog.hoursSince (fun x => x) 0 0 100 = 100 :=
    CheckSmartTests.hoursSince_same_reading (fun x => x) ⟨fun _ _ h => h, fun _ _ => rfl⟩
      0 100 (by decide) (by decide)
  have hlog : CheckSmartTests.parseTestLog (fun x => x) ⟨0, 0, 0⟩
      ("Self-test Log\n"
        ++ "# 1  Short offline       Completed: read failure       90%       500         1234\n"
        ++ "# 2  Short offline       Completed       00%     100         -").toList
      = ⟨100, 999999, ["Short test at 500 hours".toList]⟩ := by
    unfold CheckSmartTests.parseTestLog
    rw [hscan]
    simp only []
    rw [if_pos (by decide), if_neg (by decide), hage]
  refine ⟨by decide!, hlog, by decide, ?_⟩
  unfold CheckSmartTests.verdict
  rw [CheckSmartTests.loop_of_not_skipped _ _ _ _ _ _ (by decide!)]
  simp only [hlog]
  decide!

/-- **C14, amended.** In check-smart-tests, for every device that reaches the
parser: the parsed failure list holds one entry for every failing row of the
self-test log; when it is not empty, the device's verdict is exactly the one
failure entry "<device>: Tests failed: " followed by all those entries joined
by ", ", and no staleness reason is recorded, whatever the ages; when it is
empty, every staleness reason found is recorded, the Short one before the
Extended one. In both cases the device's severity is the maximum over the
recorded reasons: CRITICAL with a failing row, else WARNING with a staleness
reason, else OK. -/
theorem C14_failing_rows_take_the_place_of_staleness (f64 : ℚ → ℚ)
    (plugin : CheckSmartTests.Config) (device : Str) (r : CmdResult) (clk : time.Clock)
    (hskip : CheckSmartTests.skipped r = false) :
    (CheckSmartTests.parseTestLog f64 clk r.output).failures
        = ((CheckSmartTests.logRows r.output).filter CheckSmartTests.Row.failed).map
            CheckSmartTests.Row.entry
      ∧ ((CheckSmartTests.parseTestLog f64 clk r.output).failures ≠ [] →
        CheckSmartTests.verdict f64 plugin (device, r, clk)
            = ⟨[device ++ ": Tests failed: ".toList
                ++ strings.Join (((CheckSmartTests.logRows r.output).filter
                    CheckSmartTests.Row.failed).map CheckSmartTests.Row.entry) ", ".toList], []⟩
          ∧ Tally.severity (CheckSmartTests.verdict f64 plugin (device, r, clk))
            = sensu.CheckStateCritical)
      ∧ ((CheckSmartTests.parseTestLog f64 clk r.output).failures = [] →
        CheckSmartTests.verdict f64 plugin (device, r, clk)
            = ⟨[], (if plugin.ShortTestInterval > 0
                    ∧ (CheckSmartTests.parseTestLog f64 clk r.output).shortTestAge
                      > plugin.ShortTestInterval then
                  [CheckSmartTests.shortStaleWarning device
                    (CheckSmartTests.parseTestLog f64 clk r.output).shortTestAge
                    plugin.ShortTestInterval]
                else [])
              ++ (if plugin.LongTestInterval > 0
                    ∧ (CheckSmartTests.parseTestLog f64 clk r.output).longTestAge
                      > plugin.LongTestInterval then
                  [CheckSmartTests.longStaleWarning device
                    (CheckSmartTests.parseTestLog f64 clk r.output).longTestAge
                    plugin.LongTestInterval]
                else [])⟩
          ∧ Tally.severity (CheckSmartTests.verdict f64 plugin (device, r, clk))
            = if (plugin.ShortTestInterval > 0
                    ∧ (CheckSmartTests.parseTestLog f64 clk r.output).shortTestAge
                      > plugin.ShortTestInterval)
                ∨ (plugin.LongTestInterval > 0
                    ∧ (CheckSmartTests.parseTestLog f64 clk r.output).longTestAge
                      > plugin.LongTestInterval) then sensu.CheckStateWarning
              else sensu.CheckStateOK) := by
  have hfail : (CheckSmartTests.parseTestLog f64 clk r.output).failures
      = ((CheckSmartTests.logRows r.output).filter CheckSmartTests.Row.failed).map
          CheckSmartTests.Row.entry := CheckSmartTests.scan_failures r.output
  have hloop := CheckSmartTests.loop_of_not_skipped f64 plugin Tally.empty device r clk hskip
  refine ⟨hfail, ?_, ?_⟩
  · intro hne
    have hpos : (CheckSmartTests.parseTestLog f64 clk r.output).failures.length > 0 :=
      List.length_pos.mpr hne
    have hv : CheckSmartTests.verdict f64 plugin (device, r, clk)
        = ⟨[device ++ ": Tests failed: ".toList
            ++ strings.Join (((CheckSmartTests.logRows r.output).filter
                CheckSmartTests.Row.failed).map CheckSmartTests.Row.entry) ", ".toList], []⟩ := by
      unfold CheckSmartTests.verdict
      rw [hloop, if_pos hpos, hfail]
      simp [Tally.empty]
    refine ⟨hv, ?_⟩
    rw [hv, Tally.severity_critical]
    simp
  · intro he
    have hnpos : ¬ (CheckSmartTests.parseTestLog f64 clk r.output).failures.length > 0 := by
      rw [he]; simp
    have hv : CheckSmartTests.verdict f64 plugin (device, r, clk)
        = ⟨[], (if plugin.ShortTestInterval > 0
                    ∧ (CheckSmartTests.parseTestLog f64 clk r.output).shortTestAge
                      > plugin.ShortTestInterval then
                  [CheckSmartTests.shortStaleWarning device
                    (CheckSmartTests.parseTestLog f64 clk r.output).shortTestAge
                    plugin.ShortTestInterval]
                else [])
              ++ (if plugin.LongTestInterval > 0
                    ∧ (CheckSmartTests.parseTestLog f64 clk r.output).longTestAge
                      > plugin.LongTestInterval then
                  [CheckSmartTests.longStaleWarning device
                    (CheckSmartTests.parseTestLog f64 clk r.output).longTestAge
                    plugin.LongTestInterval]
                else [])⟩ := by
      unfold CheckSmartTests.verdict
      rw [hloop, if_neg hnpos]
      simp [Tally.empty]
    refine ⟨hv, ?_⟩
    rw [hv]
    unfold Tally.severity
    by_cases h1 : plugin.ShortTestInterval > 0
        ∧ (CheckSmartTests.parseTestLog f64 clk r.output).shortTestAge > plugin.ShortTestInterval
    · simp [h1]
    · by_cases h2 : plugin.LongTestInterval > 0
          ∧ (CheckSmartTests.parseTestLog f64 clk r.output).longTestAge > plugin.LongTestInterval
      · simp [h2]
      · simp [h1, h2]

/-- Instance of the amended C14: the device "/dev/sda" whose log has one
failing Short row at 500 hours gets the single failure entry and is
CRITICAL. -/
theorem C14_failing_rows_witness :
    CheckSmartTests.skipped
        ⟨("Self-test Log\n"
          ++ "# 1  Short offline       Completed: read failure       90%       500         1234").toList,
          none⟩ = false
      ∧ Tally.severity (CheckSmartTests.verdict (fun x => x) ⟨24, 336⟩
          ("/dev/sda".toList,
            ⟨("Self-test Log\n"
              ++ "# 1  Short offline       Completed: read failure       90%       500         1234").toList,
              none⟩, ⟨0, 0, 0⟩))
        = sensu.CheckStateCritical :=
  ⟨by decide!,
    ((C14_failing_rows_take_the_place_of_staleness (fun x => x) ⟨24, 336⟩ "/dev/sda".toList
      ⟨("Self-test Log\n"
        ++ "# 1  Short offline       Completed: read failure       90%       500         1234").toList,
        none⟩ ⟨0, 0, 0⟩ (by decide!)).2.1 (by decide!)).2⟩

/-! ### Device resolution -/

theorem checkSmartStatus_checkArgs_eq :
    CheckSmartStatus.checkArgs = CheckSmart.checkArgs := rfl

theorem checkSmartTests_checkArgs_eq :
    CheckSmartTests.checkArgs = CheckSmart.checkArgs := rfl

theorem checkSmart_checkArgs_of_explicit (host : Host) (configFile : Str) (devices : List Str)
    (h : devices ≠ []) :
    CheckSmart.checkArgs host configFile devices = ⟨devices, sensu.CheckStateOK, none⟩ := by
  have hl : ¬ devices.length = 0 := fun h0 => h (List.length_eq_zero.mp h0)
  unfold CheckSmart.checkArgs
  simp only [if_neg hl]

theorem CheckSmart.detectDevices_eq_filter (host : Host) :
    CheckSmart.detectDevices host = commonDevices.filter host.stat := by
  have key : ∀ (l acc : List Str),
      l.foldl (fun devices device =>
        if host.stat device = true then devices ++ [device] else devices) acc
        = acc ++ l.filter host.stat := by
    intro l
    induction l with
    | nil => intro acc; simp
    | cons x xs ih =>
      intro acc
      rw [List.foldl_cons, ih, List.filter_cons]
      by_cases hx : host.stat x = true
      · simp [hx]
      · simp [hx]
  unfold CheckSmart.detectDevices
  rw [key]
  rfl

theorem CheckSmart.mem_detectDevices (host : Host) (d : Str) :
    d ∈ CheckSmart.detectDevices host ↔ d ∈ commonDevices ∧ host.stat d = true := by
  rw [CheckSmart.detectDevices_eq_filter, List.mem_filter]

/-- **C15.** For every non-empty explicit device list, `checkArgs` (the same
in check-smart, check-smart-status and check-smart-tests) leaves
`plugin.Devices` exactly that list and returns OK with no error, for every
host: whether the configuration file exists, can be read or parsed, whatever
devices it names, and whichever of the conventional device paths exist. So the
configuration file and the detection have an effect only for an empty explicit
list, and their lists are never merged with a non-empty one. -/
theorem C15_explicit_devices_are_kept (host : Host) (configFile : Str) (devices : List Str)
    (h : devices ≠ []) :
    CheckSmart.checkArgs host configFile devices = ⟨devices, sensu.CheckStateOK, none⟩
      ∧ CheckSmartStatus.checkArgs host configFile devices = ⟨devices, sensu.CheckStateOK, none⟩
      ∧ CheckSmartTests.checkArgs host configFile devices = ⟨devices, sensu.CheckStateOK, none⟩
      ∧ (∀ (other : Host) (otherFile : Str),
          CheckSmart.checkArgs other otherFile devices
            = CheckSmart.checkArgs host configFile devices) := by
  refine ⟨checkSmart_checkArgs_of_explicit host configFile devices h, ?_, ?_, ?_⟩
  · rw [checkSmartStatus_checkArgs_eq]
    exact checkSmart_checkArgs_of_explicit host configFile devices h
  · rw [checkSmartTests_checkArgs_eq]
    exact checkSmart_checkArgs_of_explicit host configFile devices h
  · intro other otherFile
    rw [checkSmart_checkArgs_of_explicit host configFile devices h,
      checkSmart_checkArgs_of_explicit other otherFile devices h]

/-- Instance of C15: on a host where every path exists and the configuration
file names "/dev/sda", the explicit list "/dev/sdx", "/dev/sda" is kept as it
is. -/
theorem C15_explicit_devices_witness :
    CheckSmart.checkArgs
        ⟨fun _ => true, fun _ => some "\x7b\"devices\": [\"/dev/sda\"]\x7d".toList,
          fun _ => some ["/dev/sda".toList]⟩
        "/etc/sensu/smart-devices.json".toList ["/dev/sdx".toList, "/dev/sda".toList]
      = ⟨["/dev/sdx".toList, "/dev/sda".toList], sensu.CheckStateOK, none⟩ :=
  (C15_explicit_devices_are_kept
    ⟨fun _ => true, fun _ => some "\x7b\"devices\": [\"/dev/sda\"]\x7d".toList,
      fun _ => some ["/dev/sda".toList]⟩
    "/etc/sensu/smart-devices.json".toList ["/dev/sdx".toList, "/dev/sda".toList]
    (by decide)).1

theorem checkSmart_checkArgs_eq (host : Host) (configFile : Str) (devices : List Str) :
    CheckSmart.checkArgs host configFile devices =
      if CheckSmart.resolved host configFile devices = [] then
        ⟨[], sensu.CheckStateWarning, some "no devices specified or detected".toList⟩
      else ⟨CheckSmart.resolved host configFile devices, sensu.CheckStateOK, none⟩ := by
  have hfin : ∀ d2 : List Str,
      (if d2.length = 0 then
        (⟨d2, sensu.CheckStateWarning, some "no devices specified or detected".toList⟩ :
          Resolution)
      else ⟨d2, sensu.CheckStateOK, none⟩)
      = if d2 = [] then
          ⟨[], sensu.CheckStateWarning, some "no devices specified or detected".toList⟩
        else ⟨d2, sensu.CheckStateOK, none⟩ := by
    intro d2
    cases d2 with
    | nil => rfl
    | cons a l => rfl
  have hdet : ∀ d1 : List Str,
      (if d1.length = 0 then CheckSmart.detectDevices host else d1)
        = if d1 ≠ [] then d1 else commonDevices.filter host.stat := by
    intro d1
    cases d1 with
    | nil => exact CheckSmart.detectDevices_eq_filter host
    | cons a l => rfl
  unfold CheckSmart.checkArgs
  simp only []
  rw [hfin, hdet]
  cases devices with
  | cons a l => rfl
  | nil =>
    unfold CheckSmart.resolved CheckSmart.configDevices
    simp only [List.length_nil, if_true, ne_eq, not_true_eq_false, if_false]

/-- **C16.** `checkArgs` of check-smart (and its two copies) returns OK with
no error exactly when the resolved device list is not empty, and then leaves
that list in `plugin.Devices`; the resolved list is the explicit list when it
is not empty, else the devices of the configuration file when there are any,
else the conventional paths that exist. When the explicit list is empty, the
configuration file is absent, unreadable, unparsable or yields no device, and
none of the conventional paths exists, it returns the WARNING state, not
CRITICAL, with the error "no devices specified or detected"; and with an empty
explicit list that is the only case in which it does. -/
theorem C16_checkArgs_ok_iff_devices_resolved (host : Host) (configFile : Str)
    (devices : List Str) :
    (((CheckSmart.checkArgs host configFile devices).state = sensu.CheckStateOK
          ∧ (CheckSmart.checkArgs host configFile devices).err = none)
        ↔ CheckSmart.resolved host configFile devices ≠ [])
      ∧ (CheckSmart.checkArgs host configFile devices).devices
          = CheckSmart.resolved host configFile devices
      ∧ (CheckSmart.resolved host configFile devices = [] →
          (CheckSmart.checkArgs host configFile devices).state = sensu.CheckStateWarning
            ∧ (CheckSmart.checkArgs host configFile devices).state ≠ sensu.CheckStateCritical
            ∧ (CheckSmart.checkArgs host configFile devices).err
              = some "no devices specified or detected".toList)
      ∧ (CheckSmart.checkArgs host configFile []
            = ⟨[], sensu.CheckStateWarning, some "no devices specified or detected".toList⟩ ↔
          (host.stat configFile = false ∨ host.readFile configFile = none
              ∨ ∃ data, host.readFile configFile = some data
                ∧ (host.unmarshalDevices data = none ∨ host.unmarshalDevices data = some []))
            ∧ ∀ d ∈ commonDevices, host.stat d = false)
      ∧ CheckSmartStatus.checkArgs host configFile devices
          = CheckSmart.checkArgs host configFile devices
      ∧ CheckSmartTests.checkArgs host configFile devices
          = CheckSmart.checkArgs host configFile devices
      ∧ CheckSmart.checkArgs ⟨fun _ => false, fun _ => none, fun _ => none⟩
            "/etc/sensu/smart-devices.json".toList []
          = ⟨[], sensu.CheckStateWarning, some "no devices specified or detected".toList⟩ := by
  have heq := checkSmart_checkArgs_eq host configFile devices
  refine ⟨?_, ?_, ?_, ?_, ?_, ?_, by decide⟩
  · rw [heq]
    by_cases hr : CheckSmart.resolved host configFile devices = []
    · rw [if_pos hr]
      simp only [hr, ne_eq, not_true_eq_false, iff_false, not_and]
      intro h
      exact absurd h (by decide)
    · rw [if_neg hr]
      simp [hr]
  · rw [heq]
    by_cases hr : CheckSmart.resolved host configFile devices = []
    · rw [if_pos hr, hr]
    · rw [if_neg hr]
  · intro hr
    rw [heq, if_pos hr]
    exact ⟨rfl, by decide, rfl⟩
  · rw [checkSmart_checkArgs_eq host configFile []]
    have hres : CheckSmart.resolved host configFile [] = [] ↔
        (host.stat configFile = false ∨ host.readFile configFile = none
            ∨ ∃ data, host.readFile configFile = some data
              ∧ (host.unmarshalDevices data = none ∨ host.unmarshalDevices data = some []))
          ∧ ∀ d ∈ commonDevices, host.stat d = false := by
      have hfl : commonDevices.filter host.stat = [] ↔
          ∀ d ∈ commonDevices, host.stat d = false := by
        rw [List.filter_eq_nil_iff]
        simp
      rw [← hfl]
      unfold CheckSmart.resolved CheckSmart.configDevices
      simp only [ne_eq, not_true_eq_false, if_false]
      cases host.stat configFile with
      | false => simp
      | true =>
        simp only [if_true]
        cases host.readFile configFile with
        | none => simp
        | some data =>
          simp only []
          cases hum : host.unmarshalDevices data with
          | none => simp [hum]
          | some cfg =>
            cases cfg with
            | nil => simp [hum]
            | cons c cs => simp [hum]
    rw [← hres]
    by_cases hr : CheckSmart.resolved host configFile [] = []
    · rw [if_pos hr]
      simp [hr]
    · rw [if_neg hr]
      simp only [hr, iff_false]
      intro h
      exact hr (congrArg Resolution.devices h)
  · rw [checkSmartStatus_checkArgs_eq]
  · rw [checkSmartTests_checkArgs_eq]

/-! ### check-fstab-mounts: the entries the mount check skips -/

theorem strings.HasPrefix_hash_iff (s : Str) :
    strings.HasPrefix s "#".toList = true ↔ s.head? = some '#' := by
  cases s with
  | nil => simp [strings.HasPrefix]
  | cons c s =>
    show strings.HasPrefix (c :: s) ['#'] = true ↔ _
    simp [strings.HasPrefix]

theorem CheckFstabMounts.skips_iff (entry : CheckFstabMounts.FstabEntry) :
    CheckFstabMounts.Skips entry ↔
      entry.FSType = "swap".toList ∨ "bind".toList <:+: entry.Options
        ∨ entry.MountPoint = [] ∨ entry.MountPoint.head? = some '#' := by
  rw [← strings.Contains_iff, ← strings.HasPrefix_hash_iff]
  constructor
  · intro h
    have h0 := h (fun _ => false) []
    unfold CheckFstabMounts.executeCheck.loop at h0
    by_cases c1 : entry.FSType = "swap".toList
        ∨ strings.Contains entry.Options "bind".toList = true
    · rcases c1 with c | c
      · exact Or.inl c
      · exact Or.inr (Or.inl c)
    · rw [if_neg c1] at h0
      by_cases c2 : strings.HasPrefix entry.MountPoint "#".toList = true ∨ entry.MountPoint = []
      · rcases c2 with c | c
        · exact Or.inr (Or.inr (Or.inr c))
        · exact Or.inr (Or.inr (Or.inl c))
      · rw [if_neg c2, if_pos rfl] at h0
        simp at h0
  · intro h mounted unmounted
    unfold CheckFstabMounts.executeCheck.loop
    rcases h with c | c | c | c
    · rw [if_pos (Or.inl c)]
    · rw [if_pos (Or.inr c)]
    · split_ifs <;> first | rfl | exact absurd (Or.inr c) (by assumption)
    · split_ifs <;> first | rfl | exact absurd (Or.inl c) (by assumption)

theorem CheckFstabMounts.shouldSkipEntry_iff (entry : CheckFstabMounts.FstabEntry) :
    CheckFstabMounts.shouldSkipEntry entry = true ↔
      entry.FSType = "swap".toList ∨ entry.MountPoint = "null".toList
        ∨ entry.MountPoint = [] ∨ entry.MountPoint.head? = some '#' := by
  unfold CheckFstabMounts.shouldSkipEntry
  by_cases c1 : entry.FSType = "swap".toList
  · simp only [if_pos c1, true_iff]
    exact Or.inl c1
  · rw [if_neg c1]
    by_cases c2 : entry.MountPoint = "null".toList ∨ entry.MountPoint = []
        ∨ (entry.MountPoint.length > 0 ∧ entry.MountPoint.head? = some '#')
    · simp only [if_pos c2, true_iff]
      rcases c2 with c | c | c
      · exact Or.inr (Or.inl c)
      · exact Or.inr (Or.inr (Or.inl c))
      · exact Or.inr (Or.inr (Or.inr c.2))
    · simp only [if_neg c2, Bool.false_eq_true, false_iff]
      rintro (c | c | c | c)
      · exact c1 c
      · exact c2 (Or.inl c)
      · exact c2 (Or.inr (Or.inl c))
      · refine c2 (Or.inr (Or.inr ⟨?_, c⟩))
        cases hm : entry.MountPoint with
        | nil => rw [hm] at c; simp at c
        | cons a l => simp

/-- **C17, counterexample.** The skip condition of the loop in `executeCheck`
and `shouldSkipEntry` do not agree on every entry. The bind mount of
"/srv/data" on "/export/data" is skipped by the loop, and `shouldSkipEntry`
returns false for it. The entry with mount point "null" makes `shouldSkipEntry`
return true, and the loop reports it as "null (/dev/sda1)" when no such path is
mounted. -/
theorem C17_counterexample :
    (CheckFstabMounts.Skips
          ⟨"/srv/data".toList, "/export/data".toList, "none".toList, "bind".toList⟩
        ∧ CheckFstabMounts.shouldSkipEntry
          ⟨"/srv/data".toList, "/export/data".toList, "none".toList, "bind".toList⟩ = false)
      ∧ (CheckFstabMounts.shouldSkipEntry
          ⟨"/dev/sda1".toList, "null".toList, "ext4".toList, "defaults".toList⟩ = true
        ∧ CheckFstabMounts.executeCheck.loop (fun _ => false) []
            ⟨"/dev/sda1".toList, "null".toList, "ext4".toList, "defaults".toList⟩
          = ["null (/dev/sda1)".toList]
        ∧ ¬ CheckFstabMounts.Skips
            ⟨"/dev/sda1".toList, "null".toList, "ext4".toList, "defaults".toList⟩) := by
  refine ⟨⟨?_, by decide⟩, by decide, by decide, ?_⟩
  · rw [CheckFstabMounts.skips_iff]
    exact Or.inr (Or.inl (by rw [← strings.Contains_iff]; decide))
  · intro h
    have h0 := h (fun _ => false) []
    revert h0
    decide

/-- **C17, amended.** For every fstab entry whose mount point is not "null",
the mount check skips the entry exactly when `shouldSkipEntry` returns true or
its options contain "bind", that is exactly when its FSType is "swap", its
Options contain "bind", or its MountPoint is empty or starts with '#'. So the
skip condition inside the loop of `executeCheck` and `shouldSkipEntry` agree on
every such entry whose options do not contain "bind". An entry that is not
skipped is reported as "<mount point> (<device>)" exactly when its mount point
is not among the mounted paths. In particular an ext4 entry with mount point
"/" and options "defaults" is not skipped. -/
theorem C17_skip_condition_of_the_mount_check (entry : CheckFstabMounts.FstabEntry)
    (hnull : entry.MountPoint ≠ "null".toList) :
    (CheckFstabMounts.Skips entry ↔
        CheckFstabMounts.shouldSkipEntry entry = true ∨ "bind".toList <:+: entry.Options)
      ∧ (CheckFstabMounts.Skips entry ↔
        entry.FSType = "swap".toList ∨ "bind".toList <:+: entry.Options
          ∨ entry.MountPoint = [] ∨ entry.MountPoint.head? = some '#')
      ∧ (¬ "bind".toList <:+: entry.Options →
        (CheckFstabMounts.Skips entry ↔ CheckFstabMounts.shouldSkipEntry entry = true))
      ∧ (¬ CheckFstabMounts.Skips entry →
        ∀ (mounted : Str → Bool) (unmounted : List Str),
          CheckFstabMounts.executeCheck.loop mounted unmounted entry
            = if mounted entry.MountPoint = false then
                unmounted ++ [entry.MountPoint ++ " (".toList ++ entry.Device ++ ")".toList]
              else unmounted)
      ∧ (∀ device : Str,
        ¬ CheckFstabMounts.Skips ⟨device, "/".toList, "ext4".toList, "defaults".toList⟩
          ∧ CheckFstabMounts.shouldSkipEntry
              ⟨device, "/".toList, "ext4".toList, "defaults".toList⟩ = false) := by
  have hs := CheckFstabMounts.skips_iff entry
  have hh := CheckFstabMounts.shouldSkipEntry_iff entry
  refine ⟨?_, hs, ?_, ?_, ?_⟩
  · rw [hs, hh]
    constructor
    · rintro (c | c | c | c)
      · exact Or.inl (Or.inl c)
      · exact Or.inr c
      · exact Or.inl (Or.inr (Or.inr (Or.inl c)))
      · exact Or.inl (Or.inr (Or.inr (Or.inr c)))
    · rintro ((c | c | c | c) | c)
      · exact Or.inl c
      · exact absurd c hnull
      · exact Or.inr (Or.inr (Or.inl c))
      · exact Or.inr (Or.inr (Or.inr c))
      · exact Or.inr (Or.inl c)
  · intro hb
    rw [hs, hh]
    constructor
    · rintro (c | c | c | c)
      · exact Or.inl c
      · exact absurd c hb
      · exact Or.inr (Or.inr (Or.inl c))
      · exact Or.inr (Or.inr (Or.inr c))
    · rintro (c | c | c | c)
      · exact Or.inl c
      · exact absurd c hnull
      · exact Or.inr (Or.inr (Or.inl c))
      · exact Or.inr (Or.inr (Or.inr c))
  · intro hns mounted unmounted
    rw [hs, ← strings.Contains_iff, ← strings.HasPrefix_hash_iff] at hns
    unfold CheckFstabMounts.executeCheck.loop
    rw [if_neg (fun c => hns (by tauto)), if_neg (fun c => hns (by tauto))]
  · intro device
    refine ⟨?_, by
      rw [← Bool.not_eq_true, CheckFstabMounts.shouldSkipEntry_iff]
      simp only []
      decide⟩
    rw [CheckFstabMounts.skips_iff, ← strings.Contains_iff]
    simp only []
    decide

/-- Instance of the amended C17: the ext4 entry of "/dev/sda1" on "/" with
options "defaults" is not skipped, and `shouldSkipEntry` agrees. -/
theorem C17_skip_condition_witness :
    ("/".toList ≠ "null".toList)
      ∧ ¬ CheckFstabMounts.Skips
          ⟨"/dev/sda1".toList, "/".toList, "ext4".toList, "defaults".toList⟩
      ∧ CheckFstabMounts.shouldSkipEntry
          ⟨"/dev/sda1".toList, "/".toList, "ext4".toList, "defaults".toList⟩ = false :=
  ⟨by decide,
    (C17_skip_condition_of_the_mount_check
      ⟨"/dev/sda1".toList, "/".toList, "ext4".toList, "defaults".toList⟩
      (by decide)).2.2.2.2 "/dev/sda1".toList⟩

/-! ### sanitizePath -/

theorem MetricsDiskUsage.sanitizePath_loop_succ (i : Nat) (s acc : Str) :
    MetricsDiskUsage.sanitizePath.loop (i + 1) s acc
      = acc ++ s.map (fun c => if c = '/' then '_' else c) := by
  induction s generalizing i acc with
  | nil => simp [MetricsDiskUsage.sanitizePath.loop]
  | cons c rest ih =>
    unfold MetricsDiskUsage.sanitizePath.loop
    rw [if_neg (by omega)]
    by_cases hc : c = '/'
    · rw [if_pos hc, ih]
      simp [hc]
    · rw [if_neg hc, ih]
      simp [hc]

theorem MetricsDiskUsage.sanitizePath_loop_zero (s : Str) :
    MetricsDiskUsage.sanitizePath.loop 0 s [] = MetricsDiskUsage.withoutSlashes s := by
  cases s with
  | nil => rfl
  | cons c rest =>
    unfold MetricsDiskUsage.sanitizePath.loop MetricsDiskUsage.withoutSlashes
    by_cases hc : c = '/'
    · subst hc
      rw [if_pos ⟨rfl, rfl⟩, MetricsDiskUsage.sanitizePath_loop_succ]
      simp
    · rw [if_neg (fun h => hc h.2), if_neg hc, MetricsDiskUsage.sanitizePath_loop_succ]
      simp [hc]

theorem MetricsDiskCapacity.sanitizePath_loop_eq (i : Nat) (s acc : Str) :
    MetricsDiskCapacity.sanitizePath.loop i s acc = MetricsDiskUsage.sanitizePath.loop i s acc := by
  induction s generalizing i acc with
  | nil => simp [MetricsDiskCapacity.sanitizePath.loop, MetricsDiskUsage.sanitizePath.loop]
  | cons c rest ih =>
    unfold MetricsDiskCapacity.sanitizePath.loop MetricsDiskUsage.sanitizePath.loop
    simp only [ih]

theorem MetricsDiskUsage.not_mem_withoutSlashes (path : Str) :
    '/' ∉ MetricsDiskUsage.withoutSlashes path := by
  unfold MetricsDiskUsage.withoutSlashes
  rw [List.mem_map]
  rintro ⟨c, _, hc⟩
  by_cases h : c = '/'
  · rw [if_pos h] at hc
    exact absurd hc (by decide)
  · rw [if_neg h] at hc
    exact h hc

/-- **C18.** For every mount path, `sanitizePath` returns "root" for "/", and
otherwise the path with a leading slash removed and every remaining slash
replaced by an underscore; the result never contains the character '/'; and
the copies of `sanitizePath` in metrics-disk-usage and metrics-disk-capacity
return the same result on every input. For example "/var/log" gives
"var_log", and so does "var/log". -/
theorem C18_sanitizePath_removes_every_slash (path : Str) :
    MetricsDiskUsage.sanitizePath "/".toList = "root".toList
      ∧ (path ≠ "/".toList →
        MetricsDiskUsage.sanitizePath path = MetricsDiskUsage.withoutSlashes path)
      ∧ '/' ∉ MetricsDiskUsage.sanitizePath path
      ∧ MetricsDiskCapacity.sanitizePath path = MetricsDiskUsage.sanitizePath path
      ∧ MetricsDiskUsage.sanitizePath "/var/log".toList = "var_log".toList
      ∧ MetricsDiskUsage.sanitizePath "var/log".toList = "var_log".toList
      ∧ MetricsDiskCapacity.sanitizePath "/boot/efi".toList = "boot_efi".toList := by
  refine ⟨by decide, ?_, ?_, ?_, by decide, by decide, by decide⟩
  · intro h
    unfold MetricsDiskUsage.sanitizePath
    rw [if_neg h, MetricsDiskUsage.sanitizePath_loop_zero]
  · unfold MetricsDiskUsage.sanitizePath
    by_cases h : path = "/".toList
    · rw [if_pos h]
      decide
    · rw [if_neg h, MetricsDiskUsage.sanitizePath_loop_zero]
      exact MetricsDiskUsage.not_mem_withoutSlashes path
  · unfold MetricsDiskCapacity.sanitizePath MetricsDiskUsage.sanitizePath
    rw [MetricsDiskCapacity.sanitizePath_loop_eq]
